import Mathlib

/-!
# ctfd-manager: the reconciliation engine

A shallow embedding of the watch loop of `ctfd-manager` (`challenge-watcher.go`,
`cluster.go`, `page.go`, `challenge.go`, `ctfd-challenges.go`, `ctfd-page.go`,
`github.go`) and theorems about it.

Conventions of the embedding.

* A Go `map[string]string` is a list of entries with pairwise distinct keys; the
  order of the list stands for the (unspecified) order in which the map was
  built.  A nil map is `none`.
* A Go `(value, error)` result is an `Except String value`.  Where a run-time panic
  can happen on the way (the nil dereference of `getGithubFileBytes` on a directory)
  the result is a `Result value`, with the panic as third outcome.
* The cluster, the content service and the source-control service are outside
  the program.  Every call to one of them is appended to `World.trace`; the
  answer of a service is given by `Env`, as a function of the calls made so
  far.  The cluster is a store of config maps whose `Get` and `Update` can in
  addition fail as `Env` says.
* Library routines (`sha256.Sum256`, `json.Unmarshal`) are fields of `Env`.
* `log.Printf` lines are left out: they have no effect on the state.
-/

namespace CtfdManager

deriving instance DecidableEq for Except

/-! ## Go maps -/

/-- A list of key/value pairs. -/
abbrev Entries := List (String × String)

/-- The keys of a list of entries. -/
def keys (m : Entries) : List String := m.map Prod.fst

/-- A non-nil `map[string]string`: its entries, in the order they were inserted,
with pairwise distinct keys. -/
structure GoMap where
  entries : Entries
  nodup : (keys entries).Nodup
deriving DecidableEq

/-- The map `make(map[string]string)`. -/
def GoMap.empty : GoMap := ⟨[], List.nodup_nil⟩

/-- The comma-ok read `v, ok := m[k]`; a nil map reads as empty. -/
def lookupOk (m : Option GoMap) (k : String) : Option String :=
  match m with
  | none => none
  | some m => m.entries.lookup k

/-- The plain read `m[k]`: the zero value when the key is absent. -/
def index (m : Option GoMap) (k : String) : String :=
  (lookupOk m k).getD ""

/-- The write `m[k] = v` on the entries: replace the value of `k`, or add the pair. -/
def setEntry : Entries → String → String → Entries
  | [], k, v => [(k, v)]
  | (k', v') :: rest, k, v =>
    if k' = k then (k, v) :: rest else (k', v') :: setEntry rest k v

/-- The write `m[k] = v` on a non-nil map. -/
def GoMap.set (m : GoMap) (k v : String) : GoMap :=
  ⟨setEntry m.entries k v, by
    have step : ∀ es : Entries, (keys es).Nodup →
        (keys (setEntry es k v)).Nodup ∧ ∀ x ∈ keys (setEntry es k v), x = k ∨ x ∈ keys es := by
      intro es
      induction es with
      | nil => intro _; simp [setEntry, keys]
      | cons p rest ih =>
        intro h
        obtain ⟨k', v'⟩ := p
        simp only [keys, List.map_cons, List.nodup_cons] at h
        by_cases hk : k' = k
        · subst hk
          simp only [setEntry, if_true, keys, List.map_cons, List.nodup_cons]
          exact ⟨⟨h.1, h.2⟩, fun x hx => by simpa using hx⟩
        · have ih' := ih h.2
          simp only [setEntry, hk, if_false, keys, List.map_cons, List.nodup_cons]
          refine ⟨⟨?_, ih'.1⟩, ?_⟩
          · intro hmem
            rcases ih'.2 k' hmem with e | e
            · exact hk e
            · exact h.1 e
          · intro x hx
            rcases List.mem_cons.1 hx with e | e
            · right; simp [e]
            · rcases ih'.2 x e with e' | e'
              · left; exact e'
              · right; exact List.mem_cons_of_mem _ e'
    exact (step m.entries m.nodup).1⟩

/-- The map built by inserting the pairs of a list one after the other. -/
def GoMap.ofList (l : Entries) : GoMap :=
  l.foldl (fun acc kv => acc.set kv.1 kv.2) GoMap.empty

/-- The loop `for key, value := range src { dst[key] = value }`. -/
def mergeInto (dst : GoMap) (src : GoMap) : GoMap :=
  src.entries.foldl (fun acc kv => acc.set kv.1 kv.2) dst

/-! ## Config objects -/

/-- The part of `corev1.ConfigMap` the program reads. -/
structure ConfigMap where
  Name : String
  Labels : GoMap
  Data : Option GoMap
deriving DecidableEq

/-! ## `encoding/json`, `encoding/hex`, `strconv` -/

/-- One lower-case hexadecimal digit. -/
def hexDigit (n : Nat) : Char :=
  "0123456789abcdef".toList.getD n '0'

/-- The escape `\u00XX` or `\uXXXX` of a code point below 0x10000. -/
def jsonUnicodeEscape (n : Nat) : List Char :=
  ['\\', 'u', hexDigit (n / 4096 % 16), hexDigit (n / 256 % 16),
    hexDigit (n / 16 % 16), hexDigit (n % 16)]

/-- The encoding of one character inside a JSON string, as `json.Marshal`
writes it (HTML-safe escaping on). -/
def jsonEscapeChar (c : Char) : List Char :=
  if c = '"' then ['\\', '"']
  else if c = '\\' then ['\\', '\\']
  else if c = '\n' then ['\\', 'n']
  else if c = '\r' then ['\\', 'r']
  else if c = '\t' then ['\\', 't']
  else if c.toNat = 8 then ['\\', 'b']
  else if c.toNat = 12 then ['\\', 'f']
  else if c.toNat < 32 then jsonUnicodeEscape c.toNat
  else if c = '<' ∨ c = '>' ∨ c = '&' then jsonUnicodeEscape c.toNat
  else if c.toNat = 8232 ∨ c.toNat = 8233 then jsonUnicodeEscape c.toNat
  else [c]

/-- A JSON string literal. -/
def jsonString (s : String) : String :=
  String.mk ('"' :: (s.toList.flatMap jsonEscapeChar ++ ['"']))

/-- Lexicographic comparison of two character sequences by code point, which is
the byte-wise order of their UTF-8 encodings (`strings.Compare ≤ 0`). -/
def charsLe : List Char → List Char → Bool
  | [], _ => true
  | _ :: _, [] => false
  | a :: as, b :: bs =>
    if a.toNat < b.toNat then true
    else if b.toNat < a.toNat then false
    else charsLe as bs

/-- The order in which `json.Marshal` sorts the keys of a map. -/
def keyLe (a b : String) : Bool := charsLe a.toList b.toList

/-- The entries of a map in the order `json.Marshal` writes them: sorted by key. -/
def sortEntries (m : Entries) : Entries :=
  m.insertionSort (fun a b => keyLe a.1 b.1 = true)

/-- The call `json.Marshal(m)` for `m : map[string]string`.  It has no error case for
this type; the result type keeps the shape of the Go signature. -/
def jsonMarshal (m : Option GoMap) : Except String String :=
  match m with
  | none => .ok "null"
  | some es =>
    .ok ("\x7b" ++ ",".intercalate
      ((sortEntries es.entries).map fun kv => jsonString kv.1 ++ ":" ++ jsonString kv.2) ++ "\x7d")

/-- The result of `sha256.Sum256`: an array of 32 bytes. -/
structure Digest where
  bytes : List (Fin 256)
  size : bytes.length = 32

/-- The call `hex.EncodeToString`. -/
def hexEncodeToString (bs : List (Fin 256)) : String :=
  String.mk (bs.flatMap fun b => [hexDigit (b.val / 16), hexDigit (b.val % 16)])

/-- The decimal digits of a natural number, most significant first. -/
def natDigits : Nat → Nat → List Char
  | 0, _ => []
  | fuel + 1, n =>
    if n < 10 then [hexDigit n] else natDigits fuel (n / 10) ++ [hexDigit (n % 10)]

/-- The call `strconv.Itoa`. -/
def itoa (n : Int) : String :=
  match n with
  | .ofNat k => String.mk (natDigits (k + 1) k)
  | .negSucc k => String.mk ('-' :: natDigits (k + 2) (k + 1))

/-- The value of a decimal digit. -/
def digitValue (c : Char) : Option Nat :=
  if '0' ≤ c ∧ c ≤ '9' then some (c.toNat - '0'.toNat) else none

/-- The value of a non-empty run of decimal digits. -/
def parseDigits : List Char → Option Nat
  | [] => none
  | cs => cs.foldl (fun acc c => match acc, digitValue c with
      | some a, some d => some (a * 10 + d)
      | _, _ => none) (some 0)

/-- The function `strconv.IsPrint` on the code points below 0x100; the code points from
0x100 on are taken as printable. -/
def isPrint (c : Char) : Bool :=
  (0x20 ≤ c.toNat && c.toNat ≤ 0x7e) || (0xa1 ≤ c.toNat && c.toNat ≠ 0xad)

/-- The encoding of one character by `strconv.Quote`. -/
def quoteChar (c : Char) : List Char :=
  if c = '"' then ['\\', '"']
  else if c = '\\' then ['\\', '\\']
  else if isPrint c then [c]
  else if c.toNat = 7 then ['\\', 'a']
  else if c.toNat = 8 then ['\\', 'b']
  else if c.toNat = 12 then ['\\', 'f']
  else if c = '\n' then ['\\', 'n']
  else if c = '\r' then ['\\', 'r']
  else if c = '\t' then ['\\', 't']
  else if c.toNat = 11 then ['\\', 'v']
  else if c.toNat < 0x80 then ['\\', 'x', hexDigit (c.toNat / 16), hexDigit (c.toNat % 16)]
  else if c.toNat < 0x10000 then jsonUnicodeEscape c.toNat
  else
    ['\\', 'U', hexDigit (c.toNat / 0x10000000 % 16), hexDigit (c.toNat / 0x1000000 % 16),
      hexDigit (c.toNat / 0x100000 % 16), hexDigit (c.toNat / 0x10000 % 16),
      hexDigit (c.toNat / 0x1000 % 16), hexDigit (c.toNat / 0x100 % 16),
      hexDigit (c.toNat / 0x10 % 16), hexDigit (c.toNat % 16)]

/-- The call `strconv.Quote`. -/
def strconvQuote (s : String) : String :=
  String.mk ('"' :: (s.toList.flatMap quoteChar ++ ['"']))

/-- The text of a `*strconv.NumError` of `Atoi`. -/
def atoiError (s : String) (err : String) : String :=
  "strconv.Atoi: parsing " ++ strconvQuote s ++ ": " ++ err

/-- The call `strconv.Atoi` on a 64-bit platform: an optional sign, then decimal
digits, within the range of `int`. -/
def atoi (s : String) : Except String Int :=
  let body (cs : List Char) (neg : Bool) : Except String Int :=
    match parseDigits cs with
    | none => .error (atoiError s "invalid syntax")
    | some n =>
      if neg then
        if n ≤ 2 ^ 63 then .ok (-(n : Int)) else .error (atoiError s "value out of range")
      else
        if n < 2 ^ 63 then .ok (n : Int) else .error (atoiError s "value out of range")
  match s.toList with
  | '-' :: cs => body cs true
  | '+' :: cs => body cs false
  | cs => body cs false

/-! ## Domain records (`challenge.go`, `page.go`, `cluster.go`) -/

/-- One flag definition of a challenge. -/
structure FlagDef where
  Flag : String
  CaseSensitive : Bool
deriving DecidableEq

/-- One entry of `dockerfile_locations`. -/
structure DockerfileLocation where
  Context : String
  Location : String
  Identifier : String
deriving DecidableEq

/-- The record `Challenge`; the field `Type` of the source is `Typ` here. -/
structure Challenge where
  Schema : String
  Enabled : Bool
  Name : String
  Slug : String
  Author : String
  Prerequisites : List String
  Category : String
  Difficulty : String
  Tags : List String
  Typ : String
  InstancedType : String
  InstancedName : String
  InstancedSubdomains : List String
  Connection : String
  Flag : List FlagDef
  Points : Int
  Decay : Int
  MinPoints : Int
  DescriptionLocation : String
  DockerfileLocations : List DockerfileLocation
deriving DecidableEq

/-- The record `ChallengeConfig`. -/
structure ChallengeConfig where
  Name : String
  Path : String
  Repository : String
  Challenge : Challenge
  Description : String
  GeneratedAt : String
deriving DecidableEq

/-- The record `Page`. -/
structure Page where
  Slug : String
  Title : String
  Route : String
  AuthRequired : Bool
  Nonce : String
  Draft : Bool
  Format : String
  Enabled : Bool
  Content : String
deriving DecidableEq

/-- The record `PageConfig`. -/
structure PageConfig where
  Slug : String
  Name : String
  Path : String
  Repository : String
  Page : Page
  GeneratedAt : String
deriving DecidableEq

/-- The record `MappingMap`; a nil map and an empty map read alike. -/
structure MappingMap where
  Categories : GoMap
  Difficulties : GoMap
  DifficultyMapping : GoMap
deriving DecidableEq

/-! ## Parameters of the content service -/

/-- The fields of `ctfd.PostChallengesParams` that the program sets. -/
structure PostChallengesParams where
  Name : String
  Category : String
  Description : String
  Initial : Int
  Decay : Int
  Minimum : Int
  State : String
  Typ : String
  ConnectionInfo : String
deriving DecidableEq

/-- The fields of `ctfd.PatchChallengeParams` that the program sets. -/
structure PatchChallengeParams where
  Name : String
  Category : String
  Description : String
  Initial : Int
  Decay : Int
  Minimum : Int
  State : String
  ConnectionInfo : String
deriving DecidableEq

/-- The record `KubeCTFPostChallengeParams`. -/
structure KubeCTFPostChallengeParams where
  PostChallengesParams : PostChallengesParams
  TemplateName : String
  InstanceType : String
deriving DecidableEq

/-- The record `KubeCTFPatchChallengeParams`. -/
structure KubeCTFPatchChallengeParams where
  PatchChallengeParams : PatchChallengeParams
  TemplateName : String
  InstanceType : String
deriving DecidableEq

/-- The record `CTFdStateParams`. -/
structure CTFdStateParams where
  State : String
deriving DecidableEq

/-- The fields of `ctfd.PostPagesParams` and `ctfd.PatchPageParams` that the
program sets (the two have the same fields). -/
structure PageParams where
  Title : String
  Route : String
  AuthRequired : Bool
  Nonce : String
  Draft : Bool
  Format : String
  Hidden : Bool
  Content : String
deriving DecidableEq

/-- One file handed to `PostFiles`. -/
structure InputFile where
  Name : String
  Content : String
deriving DecidableEq

/-! ## The world outside the program -/

/-- A call to the cluster, to the content service or to source control. -/
inductive Call where
  | clusterGet (name : String)
  | clusterUpdate (cm : ConfigMap)
  | clusterWatch
  | getNonceAndSession
  | getChallenges
  | postChallenges (p : PostChallengesParams)
  | postKubeCTFChallenge (p : KubeCTFPostChallengeParams)
  | patchChallenge (id : Int) (p : PatchChallengeParams)
  | patchKubeCTFChallenge (id : String) (p : KubeCTFPatchChallengeParams)
  | patchChallengeState (id : Int) (p : CTFdStateParams)
  | getChallengeFiles (id : Int)
  | deleteFile (id : String)
  | postFiles (challenge : Int) (files : List InputFile)
  | getChallengeFlags (id : Int)
  | deleteFlag (id : String)
  | postFlags (challenge : Int) (content : String) (type : String) (data : String)
  | getTags (challenge : Int)
  | deleteTag (id : String)
  | postTags (challenge : Int) (value : String)
  | getPages
  | postPages (p : PageParams)
  | patchPage (id : String) (p : PageParams)
  | deletePage (id : String)
  | githubDirContents (path : String)
  | githubFileBytes (path : String)
deriving DecidableEq

/-- A Go `error`: `none` is nil. -/
abbrev GoError := Option String

/-- What the program does not define: the library routines it calls and the
answers of the three collaborators.  A collaborator answers as a function of
the calls made before (`List Call`) and of the arguments of the call. -/
structure Env where
  /-- The routine `sha256.Sum256` on the bytes of a JSON text. -/
  sum256 : String → Digest
  /-- The routine `json.Unmarshal` into a zero `Challenge`. -/
  unmarshalChallenge : String → Except String Challenge
  /-- The routine `json.Unmarshal` into a zero `Page`. -/
  unmarshalPage : String → Except String Page
  /-- The routine `json.Unmarshal` into an empty `map[string]string`. -/
  unmarshalStringMap : String → Except String GoMap
  /-- A failure of the cluster API on `Get`, if any. -/
  clusterGetError : List Call → String → GoError
  /-- A failure of the cluster API on `Update`, if any. -/
  clusterUpdateError : List Call → ConfigMap → GoError
  getNonceAndSession : List Call → GoError
  /-- The ids of the challenges listed by `GetChallenges`. -/
  getChallenges : List Call → Except String (List Int)
  /-- The id of the challenge created by `PostChallenges`. -/
  postChallenges : List Call → PostChallengesParams → Except String Int
  /-- The id of the challenge created by `Post("/challenges", ...)`. -/
  postKubeCTFChallenge : List Call → KubeCTFPostChallengeParams → Except String Int
  /-- The id of the challenge returned by `PatchChallenge`. -/
  patchChallenge : List Call → Int → PatchChallengeParams → Except String Int
  /-- The id of the challenge returned by `Patch("/challenges/<id>", ...)`. -/
  patchKubeCTFChallenge : List Call → String → KubeCTFPatchChallengeParams → Except String Int
  patchChallengeState : List Call → Int → CTFdStateParams → GoError
  /-- The ids of the files of a challenge. -/
  getChallengeFiles : List Call → Int → Except String (List Int)
  deleteFile : List Call → String → GoError
  postFiles : List Call → Int → List InputFile → GoError
  /-- The ids of the flags of a challenge. -/
  getChallengeFlags : List Call → Int → Except String (List Int)
  deleteFlag : List Call → String → GoError
  postFlags : List Call → Int → String → String → String → GoError
  /-- The ids of the tags of a challenge. -/
  getTags : List Call → Int → Except String (List Int)
  deleteTag : List Call → String → GoError
  postTags : List Call → Int → String → GoError
  /-- The id of the page created by `PostPages`. -/
  postPages : List Call → PageParams → Except String Int
  /-- The id of the page returned by `PatchPage`. -/
  patchPage : List Call → String → PageParams → Except String Int
  deletePage : List Call → String → GoError
  /-- The names of the entries of a directory of the repository. -/
  githubDirContents : List Call → String → Except String (List String)
  /-- What the library calls of `getGithubFileBytes` give for a path: an error, the
  content of the file, or no file content at all (`none`): `Repositories.GetContents`
  answers with a nil file content and no error when the path is a directory. -/
  githubFileBytes : List Call → String → Except String (Option String)

/-- The state the program acts on: the config maps of the namespace, the calls
made so far, and the process-wide health flag. -/
structure World where
  cluster : String → Option ConfigMap
  trace : List Call
  health : Bool

/-- Append a call to the trace. -/
def World.record (w : World) (c : Call) : World :=
  { w with trace := w.trace ++ [c] }

/-! ## Cluster access (`cluster.go`) -/

/-- The call `clientset.CoreV1().ConfigMaps(namespace).Get`. -/
def clusterGet (env : Env) (name : String) (w : World) : Except String ConfigMap × World :=
  match env.clusterGetError w.trace name with
  | some e => (.error e, w.record (.clusterGet name))
  | none =>
    match w.cluster name with
    | none => (.error ("configmap not found: " ++ name), w.record (.clusterGet name))
    | some cm => (.ok { cm with Name := name }, w.record (.clusterGet name))

/-- The call `clientset.CoreV1().ConfigMaps(namespace).Update`. -/
def clusterUpdate (env : Env) (cm : ConfigMap) (w : World) : GoError × World :=
  match env.clusterUpdateError w.trace cm with
  | some e => (some e, w.record (.clusterUpdate cm))
  | none =>
    match w.cluster cm.Name with
    | none => (some ("configmap not found: " ++ cm.Name), w.record (.clusterUpdate cm))
    | some _ =>
      (none, { cluster := fun n => if n = cm.Name then some cm else w.cluster n,
               trace := w.trace ++ [.clusterUpdate cm],
               health := w.health })

/-- The function `getConfigMap`. -/
def getConfigMap (env : Env) (name : String) (w : World) : Except String ConfigMap × World :=
  clusterGet env name w

/-- The function `updateConfigMap`.  The client never returns a nil object without an
error, so the `configMap == nil` branch of the source is not reachable. -/
def updateConfigMap (env : Env) (name : String) (data : GoMap) (w : World) :
    GoError × World :=
  match getConfigMap env name w with
  | (.error e, w1) => (some e, w1)
  | (.ok configMap, w1) =>
    let old : GoMap := match configMap.Data with
      | none => GoMap.empty
      | some es => es
    clusterUpdate env { configMap with Data := some (mergeInto old data) } w1

/-- A call to a collaborator that returns a value or an error. -/
def callValue {α : Type} (c : Call) (answer : List Call → Except String α) (w : World) :
    Except String α × World :=
  (answer w.trace, w.record c)

/-- A call to a collaborator that returns only an error. -/
def callError (c : Call) (answer : List Call → GoError) (w : World) : GoError × World :=
  (answer w.trace, w.record c)

/-! ## Classifier and fingerprint store (`challenge-watcher.go`) -/

/-- The function `getConfigMapType`; the argument is a pointer, `none` is nil. -/
def getConfigMapType (configMap : Option ConfigMap) : String :=
  match configMap with
  | none => "unknown"
  | some cm =>
    match lookupOk (some cm.Labels) "challenges.kube-ctf.io/configmap" with
    | some _ =>
      if index (some cm.Labels) "challenges.kube-ctf.io/configmap" = "challenge-config" then
        "challenge"
      else if index (some cm.Labels) "challenges.kube-ctf.io/configmap" = "page-config" then
        "page"
      else "unknown"
    | none => "unknown"

/-- The function `getHashForConfigMap`. -/
def getHashForConfigMap (env : Env) (configMap : ConfigMap) : Except String String :=
  match jsonMarshal configMap.Data with
  | .error e => .error e
  | .ok data => .ok (hexEncodeToString (env.sum256 data).bytes)

/-- The function `getConfigmapHashSet`. -/
def getConfigmapHashSet (env : Env) (w : World) : Except String (Option GoMap) × World :=
  match getConfigMap env "challenge-configmap-hashset" w with
  | (.error e, w1) => (.error e, w1)
  | (.ok cm, w1) => (.ok cm.Data, w1)

/-- The function `getConfigmapStoredHash`. -/
def getConfigmapStoredHash (env : Env) (configmapName : String) (w : World) :
    Except String String × World :=
  match getConfigmapHashSet env w with
  | (.error e, w1) => (.error e, w1)
  | (.ok hashSet, w1) =>
    match lookupOk hashSet configmapName with
    | none => (.ok "", w1)
    | some hash => (.ok hash, w1)

/-- The function `storeConfigmapHash`. -/
def storeConfigmapHash (env : Env) (configmapName hash : String) (w : World) :
    GoError × World :=
  match getConfigmapHashSet env w with
  | (.error e, w1) => (some e, w1)
  | (.ok configMap, w1) =>
    let data : GoMap := match configMap with
      | none => GoMap.empty
      | some es => es
    updateConfigMap env "challenge-configmap-hashset" (data.set configmapName hash) w1

/-- The function `hasBeenDeployed`. -/
def hasBeenDeployed (env : Env) (configMap : ConfigMap) (w : World) : Bool × World :=
  match getHashForConfigMap env configMap with
  | .error _ => (false, w)
  | .ok newHash =>
    match getConfigmapStoredHash env configMap.Name w with
    | (.error _, w1) => (false, w1)
    | (.ok oldHash, w1) => (decide (newHash = oldHash), w1)

/-! ## Extractors (`cluster.go`, `page.go`) -/

/-- The first element of a list of required keys that the payload lacks: the loop
`for _, element := range requiredElements` with its early return. -/
def firstMissing (data : Option GoMap) (requiredElements : List String) : Option String :=
  requiredElements.find? fun element => (lookupOk data element).isNone

/-- The function `extractChallengeConfigMap`. -/
def extractChallengeConfigMap (env : Env) (configMap : ConfigMap) :
    Except String ChallengeConfig :=
  match firstMissing configMap.Data ["name", "path", "repository", "challenge", "description"] with
  | some element => .error ("Configmap does not contain the required element: " ++ element)
  | none =>
    match env.unmarshalChallenge (index configMap.Data "challenge") with
    | .error e => .error e
    | .ok challenge =>
      .ok { Name := index configMap.Data "name"
            Path := index configMap.Data "path"
            Repository := index configMap.Data "repository"
            Challenge := challenge
            Description := index configMap.Data "description"
            GeneratedAt := index configMap.Data "generated_at" }

/-- The function `extractPageConfigMap`; the argument is a pointer, `none` is nil. -/
def extractPageConfigMap (env : Env) (configMap : Option ConfigMap) :
    Except String PageConfig :=
  match configMap with
  | none => .error "configMap is nil"
  | some cm =>
    match firstMissing cm.Data ["slug", "name", "path", "repository", "page", "generated_at"] with
    | some element => .error ("Configmap does not contain the required element: " ++ element)
    | none =>
      match env.unmarshalPage (index cm.Data "page") with
      | .error e => .error e
      | .ok page =>
        .ok { Slug := index cm.Data "slug"
              Name := index cm.Data "name"
              Path := index cm.Data "path"
              Repository := index cm.Data "repository"
              Page := { page with Content := index cm.Data "content" }
              GeneratedAt := index cm.Data "generated_at" }

/-! ## Names and paths (`challenge.go`, `cluster.go`) -/

/-- The function `filesDir`. -/
def filesDir (_challengeConfig : ChallengeConfig) : String := "k8s/files"

/-- The function `filesDirPath`. -/
def filesDirPath (challengeConfig : ChallengeConfig) : String :=
  challengeConfig.Path ++ "/" ++ filesDir challengeConfig

/-- The function `getCategoryName`. -/
def getCategoryName (challengeConfig : ChallengeConfig) (mappingMap : MappingMap) : String :=
  if challengeConfig.Challenge.Category = "" then "Uncategorized"
  else
    match lookupOk (some mappingMap.DifficultyMapping) challengeConfig.Challenge.Difficulty with
    | some categoryName => categoryName
    | none =>
      match lookupOk (some mappingMap.Categories) challengeConfig.Challenge.Category with
      | some categoryName => categoryName
      | none => challengeConfig.Challenge.Category

/-- The function `getDifficultyName`. -/
def getDifficultyName (challengeConfig : ChallengeConfig) (mappingMap : MappingMap) : String :=
  if challengeConfig.Challenge.Difficulty = "" then "Unknown Difficulty"
  else
    match lookupOk (some mappingMap.Difficulties) challengeConfig.Challenge.Difficulty with
    | some difficultyName => difficultyName
    | none => challengeConfig.Challenge.Difficulty

/-- One round of the loop of `getMappingMap` over the entries of the config map. -/
def mappingMapStep (env : Env) (acc : Except String MappingMap) (kv : String × String) :
    Except String MappingMap :=
  match acc with
  | .error e => .error e
  | .ok m =>
    if kv.1 = "categories" then
      match env.unmarshalStringMap kv.2 with
      | .error e => .error e
      | .ok es => .ok { m with Categories := es }
    else if kv.1 = "difficulties" then
      match env.unmarshalStringMap kv.2 with
      | .error e => .error e
      | .ok es => .ok { m with Difficulties := es }
    else if kv.1 = "difficulty-categories" then
      match env.unmarshalStringMap kv.2 with
      | .error e => .error e
      | .ok es => .ok { m with DifficultyMapping := es }
    else .ok m

/-- The loop of `getMappingMap` over the data of the config map `mapping-map`. -/
def decodeMappingMap (env : Env) (data : Option GoMap) : Except String MappingMap :=
  let entries : Entries := match data with
    | none => []
    | some es => es.entries
  entries.foldl (mappingMapStep env) (.ok ⟨GoMap.empty, GoMap.empty, GoMap.empty⟩)

/-- The function `getMappingMap`. -/
def getMappingMap (env : Env) (w : World) : Except String MappingMap × World :=
  match clusterGet env "mapping-map" w with
  | (.error e, w1) => (.error e, w1)
  | (.ok configMap, w1) => (decodeMappingMap env configMap.Data, w1)

/-! ## Text helpers (`strings`) -/

/-- The call `strings.Split(s, "\n")` on the characters of `s`. -/
def splitLines : List Char → List (List Char)
  | [] => [[]]
  | c :: cs =>
    if c = '\n' then [] :: splitLines cs
    else
      match splitLines cs with
      | [] => [[c]]
      | l :: ls => (c :: l) :: ls

/-- The call `strings.Join(parts, sep)`. -/
def joinWith (sep : String) (parts : List String) : String :=
  sep.intercalate parts

/-- The description sent to the content service, lines 211-221 and 373-383 of
`ctfd-challenges.go` (the two passages are the same): the first two lines are cut
when there are more than two. -/
def cutDescription (description : String) : String :=
  if description ≠ "" then
    let lines := (splitLines description.toList).map String.mk
    if lines.length > 2 then joinWith "\n" (lines.drop 2) else description
  else description

/-- The call `strings.Contains(s, ":")`. -/
def containsColon (s : String) : Bool := s.toList.contains ':'

/-- The template name of an instanced challenge, lines 245-248 and 406-409. -/
def kubectfSlug (c : Challenge) : String :=
  if c.InstancedName ≠ "" ∧ c.InstancedName ≠ c.Slug then c.InstancedName else c.Slug

/-- The instance type of an instanced challenge, lines 249-260 and 410-421. -/
def instanceTypeOf (c : Challenge) : String :=
  let instanceType := if c.InstancedType = "" then "none" else c.InstancedType
  match c.InstancedSubdomains with
  | [] => instanceType
  | first :: rest =>
    if containsColon first then joinWith "," (first :: rest)
    else instanceType ++ ":" ++ joinWith "," (first :: rest)

/-- The state string of a challenge: lines 201-204 and 368-371. -/
def stateOf (c : Challenge) : String :=
  if !c.Enabled then "hidden" else "visible"

/-- The remote type of a challenge: lines 206-209. -/
def challTypeOf (c : Challenge) : String :=
  if c.Typ = "instanced" then "kubectf" else "dynamic"

/-! ## The client of the content service (`ctfd.go`) -/

/-- The function `getCTFdAccessToken`. -/
def getCTFdAccessToken (env : Env) (w : World) : String × World :=
  match getConfigMap env "ctfd-access-token" w with
  | (.error _, w1) => ("", w1)
  | (.ok configMap, w1) => (index configMap.Data "access_token", w1)

/-- A client of the content service: the access token it was built with. -/
structure Client where
  accessToken : String
deriving DecidableEq

/-- The function `getCTFdClient`. -/
def getCTFdClient (env : Env) (w : World) : Except String Client × World :=
  match callError .getNonceAndSession env.getNonceAndSession w with
  | (some e, w1) => (.error e, w1)
  | (none, w1) =>
    match getCTFdAccessToken env w1 with
    | (token, w2) => (.ok { accessToken := token }, w2)

/-! ## Challenge bindings (`ctfd-challenges.go`) -/

/-- The function `getCTFdChallenges`: the ids of the remote challenges. -/
def getCTFdChallenges (env : Env) (w : World) : Except String (List Int) × World :=
  match getCTFdClient env w with
  | (.error e, w1) => (.error e, w1)
  | (.ok _, w1) =>
    match callValue .getChallenges env.getChallenges w1 with
    | (.error e, w2) => (.error e, w2)
    | (.ok challenges, w2) => (.ok challenges, w2)

/-- The function `getUploadedCTFdChallenges`. -/
def getUploadedCTFdChallenges (env : Env) (w : World) : Except String GoMap × World :=
  match getConfigMap env "ctfd-challenges" w with
  | (.error _, w1) => (.error "error getting CTFd challenges configmap", w1)
  | (.ok configMap, w1) =>
    match configMap.Data with
    | none => (.ok GoMap.empty, w1)
    | some es => (.ok es, w1)

/-- The function `getUploadedCTFdChallenge`; it returns a string and an error, and
one caller reads the string whatever the error. -/
def getUploadedCTFdChallenge (env : Env) (challengeName : String) (w : World) :
    (String × GoError) × World :=
  match getUploadedCTFdChallenges env w with
  | (.error _, w1) => (("", some "error getting uploaded challenges"), w1)
  | (.ok uploadedChallenges, w1) =>
    match lookupOk (some uploadedChallenges) challengeName with
    | none => (("", some "challenge not found in uploaded challenges"), w1)
    | some _ =>
      if index (some uploadedChallenges) challengeName = "0" then (("0", none), w1)
      else if index (some uploadedChallenges) challengeName = "" then (("0", none), w1)
      else ((index (some uploadedChallenges) challengeName, none), w1)

/-- The function `setUploadedCTFdChallenge`. -/
def setUploadedCTFdChallenge (env : Env) (challengeName : String) (challengeID : Int)
    (w : World) : GoError × World :=
  match getUploadedCTFdChallenges env w with
  | (.error _, w1) => (some "error getting CTFd challenges configmap", w1)
  | (.ok data, w1) =>
    match updateConfigMap env "ctfd-challenges" (data.set challengeName (itoa challengeID)) w1 with
    | (some _, w2) => (some "error updating CTFd challenges configmap", w2)
    | (none, w2) => (none, w2)

/-- The function `deleteUploadedCTFdChallenge`. -/
def deleteUploadedCTFdChallenge (env : Env) (challengeName : String) (w : World) :
    GoError × World :=
  match getUploadedCTFdChallenges env w with
  | (.error _, w1) => (some "error getting CTFd challenges configmap", w1)
  | (.ok data, w1) =>
    match updateConfigMap env "ctfd-challenges" (data.set challengeName "0") w1 with
    | (some _, w2) => (some "error updating CTFd challenges configmap", w2)
    | (none, w2) => (none, w2)

/-! ## Source control (`github.go`) -/

/-- What a call of a function gives when a run-time panic can happen on the way: the
value or the error the function returns, or the panic, which ends the process. -/
inductive Result (α : Type) where
  | ok (a : α)
  | error (e : String)
  | panicked
deriving DecidableEq

/-- The function `getGithubFileBytes`.  With a nil file content `GetSize` is 0, so
nothing is downloaded, and `GetContent` dereferences the nil pointer. -/
def getGithubFileBytes (env : Env) (path : String) (w : World) : Result String × World :=
  match callValue (.githubFileBytes path) (fun t => env.githubFileBytes t path) w with
  | (.error e, w1) => (.error e, w1)
  | (.ok none, w1) => (.panicked, w1)
  | (.ok (some data), w1) => (.ok data, w1)

/-! ## Sub-resources of a challenge (`ctfd-challenges.go`) -/

/-- The loop of `uploadCTFdChallengeFile` that fetches the files of a directory; `none`
when fetching an entry panics. -/
def fetchFiles (env : Env) (dir : String) :
    List String → World → Option (List InputFile) × World
  | [], w => (some [], w)
  | name :: rest, w =>
    if name = ".gitignore" ∨ name = ".gitkeep" then fetchFiles env dir rest w
    else
      match getGithubFileBytes env (dir ++ "/" ++ name) w with
      | (.error _, w1) => fetchFiles env dir rest w1
      | (.ok data, w1) =>
        if name ≠ "" then
          match fetchFiles env dir rest w1 with
          | (some files, w2) => (some ({ Name := name, Content := data } :: files), w2)
          | (none, w2) => (none, w2)
        else fetchFiles env dir rest w1
      | (.panicked, w1) => (none, w1)

/-- The function `uploadCTFdChallengeFile`. -/
def uploadCTFdChallengeFile (env : Env) (id : Int) (challenge : ChallengeConfig) (w : World) :
    Result Int × World :=
  match callValue (.githubDirContents (filesDirPath challenge))
      (fun t => env.githubDirContents t (filesDirPath challenge)) w with
  | (.error e, w1) => (.error e, w1)
  | (.ok files, w1) =>
    match fetchFiles env (filesDirPath challenge) files w1 with
    | (some filesContent, w2) =>
      if filesContent.length ≠ 0 then
        match callError (.postFiles id filesContent)
            (fun t => env.postFiles t id filesContent) w2 with
        | (some e, w3) => (.error e, w3)
        | (none, w3) => (.ok id, w3)
      else (.ok id, w2)
    | (none, w2) => (.panicked, w2)

/-- The loop `for _, flag := range challenge.Challenge.Flag` that posts the flags. -/
def uploadFlags (env : Env) (id : Int) : List FlagDef → World → GoError × World
  | [], w => (none, w)
  | flag :: rest, w =>
    match callError
        (.postFlags id flag.Flag "static" (if !flag.CaseSensitive then "case_insensitive" else ""))
        (fun t => env.postFlags t id flag.Flag "static"
          (if !flag.CaseSensitive then "case_insensitive" else "")) w with
    | (some e, w1) => (some e, w1)
    | (none, w1) => uploadFlags env id rest w1

/-- The loop `for _, tag := range challenge.Challenge.Tags` that posts the tags. -/
def uploadTags (env : Env) (id : Int) : List String → World → World
  | [], w => w
  | tag :: rest, w =>
    if tag = "" then uploadTags env id rest w
    else uploadTags env id rest (callError (.postTags id tag) (fun t => env.postTags t id tag) w).2

/-- A loop that deletes remote sub-resources by id and stops at the first failure. -/
def deleteAll (mk : String → Call) (answer : List Call → String → GoError) :
    List Int → World → GoError × World
  | [], w => (none, w)
  | id :: rest, w =>
    match callError (mk (itoa id)) (fun t => answer t (itoa id)) w with
    | (some e, w1) => (some e, w1)
    | (none, w1) => deleteAll mk answer rest w1

/-! ## Upsert of a challenge (`ctfd-challenges.go`) -/

/-- The parameters built at lines 229-239. -/
def postParamsOf (challenge : ChallengeConfig) (mappingMap : MappingMap) :
    PostChallengesParams :=
  { Name := challenge.Challenge.Name
    Category := getCategoryName challenge mappingMap
    Description := cutDescription challenge.Description
    Initial := challenge.Challenge.Points
    Decay := challenge.Challenge.Decay
    Minimum := challenge.Challenge.MinPoints
    State := stateOf challenge.Challenge
    Typ := challTypeOf challenge.Challenge
    ConnectionInfo := challenge.Challenge.Connection }

/-- The parameters built at lines 391-400. -/
def patchParamsOf (challenge : ChallengeConfig) (mappingMap : MappingMap) :
    PatchChallengeParams :=
  { Name := challenge.Challenge.Name
    Category := getCategoryName challenge mappingMap
    Description := cutDescription challenge.Description
    Initial := challenge.Challenge.Points
    Decay := challenge.Challenge.Decay
    Minimum := challenge.Challenge.MinPoints
    State := stateOf challenge.Challenge
    ConnectionInfo := challenge.Challenge.Connection }

/-- The create call of `uploadCTFdChallenge`, lines 241-277. -/
def createChallenge (env : Env) (challenge : ChallengeConfig) (params : PostChallengesParams)
    (w : World) : Except String Int × World :=
  if challenge.Challenge.Typ = "instanced" then
    callValue
      (.postKubeCTFChallenge { PostChallengesParams := params
                               TemplateName := kubectfSlug challenge.Challenge
                               InstanceType := instanceTypeOf challenge.Challenge })
      (fun t => env.postKubeCTFChallenge t { PostChallengesParams := params
                                             TemplateName := kubectfSlug challenge.Challenge
                                             InstanceType := instanceTypeOf challenge.Challenge })
      w
  else callValue (.postChallenges params) (fun t => env.postChallenges t params) w

/-- The function `uploadCTFdChallenge`. -/
def uploadCTFdChallenge (env : Env) (challenge : ChallengeConfig) (_client : Client)
    (w : World) : Result Int × World :=
  match getMappingMap env w with
  | (.error _, w1) => (.error "error getting mapping map", w1)
  | (.ok challengeMappingMap, w1) =>
    match createChallenge env challenge (postParamsOf challenge challengeMappingMap) w1 with
    | (.error e, w2) => (.error e, w2)
    | (.ok uploadedID, w2) =>
      match uploadCTFdChallengeFile env uploadedID challenge w2 with
      | (.error e, w3) => (.error e, w3)
      | (.ok _, w3) =>
        match uploadFlags env uploadedID challenge.Challenge.Flag w3 with
        | (some e, w4) => (.error e, w4)
        | (none, w4) =>
          match setUploadedCTFdChallenge env challenge.Challenge.Slug uploadedID
              (uploadTags env uploadedID challenge.Challenge.Tags w4) with
          | (some e, w6) => (.error e, w6)
          | (none, w6) => (.ok uploadedID, w6)
      | (.panicked, w3) => (.panicked, w3)

/-- The patch call of `updateCTFdChallenge`, lines 402-438. -/
def patchChallengeCall (env : Env) (challenge : ChallengeConfig) (uploadedChallengeID : String)
    (challengeId : Int) (params : PatchChallengeParams) (w : World) :
    Except String Int × World :=
  if challenge.Challenge.Typ = "instanced" then
    callValue
      (.patchKubeCTFChallenge uploadedChallengeID
        { PatchChallengeParams := params
          TemplateName := kubectfSlug challenge.Challenge
          InstanceType := instanceTypeOf challenge.Challenge })
      (fun t => env.patchKubeCTFChallenge t uploadedChallengeID
        { PatchChallengeParams := params
          TemplateName := kubectfSlug challenge.Challenge
          InstanceType := instanceTypeOf challenge.Challenge })
      w
  else
    callValue (.patchChallenge challengeId params)
      (fun t => env.patchChallenge t challengeId params) w

/-- The part of `updateCTFdChallenge` after the patch call, lines 440-550: replace the
files, the flags and the tags, then record the binding. -/
def replaceSubResources (env : Env) (challenge : ChallengeConfig) (challengeId uploadedID : Int)
    (w : World) : Result Int × World :=
  match callValue (.getChallengeFiles challengeId)
      (fun t => env.getChallengeFiles t challengeId) w with
  | (.error e, w1) => (.error e, w1)
  | (.ok ctfdFiles, w1) =>
    match deleteAll .deleteFile env.deleteFile ctfdFiles w1 with
    | (some e, w2) => (.error e, w2)
    | (none, w2) =>
      match uploadCTFdChallengeFile env challengeId challenge w2 with
      | (.error e, w3) => (.error e, w3)
      | (.ok _, w3) =>
        match callValue (.getChallengeFlags challengeId)
            (fun t => env.getChallengeFlags t challengeId) w3 with
        | (.error e, w4) => (.error e, w4)
        | (.ok ctfdFlags, w4) =>
          match deleteAll .deleteFlag env.deleteFlag ctfdFlags w4 with
          | (some e, w5) => (.error e, w5)
          | (none, w5) =>
            match uploadFlags env uploadedID challenge.Challenge.Flag w5 with
            | (some e, w6) => (.error e, w6)
            | (none, w6) =>
              match callValue (.getTags challengeId) (fun t => env.getTags t challengeId) w6 with
              | (.error e, w7) => (.error e, w7)
              | (.ok tags, w7) =>
                match deleteAll .deleteTag env.deleteTag tags w7 with
                | (some e, w8) => (.error e, w8)
                | (none, w8) =>
                  match setUploadedCTFdChallenge env challenge.Challenge.Slug uploadedID
                      (uploadTags env uploadedID challenge.Challenge.Tags w8) with
                  | (some e, w10) => (.error e, w10)
                  | (none, w10) => (.ok uploadedID, w10)
      | (.panicked, w3) => (.panicked, w3)

/-- The function `updateCTFdChallenge`. -/
def updateCTFdChallenge (env : Env) (challenge : ChallengeConfig) (client : Client)
    (w : World) : Result Int × World :=
  match getUploadedCTFdChallenge env challenge.Challenge.Slug w with
  | ((_, some e), w1) => (.error e, w1)
  | ((uploadedChallengeID, none), w1) =>
    match atoi uploadedChallengeID with
    | .error e => (.error e, w1)
    | .ok challengeId =>
      match getCTFdChallenges env w1 with
      | (.error _, w2) => uploadCTFdChallenge env challenge client w2
      | (.ok challenges, w2) =>
        if challenges.length = 0 then uploadCTFdChallenge env challenge client w2
        else if !challenges.contains challengeId then
          uploadCTFdChallenge env challenge client w2
        else
          match getMappingMap env w2 with
          | (.error _, w3) => (.error "error getting mapping map", w3)
          | (.ok challengeMappingMap, w3) =>
            match patchChallengeCall env challenge uploadedChallengeID challengeId
                (patchParamsOf challenge challengeMappingMap) w3 with
            | (.error e, w4) => (.error e, w4)
            | (.ok uploadedID, w4) =>
              replaceSubResources env challenge challengeId uploadedID w4

/-- The function `updateOrCreateCTFdChallenge`. -/
def updateOrCreateCTFdChallenge (env : Env) (challenge : ChallengeConfig) (w : World) :
    Result Int × World :=
  match getCTFdClient env w with
  | (.error e, w1) => (.error e, w1)
  | (.ok client, w1) =>
    match getUploadedCTFdChallenge env challenge.Challenge.Slug w1 with
    | ((uploadedChallengeID, _), w2) =>
      if uploadedChallengeID = "" ∨ uploadedChallengeID = "0" then
        uploadCTFdChallenge env challenge client w2
      else updateCTFdChallenge env challenge client w2

/-- The function `disableCTFdChallenge`. -/
def disableCTFdChallenge (env : Env) (challenge : ChallengeConfig) (w : World) :
    GoError × World :=
  match getCTFdClient env w with
  | (.error e, w1) => (some e, w1)
  | (.ok _, w1) =>
    match getUploadedCTFdChallenge env challenge.Challenge.Slug w1 with
    | ((uploadedChallengeID, err), w2) =>
      if err ≠ none ∨ uploadedChallengeID = "" ∨ uploadedChallengeID = "0" then (none, w2)
      else
        match atoi uploadedChallengeID with
        | .error e => (some e, w2)
        | .ok uploadedChallengeIDInt =>
          callError (.patchChallengeState uploadedChallengeIDInt { State := "hidden" })
            (fun t => env.patchChallengeState t uploadedChallengeIDInt { State := "hidden" }) w2

/-! ## Pages (`ctfd-page.go`, `page.go`) -/

/-- The function `postPageParamsFromPage`. -/
def postPageParamsFromPage (p : Page) : PageParams :=
  { Title := p.Title, Route := p.Route, AuthRequired := p.AuthRequired, Nonce := p.Nonce,
    Draft := p.Draft, Format := p.Format, Hidden := !p.Enabled, Content := p.Content }

/-- The function `patchPageParamsFromPage`. -/
def patchPageParamsFromPage (p : Page) : PageParams :=
  { Title := p.Title, Route := p.Route, AuthRequired := p.AuthRequired, Nonce := p.Nonce,
    Draft := p.Draft, Format := p.Format, Hidden := !p.Enabled, Content := p.Content }

/-- The function `getUploadedCTFdPages`. -/
def getUploadedCTFdPages (env : Env) (w : World) : Except String GoMap × World :=
  match getConfigMap env "ctfd-pages" w with
  | (.error _, w1) => (.error "error getting CTFd pages configmap", w1)
  | (.ok configMap, w1) =>
    match configMap.Data with
    | none => (.ok GoMap.empty, w1)
    | some es => (.ok es, w1)

/-- The function `getUploadedCTFdPage`; it returns a string and an error. -/
def getUploadedCTFdPage (env : Env) (slug : String) (w : World) : (String × GoError) × World :=
  match getUploadedCTFdPages env w with
  | (.error _, w1) => (("", some "error getting uploaded pages"), w1)
  | (.ok uploadedPages, w1) =>
    match lookupOk (some uploadedPages) slug with
    | none => (("0", some "page not found in uploaded pages"), w1)
    | some _ =>
      if index (some uploadedPages) slug = "0" then (("0", none), w1)
      else if index (some uploadedPages) slug = "" then (("0", none), w1)
      else ((index (some uploadedPages) slug, none), w1)

/-- The function `setUploadedCTFdPage`. -/
def setUploadedCTFdPage (env : Env) (pageSlug : String) (pageID : Int) (w : World) :
    GoError × World :=
  match getUploadedCTFdPages env w with
  | (.error _, w1) => (some "error getting CTFd pages configmap", w1)
  | (.ok data, w1) =>
    match updateConfigMap env "ctfd-pages" (data.set pageSlug (itoa pageID)) w1 with
    | (some _, w2) => (some "error updating CTFd pages configmap", w2)
    | (none, w2) => (none, w2)

/-- The function `deleteUploadedCTFdPage`. -/
def deleteUploadedCTFdPage (env : Env) (pageSlug : String) (w : World) : GoError × World :=
  match getUploadedCTFdPages env w with
  | (.error _, w1) => (some "error getting CTFd pages configmap", w1)
  | (.ok data, w1) =>
    match updateConfigMap env "ctfd-pages" (data.set pageSlug "0") w1 with
    | (some _, w2) => (some "error updating CTFd pages configmap", w2)
    | (none, w2) => (none, w2)

/-- The function `uploadCTFdPage`. -/
def uploadCTFdPage (env : Env) (page : Page) (_client : Client) (w : World) :
    Except String Int × World :=
  match callValue (.postPages (postPageParamsFromPage page))
      (fun t => env.postPages t (postPageParamsFromPage page)) w with
  | (.error e, w1) => (.error ("failed to upload CTFd page: " ++ e), w1)
  | (.ok respID, w1) =>
    match setUploadedCTFdPage env page.Slug respID w1 with
    | (some e, w2) => (.error e, w2)
    | (none, w2) => (.ok respID, w2)

/-- The function `updateCTFdPage`. -/
def updateCTFdPage (env : Env) (page : Page) (client : Client) (w : World) :
    Except String Int × World :=
  match getUploadedCTFdPage env page.Slug w with
  | ((uploadedPageID, err), w1) =>
    if err ≠ none ∧ uploadedPageID ≠ "0" then (.error (err.getD ""), w1)
    else if uploadedPageID = "0" then uploadCTFdPage env page client w1
    else
      match callValue (.patchPage uploadedPageID (patchPageParamsFromPage page))
          (fun t => env.patchPage t uploadedPageID (patchPageParamsFromPage page)) w1 with
      | (.error e, w2) => (.error ("failed to update CTFd page: " ++ e), w2)
      | (.ok respID, w2) => (.ok respID, w2)

/-- The function `uploadOrUpdateCTFdPage`. -/
def uploadOrUpdateCTFdPage (env : Env) (page : Page) (w : World) : Except String Int × World :=
  match getCTFdClient env w with
  | (.error e, w1) => (.error ("failed to get CTFd client: " ++ e), w1)
  | (.ok client, w1) =>
    match updateCTFdPage env page client w1 with
    | (.error e, w2) => (.error ("failed to upload or update CTFd page: " ++ e), w2)
    | (.ok pageID, w2) => (.ok pageID, w2)

/-- The function `deleteCTFdPage`. -/
def deleteCTFdPage (env : Env) (pageSlug : String) (w : World) : GoError × World :=
  match getCTFdClient env w with
  | (.error e, w1) => (some ("failed to get CTFd client: " ++ e), w1)
  | (.ok _, w1) =>
    match getUploadedCTFdPage env pageSlug w1 with
    | ((_, some e), w2) => (some e, w2)
    | ((uploadedPageID, none), w2) =>
      if uploadedPageID = "0" then (none, w2)
      else
        match callError (.deletePage uploadedPageID) (fun t => env.deletePage t uploadedPageID) w2 with
        | (some e, w3) => (some ("failed to delete CTFd page: " ++ e), w3)
        | (none, w3) => deleteUploadedCTFdPage env pageSlug w3

/-! ## The watch loop (`challenge-watcher.go`) -/

/-- The kinds of `watch.Event`. -/
inductive EventType where
  | Added
  | Modified
  | Deleted
  | Bookmark
  | Error
deriving DecidableEq

/-- The object of a watch event: a config map, or an object of another type (the
status object of an error event). -/
inductive Object where
  | configMap (cm : ConfigMap)
  | other
deriving DecidableEq

/-- A `watch.Event`; the field `Type` of the source is `Typ` here. -/
structure Event where
  Typ : EventType
  Object : Object
deriving DecidableEq

/-- How a run of the loop ends or goes on: normally, or with a run-time panic (a
failed type assertion, a nil pointer dereference), which ends the process. -/
inductive Outcome where
  | done (w : World)
  | crashed (w : World)

/-- What the loop did with an added or modified config map; each value stands for
the log line of that branch. -/
inductive Applied where
  /-- "has not changed since last deployment, skipping update" -/
  | unchanged
  /-- "Unknown configmap type" -/
  | unknownType
  /-- "Error extracting challenge configmap" or "Error extracting page configmap" -/
  | extractFailed (e : String)
  /-- "Error updating or creating challenge in CTFd" or "... page in CTFd" -/
  | upsertFailed (e : String)
  /-- "Error generating hash for configmap" -/
  | hashFailed (e : String)
  /-- "Error storing hash for configmap" -/
  | storeFailed (e : String)
  /-- The upsert returned `id` and the hash was stored. -/
  | stored (id : Int)
  /-- The upsert did not return: it hit a run-time panic.  There is no log line. -/
  | panicked
deriving DecidableEq

/-- Lines 84-94 of `processEvent`: store the hash of a config map that was deployed
with the remote id `id`. -/
def storeNewHash (env : Env) (updatedMap : ConfigMap) (id : Int) (w : World) :
    Applied × World :=
  match getHashForConfigMap env updatedMap with
  | .error e => (.hashFailed e, w)
  | .ok newHash =>
    match storeConfigmapHash env updatedMap.Name newHash w with
    | (some e, w1) => (.storeFailed e, w1)
    | (none, w1) => (.stored id, w1)

/-- Lines 45-97 of `processEvent`: the case `watch.Added, watch.Modified` for a config
map. -/
def applyConfigMap (env : Env) (updatedMap : ConfigMap) (w : World) : Applied × World :=
  match hasBeenDeployed env updatedMap w with
  | (true, w1) => (.unchanged, w1)
  | (false, w1) =>
    if getConfigMapType (some updatedMap) = "challenge" then
      match extractChallengeConfigMap env updatedMap with
      | .error e => (.extractFailed e, w1)
      | .ok challengeConfigMap =>
        match updateOrCreateCTFdChallenge env challengeConfigMap w1 with
        | (.error e, w2) => (.upsertFailed e, w2)
        | (.ok id, w2) => storeNewHash env updatedMap id w2
        | (.panicked, w2) => (.panicked, w2)
    else if getConfigMapType (some updatedMap) = "page" then
      match extractPageConfigMap env (some updatedMap) with
      | .error e => (.extractFailed e, w1)
      | .ok pageConfigMap =>
        match uploadOrUpdateCTFdPage env pageConfigMap.Page w1 with
        | (.error e, w2) => (.upsertFailed e, w2)
        | (.ok id, w2) => storeNewHash env updatedMap id w2
    else (.unknownType, w1)

/-- Lines 101-132 of `processEvent`: the case `watch.Deleted` for a config map. -/
def removeConfigMap (env : Env) (deletedMap : ConfigMap) (w : World) : World :=
  if getConfigMapType (some deletedMap) = "challenge" then
    match extractChallengeConfigMap env deletedMap with
    | .error _ => w
    | .ok challengeConfigMap =>
      (storeConfigmapHash env deletedMap.Name ""
        (disableCTFdChallenge env challengeConfigMap w).2).2
  else if getConfigMapType (some deletedMap) = "page" then
    match extractPageConfigMap env (some deletedMap) with
    | .error _ => w
    | .ok pageConfigMap =>
      (storeConfigmapHash env deletedMap.Name ""
        (deleteCTFdPage env pageConfigMap.Slug w).2).2
  else w

/-- The body of the loop of `processEvent` for one received event. -/
def handleEvent (env : Env) (event : Event) (w : World) : Outcome :=
  match event.Typ with
  | .Added | .Modified =>
    match event.Object with
    | .configMap updatedMap =>
      match applyConfigMap env updatedMap w with
      | (.panicked, w1) => .crashed w1
      | (_, w1) => .done w1
    | .other => .done w
  | .Deleted =>
    match event.Object with
    | .configMap deletedMap => .done (removeConfigMap env deletedMap w)
    | .other => .done w
  | _ =>
    match event.Object with
    | .configMap _ => .done w
    | .other => .crashed w

/-- The function `setUnhealthy`. -/
def setUnhealthy (w : World) : World := { w with health := false }

/-- The function `processEvent` on a channel that delivers `events` and is then closed. -/
def processEvent (env : Env) : List Event → World → Outcome
  | [], w => .done (setUnhealthy w)
  | event :: rest, w =>
    match handleEvent env event w with
    | .done w1 => processEvent env rest w1
    | .crashed w1 => .crashed w1

/-! ## The persisted records as they stand in the cluster -/

/-- The value stored under `name` in the config map `record`, if the config map exists
and has the key. -/
def storedValue (w : World) (record name : String) : Option String :=
  match w.cluster record with
  | none => none
  | some cm => lookupOk cm.Data name

/-- The fingerprint stored under the name of a config object. -/
def storedFingerprint (w : World) (name : String) : Option String :=
  storedValue w "challenge-configmap-hashset" name

/-- The binding of a challenge slug. -/
def challengeBinding (w : World) (slug : String) : Option String :=
  storedValue w "ctfd-challenges" slug

/-- The binding of a page slug. -/
def pageBinding (w : World) (slug : String) : Option String :=
  storedValue w "ctfd-pages" slug

/-- A call that creates a remote challenge. -/
def Call.isCreate : Call → Bool
  | .postChallenges _ => true
  | .postKubeCTFChallenge _ => true
  | _ => false

/-- A call that patches a remote challenge. -/
def Call.isPatch : Call → Bool
  | .patchChallenge _ _ => true
  | .patchKubeCTFChallenge _ _ => true
  | .patchChallengeState _ _ => true
  | _ => false

/-- A call that creates or patches a remote challenge or page: an upsert call. -/
def Call.isUpsert : Call → Bool
  | .postChallenges _ => true
  | .postKubeCTFChallenge _ => true
  | .patchChallenge _ _ => true
  | .patchKubeCTFChallenge _ _ => true
  | .postPages _ => true
  | .patchPage _ _ => true
  | _ => false

/-- A call that writes a remote challenge or page: create, patch, hide or delete. -/
def Call.isEntityCall : Call → Bool
  | .postChallenges _ => true
  | .postKubeCTFChallenge _ => true
  | .patchChallenge _ _ => true
  | .patchKubeCTFChallenge _ _ => true
  | .patchChallengeState _ _ => true
  | .postPages _ => true
  | .patchPage _ _ => true
  | .deletePage _ => true
  | _ => false

/-- A call to the cluster, as opposed to a call to a remote service. -/
def Call.isCluster : Call → Bool
  | .clusterGet _ => true
  | .clusterUpdate _ => true
  | .clusterWatch => true
  | _ => false

/-- The value of the label `challenges.kube-ctf.io/configmap` of a config object:
`none` for a nil object or an absent label. -/
def watchedLabel (configMap : Option ConfigMap) : Option String :=
  match configMap with
  | none => none
  | some cm => lookupOk (some cm.Labels) "challenges.kube-ctf.io/configmap"

/-! ## A small environment for the examples

The examples below run the program against collaborators that always answer: the
content service gives the id 7 to what it creates, the repository directory holds
a marker file and one file, and the cluster holds the five config maps the program
keeps its records in.  The digest is a stand-in of the right size for SHA-256, and
the JSON decoders know the two blobs used in the examples. -/

/-- A stand-in for `sha256.Sum256`: 32 bytes computed from the text. -/
def demoSum256 (s : String) : Digest :=
  ⟨(List.range 32).map fun i =>
      ⟨(s.length * (i + 1) + (s.toList.map Char.toNat).sum) % 256, Nat.mod_lt _ (by decide)⟩,
    by simp⟩

/-- The challenge blob of the examples. -/
def demoChallengeJson : String :=
  "\x7b\"enabled\":true,\"name\":\"Foo\",\"slug\":\"foo\",\"category\":\"web\"," ++
  "\"difficulty\":\"easy\",\"tags\":[\"t1\",\"\"],\"type\":\"static\"," ++
  "\"flag\":[\x7b\"flag\":\"FLAG-x\",\"case_sensitive\":false\x7d],\"points\":100," ++
  "\"min_points\":10\x7d"

/-- The record that `demoChallengeJson` decodes to. -/
def demoChallenge : Challenge :=
  { Schema := "", Enabled := true, Name := "Foo", Slug := "foo", Author := "",
    Prerequisites := [], Category := "web", Difficulty := "easy", Tags := ["t1", ""],
    Typ := "static", InstancedType := "", InstancedName := "", InstancedSubdomains := [],
    Connection := "", Flag := [{ Flag := "FLAG-x", CaseSensitive := false }],
    Points := 100, Decay := 0, MinPoints := 10, DescriptionLocation := "",
    DockerfileLocations := [] }

/-- The page blob of the examples. -/
def demoPageJson : String :=
  "\x7b\"slug\":\"rules\",\"title\":\"Rules\",\"route\":\"rules\",\"format\":\"markdown\"," ++
  "\"enabled\":true,\"content\":\"from the blob\"\x7d"

/-- The record that `demoPageJson` decodes to. -/
def demoPage : Page :=
  { Slug := "rules", Title := "Rules", Route := "rules", AuthRequired := false, Nonce := "",
    Draft := false, Format := "markdown", Enabled := true, Content := "from the blob" }

/-- Collaborators that always answer. -/
def demoEnv : Env :=
  { sum256 := demoSum256
    unmarshalChallenge := fun s =>
      if s = demoChallengeJson then .ok demoChallenge else .error "invalid character"
    unmarshalPage := fun s =>
      if s = demoPageJson then .ok demoPage else .error "invalid character"
    unmarshalStringMap := fun s =>
      if s = "\x7b\x7d" then .ok GoMap.empty else .error "invalid character"
    clusterGetError := fun _ _ => none
    clusterUpdateError := fun _ _ => none
    getNonceAndSession := fun _ => none
    getChallenges := fun _ => .ok [7]
    postChallenges := fun _ _ => .ok 7
    postKubeCTFChallenge := fun _ _ => .ok 7
    patchChallenge := fun _ id _ => .ok id
    patchKubeCTFChallenge := fun _ _ _ => .ok 7
    patchChallengeState := fun _ _ _ => none
    getChallengeFiles := fun _ _ => .ok [1]
    deleteFile := fun _ _ => none
    postFiles := fun _ _ _ => none
    getChallengeFlags := fun _ _ => .ok [2]
    deleteFlag := fun _ _ => none
    postFlags := fun _ _ _ _ _ => none
    getTags := fun _ _ => .ok [3]
    deleteTag := fun _ _ => none
    postTags := fun _ _ _ => none
    postPages := fun _ _ => .ok 7
    patchPage := fun _ _ _ => .ok 7
    deletePage := fun _ _ => none
    githubDirContents := fun _ _ => .ok [".gitkeep", "a.txt"]
    githubFileBytes := fun _ _ => .ok (some "data") }

/-- A cluster that holds the record config maps with the given contents. -/
def demoCluster (hashes challenges pages : Option GoMap) (name : String) : Option ConfigMap :=
  if name = "challenge-configmap-hashset" then some ⟨name, GoMap.empty, hashes⟩
  else if name = "ctfd-challenges" then some ⟨name, GoMap.empty, challenges⟩
  else if name = "ctfd-pages" then some ⟨name, GoMap.empty, pages⟩
  else if name = "mapping-map" then some ⟨name, GoMap.empty, none⟩
  else if name = "ctfd-access-token" then
    some ⟨name, GoMap.empty, some (GoMap.ofList [("access_token", "secret")])⟩
  else none

/-- A fresh world: empty records, no call made yet, healthy. -/
def demoWorld : World :=
  { cluster := demoCluster none none none, trace := [], health := true }

/-- The config object `chal-foo` of the end-to-end scenario. -/
def chalFoo : ConfigMap :=
  { Name := "chal-foo"
    Labels := GoMap.ofList [("challenges.kube-ctf.io/configmap", "challenge-config")]
    Data := some (GoMap.ofList [("name", "Foo"), ("path", "/foo"), ("repository", "org/repo"),
      ("challenge", demoChallengeJson), ("description", "l1\nl2\nBody")]) }

/-- A page config object. -/
def pageRules : ConfigMap :=
  { Name := "page-rules"
    Labels := GoMap.ofList [("challenges.kube-ctf.io/configmap", "page-config")]
    Data := some (GoMap.ofList [("slug", "rules"), ("name", "Rules"), ("path", "/pages/rules"),
      ("repository", "org/repo"), ("page", demoPageJson),
      ("generated_at", "2025-01-01"), ("content", "# Rules")]) }

/-- The world an outcome ends in. -/
def Outcome.world : Outcome → World
  | .done w => w
  | .crashed w => w

/-- The fingerprint record can be read. -/
def fingerprintReadable (env : Env) (w : World) : Bool :=
  (env.clusterGetError w.trace "challenge-configmap-hashset").isNone &&
    (w.cluster "challenge-configmap-hashset").isSome

/-- The page config object without the key `generated_at`: it has the five keys slug,
name, path, repository and page, and a valid page blob. -/
def pageWithoutGeneratedAt : ConfigMap :=
  { Name := "page-rules"
    Labels := GoMap.ofList [("challenges.kube-ctf.io/configmap", "page-config")]
    Data := some (GoMap.ofList [("slug", "rules"), ("name", "Rules"), ("path", "/pages/rules"),
      ("repository", "org/repo"), ("page", demoPageJson)]) }

/-- The challenge config object without the key `path`. -/
def chalWithoutPath : ConfigMap :=
  { Name := "chal-foo"
    Labels := GoMap.ofList [("challenges.kube-ctf.io/configmap", "challenge-config")]
    Data := some (GoMap.ofList [("name", "Foo"), ("repository", "org/repo"),
      ("challenge", demoChallengeJson), ("description", "l1\nl2\nBody")]) }

/-- Between `w` and `w'` only calls that write no remote challenge or page were made. -/
def Quiet (w w' : World) : Prop :=
  ∃ added, w'.trace = w.trace ++ added ∧ ∀ c ∈ added, c.isEntityCall = false

/-- Between `w` and `w'` exactly one call that writes a remote challenge or page was
made, and it satisfies `q`. -/
def OneCall (q : Call → Bool) (w w' : World) : Prop :=
  ∃ pre c post, w'.trace = w.trace ++ (pre ++ c :: post) ∧
    (∀ x ∈ pre, x.isEntityCall = false) ∧ q c = true ∧ (∀ x ∈ post, x.isEntityCall = false)

/-- The worlds `w` and `w'` have the same config maps and the same health flag. -/
def SameCluster (w w' : World) : Prop :=
  w'.cluster = w.cluster ∧ w'.health = w.health

/-- The worlds `w` and `w'` have the same config maps, but for the one called `name`,
and the same health flag. -/
def SameClusterExcept (name : String) (w w' : World) : Prop :=
  (∀ n, n ≠ name → w'.cluster n = w.cluster n) ∧ w'.health = w.health

/-- The calls made from `w` to `w'`. -/
def callsSince (w w' : World) : List Call := w'.trace.drop w.trace.length

/-- A run that reads only: same config maps, and no remote write. -/
def Plumb (w w' : World) : Prop := SameCluster w w' ∧ Quiet w w'

/-- A run that writes at most the config map `name`, and makes no remote write. -/
def Writes (name : String) (w w' : World) : Prop := SameClusterExcept name w w' ∧ Quiet w w'

/-- A run that makes at most one remote write. -/
def AtMostOne (w w' : World) : Prop := Quiet w w' ∨ OneCall (fun _ => true) w w'

/-- Collaborators that always answer, with one exception: a read of the fingerprint
record that comes right after a write of it times out. -/
def flakyEnv : Env :=
  { demoEnv with
    clusterGetError := fun t name =>
      match t.getLast? with
      | some (.clusterUpdate cm) =>
        if name = "challenge-configmap-hashset" ∧ cm.Name = "challenge-configmap-hashset" then
          some "the server was unable to return a response in the time allotted"
        else none
      | _ => none }

/-- The cluster never fails on the config map `record`: every `Get` and every `Update`
of it is answered. -/
def RecordAvailable (env : Env) (record : String) : Prop :=
  (∀ t, env.clusterGetError t record = none) ∧
    ∀ t cm, cm.Name = record → env.clusterUpdateError t cm = none

/-- A world in which a fingerprint is stored for `chal-foo`. -/
def staleWorld : World :=
  { cluster := demoCluster (some (GoMap.ofList [("chal-foo", "abc")])) none none
    trace := []
    health := true }

/-- Every call to the cluster, to the content service and to source control
succeeds; a path whose bytes are fetched is a file, whose content is returned. -/
structure Reliable (env : Env) : Prop where
  clusterGet : ∀ t name, env.clusterGetError t name = none
  clusterUpdate : ∀ t cm, env.clusterUpdateError t cm = none
  getNonceAndSession : ∀ t, env.getNonceAndSession t = none
  getChallenges : ∀ t, ∃ l, env.getChallenges t = .ok l
  postChallenges : ∀ t p, ∃ id, env.postChallenges t p = .ok id
  postKubeCTFChallenge : ∀ t p, ∃ id, env.postKubeCTFChallenge t p = .ok id
  patchChallenge : ∀ t id p, ∃ r, env.patchChallenge t id p = .ok r
  patchKubeCTFChallenge : ∀ t id p, ∃ r, env.patchKubeCTFChallenge t id p = .ok r
  patchChallengeState : ∀ t id p, env.patchChallengeState t id p = none
  getChallengeFiles : ∀ t id, ∃ l, env.getChallengeFiles t id = .ok l
  deleteFile : ∀ t id, env.deleteFile t id = none
  postFiles : ∀ t id fs, env.postFiles t id fs = none
  getChallengeFlags : ∀ t id, ∃ l, env.getChallengeFlags t id = .ok l
  deleteFlag : ∀ t id, env.deleteFlag t id = none
  postFlags : ∀ t id c ty d, env.postFlags t id c ty d = none
  getTags : ∀ t id, ∃ l, env.getTags t id = .ok l
  deleteTag : ∀ t id, env.deleteTag t id = none
  postTags : ∀ t id v, env.postTags t id v = none
  postPages : ∀ t p, ∃ id, env.postPages t p = .ok id
  patchPage : ∀ t id p, ∃ r, env.patchPage t id p = .ok r
  deletePage : ∀ t id, env.deletePage t id = none
  githubDirContents : ∀ t path, ∃ l, env.githubDirContents t path = .ok l
  githubFileBytes : ∀ t path, ∃ d, env.githubFileBytes t path = .ok (some d)

/-- A world in which the hash of `chal-foo` is stored already, while its slug has no
binding. -/
def fingerprintedWorld : World :=
  { cluster := demoCluster
      (match getHashForConfigMap demoEnv chalFoo with
        | .ok h => some (GoMap.ofList [("chal-foo", h)])
        | .error _ => none) none none
    trace := []
    health := true }

/-! ## The watcher loop (`challenge-watcher.go`) -/

/-- How far a run of `initBackgroundChallengeWatcher` has come: it returned the error
"Kubernetes client not initialized", it panicked, or its loop is still going after
the passes looked at. -/
inductive WatcherRun where
  | notInitialized
  | crashed (w : World)
  | watching (w : World)

/-- The `for` loop of `initBackgroundChallengeWatcher`, followed for a number of
passes.  `watch` is the answer of the cluster to `Watch`: an error, or the events the
channel delivers before the remote side closes it. -/
def watchLoop (env : Env) (watch : List Call → Except String (List Event)) :
    Nat → World → WatcherRun
  | 0, w => .watching w
  | passes + 1, w =>
    match watch w.trace with
    | .error _ => .crashed (w.record .clusterWatch)
    | .ok events =>
      match processEvent env events (w.record .clusterWatch) with
      | .done w1 => watchLoop env watch passes w1
      | .crashed w1 => .crashed w1

/-- The function `initBackgroundChallengeWatcher`; `clientset` tells whether the
cluster client is there (not nil). -/
def initBackgroundChallengeWatcher (env : Env)
    (watch : List Call → Except String (List Event)) (clientset : Bool) (passes : Nat)
    (w : World) : WatcherRun :=
  if clientset = false then .notInitialized else watchLoop env watch passes w

/-- The world a run of the watcher has reached. -/
def WatcherRun.world (start : World) : WatcherRun → World
  | .notInitialized => start
  | .crashed w => w
  | .watching w => w

/-! ## The shared secret of the HTTP surface (`web.go`, `util.go`) -/

/-- The function `unicode.IsSpace`. -/
def isSpace (c : Char) : Bool :=
  c = '\t' || c = '\n' || c = '\x0b' || c = '\x0c' || c = '\r' || c = ' ' ||
  c.toNat = 0x85 || c.toNat = 0xA0 || c.toNat = 0x1680 ||
  (0x2000 ≤ c.toNat && c.toNat ≤ 0x200a) || c.toNat = 0x2028 || c.toNat = 0x2029 ||
  c.toNat = 0x202f || c.toNat = 0x205f || c.toNat = 0x3000

/-- The call `strings.TrimSpace`. -/
def trimSpace (s : String) : String :=
  String.mk ((s.toList.dropWhile isSpace).reverse.dropWhile isSpace).reverse

/-- The function `stringStrip`. -/
def stringStrip (str : String) : String := trimSpace str

/-- The function `validatePassword`; `valid_password` is the value of the environment
variable `PASSWORD`.  `subtle.ConstantTimeCompare` gives 1 exactly when the two byte
strings are equal. -/
def validatePassword (valid_password : String) (password : String) : Bool :=
  decide (stringStrip password = stringStrip valid_password)

/-- What `errorResponse` writes: the status and the message of the JSON body. -/
structure ErrorResponse where
  Status : Nat
  Message : String
deriving DecidableEq

/-- The function `middleware` on a request whose `Authorization` header is
`authorization` (the empty string when the header is absent): the error returned and
the response written, if any.  The test `len(bearerToken) > 7` counts bytes; the first
seven bytes are the text "Bearer " exactly when the first seven characters are. -/
def middleware (valid_password : String) (authorization : String) :
    GoError × Option ErrorResponse :=
  if authorization = "" then (some "Unauthorized", some ⟨401, "Unauthorized"⟩)
  else
    let bearerToken :=
      if authorization.utf8ByteSize > 7 ∧ authorization.toList.take 7 = "Bearer ".toList then
        String.mk (authorization.toList.drop 7)
      else authorization
    if validatePassword valid_password bearerToken = false then
      (some "Unauthorized", some ⟨401, "Unauthorized"⟩)
    else (none, none)

/-- The white space that `net/http` removes around the value of a header. -/
def isHeaderSpace (c : Char) : Bool := c = ' ' || c = '\t'

/-- The value of a header as `net/http` hands it to a handler (`r.Header.Get`): the text
of the header line after the colon, with the spaces and tabs around it removed. -/
def receivedHeaderValue (line : String) : String :=
  String.mk ((line.toList.dropWhile isHeaderSpace).reverse.dropWhile isHeaderSpace).reverse

/-- The presented token in the words of the specification: the header value with a
leading "Bearer " removed when present, then trimmed. -/
def specPresentedToken (authorization : String) : String :=
  trimSpace
    (if "Bearer ".toList.isPrefixOf authorization.toList then
      String.mk (authorization.toList.drop 7)
    else authorization)

/-- A world in which the fingerprint of `chal-foo` was cleared by a delete event. -/
def clearedWorld : World :=
  { cluster := demoCluster (some (GoMap.ofList [("chal-foo", "")])) none none
    trace := []
    health := true }

/-- A challenge with the slug `pwn-101`. -/
def pwn101 : ChallengeConfig :=
  { Name := "Pwn 101", Path := "/pwn-101", Repository := "org/repo"
    Challenge := { demoChallenge with Slug := "pwn-101", Name := "Pwn 101" }
    Description := "l1\nl2\nBody", GeneratedAt := "2025-01-01" }

/-- A world in which the challenge slug `slug` is bound to the remote id `id`. -/
def boundChallengeWorld (slug id : String) : World :=
  { cluster := demoCluster none (some (GoMap.ofList [(slug, id)])) none
    trace := []
    health := true }

/-- A world in which the page slug `slug` is bound to the remote id `id`, and the slug
`about` to the remote id 9. -/
def boundPageWorld (slug id : String) : World :=
  { cluster := demoCluster none none (some ((GoMap.ofList [("about", "9")]).set slug id))
    trace := []
    health := true }

/-- Collaborators that always answer, but the content service opens no session. -/
def sessionDownEnv : Env :=
  { demoEnv with getNonceAndSession := fun _ => some "connection refused" }

/-- Collaborators that always answer, but the cluster does not return the config map
`record`. -/
def unreadableEnv (record : String) : Env :=
  { demoEnv with
    clusterGetError := fun _ name =>
      if name = record then some "the server was unable to return a response" else none }

/-- Collaborators that always answer, but the cluster refuses every update of the
config map `record`. -/
def readOnlyEnv (record : String) : Env :=
  { demoEnv with
    clusterUpdateError := fun _ cm =>
      if cm.Name = record then some "the object has been modified" else none }

/-- The function `getCTFdPages`: the ids of the remote pages; `getPages` is the answer
of the content service.  No function of the program calls it. -/
def getCTFdPages (env : Env) (getPages : List Call → Except String (List Int)) (w : World) :
    Except String (List Int) × World :=
  match getCTFdClient env w with
  | (.error e, w1) => (.error e, w1)
  | (.ok _, w1) =>
    match callValue .getPages getPages w1 with
    | (.error e, w2) => (.error ("failed to get CTFd pages: " ++ e), w2)
    | (.ok pages, w2) => (.ok pages, w2)

/-- A call that patches the remote challenge `b`. -/
def Call.patchesChallenge (b : Int) : Call → Bool
  | .patchChallenge id _ => decide (id = b)
  | .patchKubeCTFChallenge id _ => decide (atoi id = .ok b)
  | _ => false

/-- Collaborators that always answer, but the content service has no page to patch. -/
def pageGoneEnv : Env :=
  { demoEnv with patchPage := fun _ _ _ => .error "404 not found" }

/-- A world in which the challenge slug `pwn-101` is bound to the remote id 7 and the
cluster holds no config map `mapping-map`. -/
def unmappedWorld : World :=
  { cluster := fun name =>
      if name = "mapping-map" then none else (boundChallengeWorld "pwn-101" "7").cluster name
    trace := []
    health := true }

/-! ## Failures of remote calls -/

/-- A result that is not an error. -/
def succeeded {α : Type} : Except String α → Bool
  | .ok _ => true
  | .error _ => false

/-- A result that is not an error returned: a value, or a panic on the way. -/
def noError {α : Type} : Result α → Bool
  | .error _ => false
  | _ => true

/-- The remote service answers the call with an error, when the call is made after the
calls `t`.  Calls to the cluster are not remote calls and are left out. -/
def Call.failsIn (env : Env) (t : List Call) : Call → Bool
  | .getNonceAndSession => (env.getNonceAndSession t).isSome
  | .getChallenges => !succeeded (env.getChallenges t)
  | .postChallenges p => !succeeded (env.postChallenges t p)
  | .postKubeCTFChallenge p => !succeeded (env.postKubeCTFChallenge t p)
  | .patchChallenge id p => !succeeded (env.patchChallenge t id p)
  | .patchKubeCTFChallenge id p => !succeeded (env.patchKubeCTFChallenge t id p)
  | .patchChallengeState id p => (env.patchChallengeState t id p).isSome
  | .getChallengeFiles id => !succeeded (env.getChallengeFiles t id)
  | .deleteFile id => (env.deleteFile t id).isSome
  | .postFiles challenge files => (env.postFiles t challenge files).isSome
  | .getChallengeFlags id => !succeeded (env.getChallengeFlags t id)
  | .deleteFlag id => (env.deleteFlag t id).isSome
  | .postFlags challenge content type data => (env.postFlags t challenge content type data).isSome
  | .getTags challenge => !succeeded (env.getTags t challenge)
  | .deleteTag id => (env.deleteTag t id).isSome
  | .postTags challenge value => (env.postTags t challenge value).isSome
  | .postPages p => !succeeded (env.postPages t p)
  | .patchPage id p => !succeeded (env.patchPage t id p)
  | .deletePage id => (env.deletePage t id).isSome
  | .githubDirContents path => !succeeded (env.githubDirContents t path)
  | .githubFileBytes path => !succeeded (env.githubFileBytes t path)
  | _ => false

/-- The remote calls of a challenge upsert whose failure ends the upsert: create, patch,
the listing, deletion and upload of files and flags, the listing and deletion of tags,
and the listing of the directory of the repository.  The upload of a tag, the fetching
of the bytes of a file, the listing of the challenges and the session bootstrap are not
among them. -/
def Call.aborts : Call → Bool
  | .postChallenges _ => true
  | .postKubeCTFChallenge _ => true
  | .patchChallenge _ _ => true
  | .patchKubeCTFChallenge _ _ => true
  | .getChallengeFiles _ => true
  | .deleteFile _ => true
  | .postFiles _ _ => true
  | .getChallengeFlags _ => true
  | .deleteFlag _ => true
  | .postFlags _ _ _ _ => true
  | .getTags _ => true
  | .deleteTag _ => true
  | .githubDirContents _ => true
  | _ => false

/-- Between `w` and `w'` no call was made whose failure ends the upsert. -/
def Harmless (w w' : World) : Prop :=
  ∃ added, w'.trace = w.trace ++ added ∧ ∀ c ∈ added, c.aborts = false

/-- Between `w` and `w'`, a call whose failure ends the upsert and that did fail is the
last call made, and then the run returned an error (`ok` is false). -/
def FailFast (env : Env) (ok : Bool) (w w' : World) : Prop :=
  ∃ added, w'.trace = w.trace ++ added ∧
    ∀ pre c post, added = pre ++ c :: post → c.aborts = true →
      c.failsIn env (w.trace ++ pre) = true → post = [] ∧ ok = false

/-- Collaborators that always answer, but the bytes of no file can be fetched. -/
def noBytesEnv : Env :=
  { demoEnv with githubFileBytes := fun _ _ => .error "404 not found" }

/-- Collaborators that always answer, but the listing of the challenges fails. -/
def noListingEnv : Env :=
  { demoEnv with getChallenges := fun _ => .error "500 internal server error" }

/-- Collaborators that always answer, but the content service refuses to create a
challenge. -/
def createDownEnv : Env :=
  { demoEnv with postChallenges := fun _ _ => .error "500 internal server error" }

/-! ## Reference definitions and examples for the parameters of a challenge -/

/-- The category name in the words of the specification: "Uncategorized" for an empty
category token; otherwise the difficulty-categories entry of the difficulty token, or
else the categories entry of the category token, or else the category token. -/
def specCategoryName (challengeConfig : ChallengeConfig) (mappingMap : MappingMap) : String :=
  if challengeConfig.Challenge.Category = "" then "Uncategorized"
  else
    ((lookupOk (some mappingMap.DifficultyMapping) challengeConfig.Challenge.Difficulty).orElse
      fun _ => lookupOk (some mappingMap.Categories) challengeConfig.Challenge.Category).getD
      challengeConfig.Challenge.Category

/-- A mapping table with an entry for the category `web` and an entry of the
difficulty-categories mapping for the difficulty `easy`. -/
def demoMappingMap : MappingMap :=
  { Categories := GoMap.ofList [("web", "Web Exploitation")]
    Difficulties := GoMap.empty
    DifficultyMapping := GoMap.ofList [("easy", "Beginner")] }

/-- A mapping table with an entry for the category `web` only. -/
def categoriesOnlyMap : MappingMap :=
  { Categories := GoMap.ofList [("web", "Web Exploitation")]
    Difficulties := GoMap.empty
    DifficultyMapping := GoMap.empty }

/-- An instanced challenge with two subdomains. -/
def instancedChallenge : ChallengeConfig :=
  { Name := "Shell", Path := "/shell", Repository := "org/repo"
    Challenge := { demoChallenge with
      Slug := "shell", Name := "Shell", Typ := "instanced", InstancedType := "web",
      InstancedName := "shell-template", InstancedSubdomains := ["app", "admin"] }
    Description := "", GeneratedAt := "2025-01-01" }

/-! ## The health flag (`health.go`, `go.go`) -/

/-- The state in which `main` starts the watcher: `HEALTH.Store(true)`, no call made
yet. -/
def startWorld (cluster : String → Option ConfigMap) : World :=
  { cluster := cluster, trace := [], health := true }

/-- The goroutine of `main`: run the watcher, and mark the service unhealthy when it
returns an error. -/
def backgroundWatcher (env : Env) (watch : List Call → Except String (List Event))
    (clientset : Bool) (passes : Nat) (w : World) : World :=
  match initBackgroundChallengeWatcher env watch clientset passes w with
  | .notInitialized => setUnhealthy w
  | .crashed w1 => w1
  | .watching w1 => w1

/-- The function `healthy`; `checkAccess` and `getConfigMaps` are the results of its
two checks of the cluster. -/
def healthy (checkAccess getConfigMaps : GoError) (w : World) : Bool :=
  if checkAccess ≠ none then false
  else if getConfigMaps ≠ none then false
  else if !w.health then false
  else true

/-- A watch whose first channel is closed at once and whose later channels deliver an
add event for `chal-foo` before they are closed. -/
def reopeningWatch (t : List Call) : Except String (List Event) :=
  if t = [] then .ok [] else .ok [⟨.Added, .configMap chalFoo⟩]

/-! ## Flags and tags of a challenge -/

/-- The call that posts one flag of a challenge: a static flag with the content of the
definition, qualified "case_insensitive" when the definition is not case-sensitive. -/
def flagCall (id : Int) (flag : FlagDef) : Call :=
  .postFlags id flag.Flag "static" (if !flag.CaseSensitive then "case_insensitive" else "")

/-- The calls that post the flags of a challenge, in the order of the definitions. -/
def flagCalls (id : Int) (challenge : ChallengeConfig) : List Call :=
  challenge.Challenge.Flag.map (flagCall id)

/-- The calls that post the tags of a challenge: one for each tag that is not empty,
in order. -/
def tagCalls (id : Int) (challenge : ChallengeConfig) : List Call :=
  (challenge.Challenge.Tags.filter (· ≠ "")).map (.postTags id ·)

/-- A call that posts a flag. -/
def Call.isFlagUpload : Call → Bool
  | .postFlags _ _ _ _ => true
  | _ => false

/-- A call that posts a tag. -/
def Call.isTagUpload : Call → Bool
  | .postTags _ _ => true
  | _ => false

/-- A call that posts a flag or a tag. -/
def Call.isSubUpload (c : Call) : Bool := c.isFlagUpload || c.isTagUpload

/-- The calls made from `w` to `w'` that post a flag or a tag are the calls `l`, in
that order. -/
def SubPosts (l : List Call) (w w' : World) : Prop :=
  ∃ added, w'.trace = w.trace ++ added ∧ added.filter Call.isSubUpload = l

/-- The flag and tag uploads `l` of an upsert of `challenge` with the remote id `id`:
the flags in order up to some point, or all the flags and then all the tags. -/
def UploadsOf (challenge : ChallengeConfig) (id : Int) (l : List Call) : Prop :=
  (∃ n, l = (flagCalls id challenge).take n) ∨
    l = flagCalls id challenge ++ tagCalls id challenge

/-- The environment with the answers to the tag uploads replaced. -/
def Env.withTagUploads (env : Env) (postTags : List Call → Int → String → GoError) : Env :=
  { env with postTags := postTags }

/-- Collaborators that always answer, but the content service refuses every flag. -/
def flagsDownEnv : Env :=
  { demoEnv with postFlags := fun _ _ _ _ _ => some "500 internal server error" }

/-- Every call other than a tag upload succeeds: the environment is reliable once its
tag uploads are made to succeed. -/
def ReliableApartFromTags (env : Env) : Prop :=
  Reliable (env.withTagUploads fun _ _ _ => none)

/-- Collaborators that always answer, but the content service refuses every tag. -/
def tagsDownEnv : Env :=
  { demoEnv with postTags := fun _ _ _ => some "500 internal server error" }


/-- A content service whose listing times out the first time it is asked and answers
with challenge 7 afterwards, whose first flag upload is refused, and that gives the id 8
to a challenge it creates. -/
def recoveringEnv : Env :=
  { demoEnv with
    getChallenges := fun t => if Call.getChallenges ∈ t then .ok [7] else .error "timeout"
    postChallenges := fun _ _ => .ok 8
    postFlags := fun t _ _ _ _ =>
      if t.any Call.isFlagUpload then none else some "500 internal server error" }

/-- The world after the upsert of `pwn-101`, bound to the remote id 7, against
`recoveringEnv`. -/
def afterFailedCreate : World :=
  (updateOrCreateCTFdChallenge recoveringEnv pwn101 (boundChallengeWorld "pwn-101" "7")).2

/-- The run ended with a panic. -/
def Outcome.isCrashed : Outcome → Bool
  | .done _ => false
  | .crashed _ => true

/-- A fresh world whose config map `mapping-map` holds, under `categories`, a text that
is not JSON. -/
def garbledMapWorld : World :=
  { cluster := fun name =>
      if name = "mapping-map" then
        some ⟨name, GoMap.empty, some (GoMap.ofList [("categories", "not json")])⟩
      else demoWorld.cluster name
    trace := []
    health := true }

/-- Collaborators that always answer; the files directory of a challenge lists one
entry, `src`, which is a sub-directory: fetching it gives no error and no file
content. -/
def subdirEnv : Env :=
  { demoEnv with
    githubDirContents := fun _ _ => .ok ["src"]
    githubFileBytes := fun _ _ => .ok none }

/-! # Theorems -/

/-- The classifier as a function of the watched label alone. -/
theorem getConfigMapType_eq (configMap : Option ConfigMap) :
    getConfigMapType configMap =
      match watchedLabel configMap with
      | none => "unknown"
      | some v => if v = "challenge-config" then "challenge"
                  else if v = "page-config" then "page" else "unknown" := by
  cases configMap with
  | none => rfl
  | some cm =>
    simp only [getConfigMapType, watchedLabel, index]
    split <;> simp_all

/-- C1: `getConfigMapType` returns "challenge" exactly when the label
`challenges.kube-ctf.io/configmap` is present with value "challenge-config", "page"
exactly when it is present with value "page-config", and "unknown" in every other
case (another value, no label, or a nil object). -/
theorem getConfigMapType_spec (configMap : Option ConfigMap) :
    (getConfigMapType configMap = "challenge" ↔
      watchedLabel configMap = some "challenge-config") ∧
    (getConfigMapType configMap = "page" ↔ watchedLabel configMap = some "page-config") ∧
    (watchedLabel configMap ≠ some "challenge-config" →
      watchedLabel configMap ≠ some "page-config" →
      getConfigMapType configMap = "unknown") := by
  rw [getConfigMapType_eq]
  cases watchedLabel configMap with
  | none => simp; decide
  | some v =>
    by_cases h1 : v = "challenge-config"
    · subst h1; simp; decide
    · by_cases h2 : v = "page-config"
      · subst h2; simp; decide
      · simp [h1, h2]; decide

/-- The key order is total. -/
theorem charsLe_total (a b : List Char) : charsLe a b = true ∨ charsLe b a = true := by
  induction a generalizing b with
  | nil => left; simp [charsLe]
  | cons x xs ih =>
    cases b with
    | nil => right; simp [charsLe]
    | cons y ys =>
      simp only [charsLe]
      by_cases h1 : x.toNat < y.toNat
      · simp [h1]
      · by_cases h2 : y.toNat < x.toNat
        · simp [h2]
        · simp only [h1, h2, if_false]
          exact ih ys

/-- The key order is transitive. -/
theorem charsLe_trans (a b c : List Char) (hab : charsLe a b = true) (hbc : charsLe b c = true) :
    charsLe a c = true := by
  induction a generalizing b c with
  | nil => simp [charsLe]
  | cons x xs ih =>
    cases b with
    | nil => simp [charsLe] at hab
    | cons y ys =>
      cases c with
      | nil => simp [charsLe] at hbc
      | cons z zs =>
        simp only [charsLe] at hab hbc ⊢
        by_cases h1 : x.toNat < y.toNat
        · by_cases h2 : y.toNat < z.toNat
          · have : x.toNat < z.toNat := by omega
            simp [this]
          · by_cases h3 : z.toNat < y.toNat
            · simp [h2, h3] at hbc
            · have : x.toNat < z.toNat := by omega
              simp [this]
        · by_cases h1' : y.toNat < x.toNat
          · simp [h1, h1'] at hab
          · simp only [h1, h1', if_false] at hab
            by_cases h2 : y.toNat < z.toNat
            · have : x.toNat < z.toNat := by omega
              simp [this]
            · by_cases h3 : z.toNat < y.toNat
              · simp [h2, h3] at hbc
              · simp only [h2, h3, if_false] at hbc
                have e1 : ¬ x.toNat < z.toNat := by omega
                have e2 : ¬ z.toNat < x.toNat := by omega
                simp only [e1, e2, if_false]
                exact ih ys zs hab hbc

/-- The key order is antisymmetric. -/
theorem charsLe_antisymm (a b : List Char) (hab : charsLe a b = true) (hba : charsLe b a = true) :
    a = b := by
  induction a generalizing b with
  | nil =>
    cases b with
    | nil => rfl
    | cons y ys => simp [charsLe] at hba
  | cons x xs ih =>
    cases b with
    | nil => simp [charsLe] at hab
    | cons y ys =>
      simp only [charsLe] at hab hba
      by_cases h1 : x.toNat < y.toNat
      · have h2 : ¬ y.toNat < x.toNat := by omega
        simp [h1, h2] at hba
      · by_cases h2 : y.toNat < x.toNat
        · simp [h1, h2] at hab
        · simp only [h1, h2, if_false] at hab hba
          have hxy : x = y := by
            apply Char.ext
            apply UInt32.ext
            have : x.toNat = y.toNat := by omega
            exact this
          rw [hxy, ih ys hab hba]

/-- Sorting the entries of two maps that hold the same pairs gives the same list. -/
theorem sortEntries_eq_of_same_pairs (P Q : Entries) (hP : (keys P).Nodup)
    (hQ : (keys Q).Nodup) (h : ∀ kv, kv ∈ P ↔ kv ∈ Q) : sortEntries P = sortEntries Q := by
  have nP : P.Nodup := List.Nodup.of_map _ hP
  have nQ : Q.Nodup := List.Nodup.of_map _ hQ
  have hperm : P.Perm Q := (List.perm_ext_iff_of_nodup nP nQ).2 h
  haveI : IsTotal (String × String) (fun a b => keyLe a.1 b.1 = true) :=
    ⟨fun a b => charsLe_total a.1.toList b.1.toList⟩
  haveI : IsTrans (String × String) (fun a b => keyLe a.1 b.1 = true) :=
    ⟨fun a b c => charsLe_trans a.1.toList b.1.toList c.1.toList⟩
  have sP := List.sorted_insertionSort (fun a b : String × String => keyLe a.1 b.1 = true) P
  have sQ := List.sorted_insertionSort (fun a b : String × String => keyLe a.1 b.1 = true) Q
  have pP := List.perm_insertionSort (fun a b : String × String => keyLe a.1 b.1 = true) P
  have pQ := List.perm_insertionSort (fun a b : String × String => keyLe a.1 b.1 = true) Q
  refine List.Perm.eq_of_sorted ?_ sP sQ (pP.trans (hperm.trans pQ.symm))
  intro a b ha hb hab hba
  have haP : a ∈ P := pP.subset ha
  have hbP : b ∈ P := (h b).2 (pQ.subset hb)
  have hk : a.1 = b.1 := by
    have := charsLe_antisymm a.1.toList b.1.toList hab hba
    exact String.ext this
  exact List.inj_on_of_nodup_map hP haP hbP hk

/-- The hexadecimal digits of the numbers below 16 are pairwise distinct. -/
theorem hexDigit_injective : ∀ n m : Fin 16, hexDigit n.val = hexDigit m.val → n = m := by
  decide

/-- Two bytes with the same two hexadecimal digits are equal. -/
theorem hexByte_injective (b c : Fin 256)
    (h : [hexDigit (b.val / 16), hexDigit (b.val % 16)] =
      [hexDigit (c.val / 16), hexDigit (c.val % 16)]) : b = c := by
  simp only [List.cons.injEq, and_true] at h
  have h1 := hexDigit_injective ⟨b.val / 16, by omega⟩ ⟨c.val / 16, by omega⟩ h.1
  have h2 := hexDigit_injective ⟨b.val % 16, by omega⟩ ⟨c.val % 16, by omega⟩ h.2
  simp only [Fin.mk.injEq] at h1 h2
  apply Fin.ext
  omega

/-- The hexadecimal encoding tells byte sequences apart. -/
theorem hexEncodeToString_injective :
    ∀ bs cs : List (Fin 256), hexEncodeToString bs = hexEncodeToString cs → bs = cs
  | [], [], _ => rfl
  | [], c :: cs, h => by
    have h' := congrArg String.data h
    simp [hexEncodeToString] at h'
  | b :: bs, [], h => by
    have h' := congrArg String.data h
    simp [hexEncodeToString] at h'
  | b :: bs, c :: cs, h => by
    have h' := congrArg String.data h
    simp only [hexEncodeToString, List.flatMap_cons, List.cons_append, List.nil_append,
      List.cons.injEq] at h'
    obtain ⟨h1, h2, h3⟩ := h'
    have hb : b = c := hexByte_injective b c (by rw [h1, h2])
    have := hexEncodeToString_injective bs cs (by simp only [hexEncodeToString, h3])
    rw [hb, this]

/-- The fingerprint of a payload is the hexadecimal text of the digest of its JSON text:
two payloads have the same fingerprint exactly when their JSON texts have the same
digest. -/
theorem getHashForConfigMap_eq_iff (env : Env) (cmP cmQ : ConfigMap) (a b : String)
    (ha : jsonMarshal cmP.Data = .ok a) (hb : jsonMarshal cmQ.Data = .ok b) :
    getHashForConfigMap env cmP = getHashForConfigMap env cmQ ↔ env.sum256 a = env.sum256 b := by
  simp only [getHashForConfigMap, ha, hb]
  constructor
  · intro h
    injection h with h
    have := hexEncodeToString_injective _ _ h
    cases hx : env.sum256 a with
    | mk x px =>
      cases hy : env.sum256 b with
      | mk y py =>
        rw [hx, hy] at this
        simp only at this
        subst this
        rfl
  · intro h
    rw [h]

set_option maxRecDepth 100000 in
/-- C2, as stated, fails for a nil payload: a nil map and an empty map hold the same
key/value pairs (none at all), but a nil map is serialised as `null` and an empty map
as an empty object, and their fingerprints differ. -/
theorem nil_payload_hashes_unlike_empty :
    (∀ k, lookupOk none k = lookupOk (some GoMap.empty) k) ∧
    GoMap.empty.entries = [] ∧
    jsonMarshal none = .ok "null" ∧
    jsonMarshal (some GoMap.empty) = .ok "\x7b\x7d" ∧
    getHashForConfigMap demoEnv ⟨"x", GoMap.empty, none⟩ ≠
      getHashForConfigMap demoEnv ⟨"x", GoMap.empty, some GoMap.empty⟩ := by
  refine ⟨fun _ => rfl, rfl, rfl, by decide, by decide⟩

/-- C2, amended: two payload maps that are not nil and hold the same key/value pairs,
in whatever order the pairs were inserted, have the same fingerprint.  The payload is
serialised as a JSON object whose entries are those of the map sorted by key (a
permutation of the entries, in ascending key order, the keys distinct), and the
fingerprint is the hexadecimal text of the digest of that JSON text: two payloads have
the same fingerprint exactly when their JSON texts have the same digest.  A nil payload
is serialised as `null`; two nil payloads have the same fingerprint. -/
theorem getHashForConfigMap_order_independent (env : Env) (nameP nameQ : String)
    (labelsP labelsQ : GoMap) (P Q : GoMap) (h : ∀ kv, kv ∈ P.entries ↔ kv ∈ Q.entries) :
    getHashForConfigMap env ⟨nameP, labelsP, some P⟩ =
      getHashForConfigMap env ⟨nameQ, labelsQ, some Q⟩ ∧
    jsonMarshal (some P) = jsonMarshal (some Q) ∧
    (sortEntries P.entries).Pairwise (fun a b => keyLe a.1 b.1 = true) ∧
    (sortEntries P.entries).Perm P.entries ∧
    (keys (sortEntries P.entries)).Nodup ∧
    jsonMarshal (some P) = .ok ("\x7b" ++ ",".intercalate
      ((sortEntries P.entries).map fun kv => jsonString kv.1 ++ ":" ++ jsonString kv.2) ++
      "\x7d") ∧
    (∀ (cm : ConfigMap) (text : String), jsonMarshal cm.Data = .ok text →
      getHashForConfigMap env cm = .ok (hexEncodeToString (env.sum256 text).bytes)) ∧
    (∀ (cmA cmB : ConfigMap) (a b : String),
      jsonMarshal cmA.Data = .ok a → jsonMarshal cmB.Data = .ok b →
      (getHashForConfigMap env cmA = getHashForConfigMap env cmB ↔
        env.sum256 a = env.sum256 b)) ∧
    jsonMarshal none = .ok "null" ∧
    getHashForConfigMap env ⟨nameP, labelsP, none⟩ =
      getHashForConfigMap env ⟨nameQ, labelsQ, none⟩ := by
  have e := sortEntries_eq_of_same_pairs P.entries Q.entries P.nodup Q.nodup h
  have perm : (sortEntries P.entries).Perm P.entries :=
    List.perm_insertionSort (fun a b : String × String => keyLe a.1 b.1 = true) P.entries
  refine ⟨?_, ?_, ?_, perm, ?_, rfl, ?_, ?_, rfl, rfl⟩
  · simp [getHashForConfigMap, jsonMarshal, e]
  · simp [jsonMarshal, e]
  · haveI : IsTotal (String × String) (fun a b => keyLe a.1 b.1 = true) :=
      ⟨fun a b => charsLe_total a.1.toList b.1.toList⟩
    haveI : IsTrans (String × String) (fun a b => keyLe a.1 b.1 = true) :=
      ⟨fun a b c => charsLe_trans a.1.toList b.1.toList c.1.toList⟩
    exact List.sorted_insertionSort (fun a b : String × String => keyLe a.1 b.1 = true)
      P.entries
  · exact ((perm.map Prod.fst).nodup_iff).2 P.nodup
  · intro cm text ht
    simp only [getHashForConfigMap, ht]
  · intro cmA cmB a b ha hb
    exact getHashForConfigMap_eq_iff env cmA cmB a b ha hb

set_option maxRecDepth 100000 in
/-- C2, amended, at the maps built as b, a and as a, b: the entries are held in
different orders, the JSON text lists a before b, and the fingerprints are equal. -/
theorem getHashForConfigMap_order_independent_witness :
    (GoMap.ofList [("b", "2"), ("a", "1")]).entries ≠
      (GoMap.ofList [("a", "1"), ("b", "2")]).entries ∧
    jsonMarshal (some (GoMap.ofList [("b", "2"), ("a", "1")])) =
      .ok "\x7b\"a\":\"1\",\"b\":\"2\"\x7d" ∧
    getHashForConfigMap demoEnv ⟨"x", GoMap.empty, some (GoMap.ofList [("b", "2"), ("a", "1")])⟩ =
      getHashForConfigMap demoEnv
        ⟨"x", GoMap.empty, some (GoMap.ofList [("a", "1"), ("b", "2")])⟩ :=
  ⟨by decide, by decide,
    (getHashForConfigMap_order_independent demoEnv "x" "x" GoMap.empty GoMap.empty
      (GoMap.ofList [("b", "2"), ("a", "1")]) (GoMap.ofList [("a", "1"), ("b", "2")])
      (by intro kv; simp [GoMap.ofList, GoMap.set, GoMap.empty, setEntry, or_comm])).1⟩

/-- Reading a stored fingerprint when the record can be read. -/
theorem getConfigmapStoredHash_of_readable (env : Env) (name : String) (w : World)
    (h : fingerprintReadable env w = true) :
    getConfigmapStoredHash env name w =
      (.ok ((storedFingerprint w name).getD ""), w.record (.clusterGet "challenge-configmap-hashset")) := by
  simp only [fingerprintReadable, Bool.and_eq_true, Option.isNone_iff_eq_none,
    Option.isSome_iff_exists] at h
  obtain ⟨h1, cm, h2⟩ := h
  simp only [getConfigmapStoredHash, getConfigmapHashSet, getConfigMap, clusterGet, h1, h2,
    storedFingerprint, storedValue]
  cases lookupOk cm.Data name <;> rfl

/-- Reading a stored fingerprint when the record cannot be read. -/
theorem getConfigmapStoredHash_of_not_readable (env : Env) (name : String) (w : World)
    (h : fingerprintReadable env w = false) :
    ∃ e, getConfigmapStoredHash env name w =
      (.error e, w.record (.clusterGet "challenge-configmap-hashset")) := by
  simp only [getConfigmapStoredHash, getConfigmapHashSet, getConfigMap, clusterGet]
  cases h1 : env.clusterGetError w.trace "challenge-configmap-hashset" with
  | some e => exact ⟨e, rfl⟩
  | none =>
    cases h2 : w.cluster "challenge-configmap-hashset" with
    | none => exact ⟨_, rfl⟩
    | some cm => simp [fingerprintReadable, h1, h2] at h

/-- C3: `hasBeenDeployed` is true exactly when the fingerprint record can be read and
the value stored under the name of the object (the empty string when there is no
entry) is the freshly computed hash; a readable record gives the stored value
without error, the empty string for a name with no entry; an unreadable record
makes `getConfigmapStoredHash` return an error and `hasBeenDeployed` return false. -/
theorem hasBeenDeployed_spec (env : Env) (configMap : ConfigMap) (w : World) :
    ((hasBeenDeployed env configMap w).1 = true ↔
      fingerprintReadable env w = true ∧
      getHashForConfigMap env configMap = .ok ((storedFingerprint w configMap.Name).getD "")) ∧
    (fingerprintReadable env w = true →
      (getConfigmapStoredHash env configMap.Name w).1 =
        .ok ((storedFingerprint w configMap.Name).getD "") ∧
      (storedFingerprint w configMap.Name = none →
        (getConfigmapStoredHash env configMap.Name w).1 = .ok "")) ∧
    (fingerprintReadable env w = false →
      (∃ e, (getConfigmapStoredHash env configMap.Name w).1 = .error e) ∧
      (hasBeenDeployed env configMap w).1 = false) := by
  have hhash : ∃ h, getHashForConfigMap env configMap = .ok h := by
    simp only [getHashForConfigMap, jsonMarshal]
    cases configMap.Data <;> exact ⟨_, rfl⟩
  obtain ⟨hsh, hh⟩ := hhash
  cases hr : fingerprintReadable env w with
  | true =>
    have e := getConfigmapStoredHash_of_readable env configMap.Name w hr
    refine ⟨?_, ?_, ?_⟩
    · simp [hasBeenDeployed, hh, e]
    · intro _
      refine ⟨by rw [e], ?_⟩
      intro hn
      rw [e, hn]; rfl
    · intro h; cases h
  | false =>
    obtain ⟨err, e⟩ := getConfigmapStoredHash_of_not_readable env configMap.Name w hr
    refine ⟨?_, ?_, ?_⟩
    · simp [hasBeenDeployed, hh, e]
    · intro h; cases h
    · intro _
      exact ⟨⟨err, by rw [e]⟩, by simp [hasBeenDeployed, hh, e]⟩

/-- C3 on a fresh world: nothing is stored for `chal-foo`, the read gives the empty
string and the object counts as not deployed. -/
theorem hasBeenDeployed_spec_witness :
    fingerprintReadable demoEnv demoWorld = true ∧
    storedFingerprint demoWorld chalFoo.Name = none ∧
    (getConfigmapStoredHash demoEnv chalFoo.Name demoWorld).1 = .ok "" :=
  ⟨by decide, by decide,
    ((hasBeenDeployed_spec demoEnv chalFoo demoWorld).2.1 (by decide)).2 (by decide)⟩

/-- The first missing key: it is absent and every required key before it is present. -/
theorem firstMissing_eq_some (data : Option GoMap) (required : List String) (element : String) :
    firstMissing data required = some element ↔
      lookupOk data element = none ∧
        ∃ pre post, required = pre ++ element :: post ∧ ∀ k ∈ pre, lookupOk data k ≠ none := by
  simp only [firstMissing, List.find?_eq_some, Option.isNone_iff_eq_none]
  constructor
  · rintro ⟨h, pre, post, e, hpre⟩
    refine ⟨h, pre, post, e, fun k hk => ?_⟩
    have := hpre k hk
    cases hl : lookupOk data k <;> simp_all
  · rintro ⟨h, pre, post, e, hpre⟩
    refine ⟨h, pre, post, e, fun k hk => ?_⟩
    have := hpre k hk
    cases hl : lookupOk data k <;> simp_all

/-- No key is missing exactly when every required key is present. -/
theorem firstMissing_eq_none (data : Option GoMap) (required : List String) :
    firstMissing data required = none ↔ ∀ k ∈ required, lookupOk data k ≠ none := by
  simp [firstMissing, List.find?_eq_none]

/-- C6: `extractChallengeConfigMap` fails exactly when a required key is absent or the
blob does not decode.  If one of name, path, repository, challenge, description is
absent, the error names the first absent one in that order; if all five are present
and the blob does not decode, the error is the decode error; otherwise the result is
the record with the payload's name, path, repository and description and the decoded
challenge. -/
theorem extractChallengeConfigMap_spec (env : Env) (configMap : ConfigMap) :
    (∀ pre element post,
      ["name", "path", "repository", "challenge", "description"] = pre ++ element :: post →
      (∀ k ∈ pre, lookupOk configMap.Data k ≠ none) → lookupOk configMap.Data element = none →
      extractChallengeConfigMap env configMap =
        .error ("Configmap does not contain the required element: " ++ element)) ∧
    ((∀ k ∈ ["name", "path", "repository", "challenge", "description"],
        lookupOk configMap.Data k ≠ none) →
      (∀ e, env.unmarshalChallenge (index configMap.Data "challenge") = .error e →
        extractChallengeConfigMap env configMap = .error e) ∧
      (∀ challenge, env.unmarshalChallenge (index configMap.Data "challenge") = .ok challenge →
        extractChallengeConfigMap env configMap =
          .ok { Name := index configMap.Data "name"
                Path := index configMap.Data "path"
                Repository := index configMap.Data "repository"
                Challenge := challenge
                Description := index configMap.Data "description"
                GeneratedAt := index configMap.Data "generated_at" })) ∧
    ((∃ c, extractChallengeConfigMap env configMap = .ok c) ↔
      (∀ k ∈ ["name", "path", "repository", "challenge", "description"],
        lookupOk configMap.Data k ≠ none) ∧
      ∃ challenge, env.unmarshalChallenge (index configMap.Data "challenge") = .ok challenge) := by
  refine ⟨?_, ?_, ?_⟩
  · intro pre element post hl hpre habs
    have h := (firstMissing_eq_some configMap.Data _ element).2 ⟨habs, pre, post, hl, hpre⟩
    simp only [extractChallengeConfigMap, h]
  · intro hall
    have h := (firstMissing_eq_none configMap.Data _).2 hall
    constructor
    · intro e he
      simp only [extractChallengeConfigMap, h, he]
    · intro challenge hc
      simp only [extractChallengeConfigMap, h, hc]
  · constructor
    · rintro ⟨c, hc⟩
      cases h : firstMissing configMap.Data
          ["name", "path", "repository", "challenge", "description"] with
      | some element => simp [extractChallengeConfigMap, h] at hc
      | none =>
        refine ⟨(firstMissing_eq_none configMap.Data _).1 h, ?_⟩
        cases hd : env.unmarshalChallenge (index configMap.Data "challenge") with
        | error e => simp [extractChallengeConfigMap, h, hd] at hc
        | ok challenge => exact ⟨challenge, rfl⟩
    · rintro ⟨hall, challenge, hc⟩
      have h := (firstMissing_eq_none configMap.Data _).2 hall
      simp only [extractChallengeConfigMap, h, hc]
      exact ⟨_, rfl⟩

/-- C6 on a payload that lacks only `path`: the error names `path`. -/
theorem extractChallengeConfigMap_spec_witness :
    lookupOk chalWithoutPath.Data "name" ≠ none ∧ lookupOk chalWithoutPath.Data "path" = none ∧
    extractChallengeConfigMap demoEnv chalWithoutPath =
      .error "Configmap does not contain the required element: path" :=
  ⟨by decide, by decide,
    (extractChallengeConfigMap_spec demoEnv chalWithoutPath).1 ["name"] "path"
      ["repository", "challenge", "description"] rfl (by decide) (by decide)⟩

/-- C7, as stated, fails: a page payload with the five keys slug, name, path,
repository and page and a valid blob is rejected, because `generated_at` is required
too. -/
theorem extractPageConfigMap_five_keys_rejected :
    (∀ k ∈ ["slug", "name", "path", "repository", "page"],
      lookupOk pageWithoutGeneratedAt.Data k ≠ none) ∧
    demoEnv.unmarshalPage (index pageWithoutGeneratedAt.Data "page") = .ok demoPage ∧
    extractPageConfigMap demoEnv (some pageWithoutGeneratedAt) =
      .error "Configmap does not contain the required element: generated_at" := by
  decide

/-- C7, amended: the required keys of a page config object are slug, name, path,
repository, page and generated_at.  If one of the six is absent, the result is the
missing-field error that names the first absent one; if all six are present, the
result is decided by the decoding of the blob alone, so a payload with the six keys
and a valid blob is extracted. -/
theorem extractPageConfigMap_spec (env : Env) (cm : ConfigMap) :
    (∀ pre element post,
      ["slug", "name", "path", "repository", "page", "generated_at"] = pre ++ element :: post →
      (∀ k ∈ pre, lookupOk cm.Data k ≠ none) → lookupOk cm.Data element = none →
      extractPageConfigMap env (some cm) =
        .error ("Configmap does not contain the required element: " ++ element)) ∧
    ((∃ k ∈ ["slug", "name", "path", "repository", "page", "generated_at"],
        lookupOk cm.Data k = none) ↔
      ∃ element ∈ ["slug", "name", "path", "repository", "page", "generated_at"],
        firstMissing cm.Data ["slug", "name", "path", "repository", "page", "generated_at"] =
          some element) ∧
    ((∀ k ∈ ["slug", "name", "path", "repository", "page", "generated_at"],
        lookupOk cm.Data k ≠ none) →
      (∀ e, env.unmarshalPage (index cm.Data "page") = .error e →
        extractPageConfigMap env (some cm) = .error e) ∧
      (∀ page, env.unmarshalPage (index cm.Data "page") = .ok page →
        ∃ pc, extractPageConfigMap env (some cm) = .ok pc)) := by
  refine ⟨?_, ?_, ?_⟩
  · intro pre element post hl hpre habs
    have h := (firstMissing_eq_some cm.Data _ element).2 ⟨habs, pre, post, hl, hpre⟩
    simp only [extractPageConfigMap, h]
  · constructor
    · rintro ⟨k, hk, habs⟩
      cases h : firstMissing cm.Data
          ["slug", "name", "path", "repository", "page", "generated_at"] with
      | none => exact absurd habs ((firstMissing_eq_none cm.Data _).1 h k hk)
      | some element =>
        obtain ⟨_, pre, post, hl, _⟩ := (firstMissing_eq_some cm.Data _ element).1 h
        exact ⟨element, by rw [hl]; simp, rfl⟩
    · rintro ⟨element, hmem, h⟩
      exact ⟨element, hmem, ((firstMissing_eq_some cm.Data _ element).1 h).1⟩
  · intro hall
    have h := (firstMissing_eq_none cm.Data _).2 hall
    constructor
    · intro e he
      simp only [extractPageConfigMap, h, he]
    · intro page hp
      simp only [extractPageConfigMap, h, hp]
      exact ⟨_, rfl⟩

/-- C7, amended, on the page config object of the examples, which has the six keys. -/
theorem extractPageConfigMap_spec_witness :
    (∀ k ∈ ["slug", "name", "path", "repository", "page", "generated_at"],
      lookupOk pageRules.Data k ≠ none) ∧
    ∃ pc, extractPageConfigMap demoEnv (some pageRules) = .ok pc :=
  ⟨by decide,
    ((extractPageConfigMap_spec demoEnv pageRules).2.2 (by decide)).2 demoPage (by decide)⟩

/-! ## Maps -/

/-- Reading a key after a write on the entries. -/
theorem lookup_setEntry (es : Entries) (k v k' : String) :
    (setEntry es k v).lookup k' = if k' = k then some v else es.lookup k' := by
  induction es with
  | nil =>
    by_cases h : k' = k
    · simp [setEntry, List.lookup, h]
    · have : (k' == k) = false := by simpa using h
      simp [setEntry, List.lookup, h, this]
  | cons p rest ih =>
    obtain ⟨a, b⟩ := p
    by_cases ha : a = k
    · subst ha
      by_cases h : k' = a
      · simp [setEntry, List.lookup, h]
      · have : (k' == a) = false := by simpa using h
        simp [setEntry, List.lookup, h, this]
    · by_cases h : k' = a
      · subst h
        simp [setEntry, List.lookup, ha]
      · have : (k' == a) = false := by simpa using h
        simp [setEntry, List.lookup, ha, this, ih]

/-- A key that is read is a key of the entries. -/
theorem mem_keys_of_lookup (es : Entries) (k v : String) (h : es.lookup k = some v) :
    k ∈ keys es := by
  induction es with
  | nil => simp [List.lookup] at h
  | cons p rest ih =>
    obtain ⟨a, b⟩ := p
    by_cases hk : k = a
    · simp [keys, hk]
    · have hb : (k == a) = false := by simpa using hk
      simp only [List.lookup, hb] at h
      simp only [keys, List.map_cons, List.mem_cons]
      right
      exact ih h

/-- Reading a key after the write `m[k] = v`. -/
theorem lookupOk_set (m : GoMap) (k v k' : String) :
    lookupOk (some (m.set k v)) k' = if k' = k then some v else lookupOk (some m) k' := by
  simp only [lookupOk, GoMap.set]
  exact lookup_setEntry m.entries k v k'

/-- Reading a key after copying the entries `es` (with distinct keys) into a map. -/
theorem lookupOk_foldl_set (es : Entries) (h : (keys es).Nodup) (dst : GoMap) (k : String) :
    lookupOk (some (es.foldl (fun acc kv => acc.set kv.1 kv.2) dst)) k =
      match es.lookup k with
      | some v => some v
      | none => lookupOk (some dst) k := by
  induction es generalizing dst with
  | nil => simp [List.lookup]
  | cons p rest ih =>
    obtain ⟨a, b⟩ := p
    simp only [keys, List.map_cons, List.nodup_cons] at h
    simp only [List.foldl_cons]
    rw [ih h.2]
    by_cases hk : k = a
    · subst hk
      have hn : rest.lookup k = none := by
        cases hl : rest.lookup k with
        | none => rfl
        | some v =>
          exact absurd (mem_keys_of_lookup rest k v hl) h.1
      simp [hn, List.lookup, lookupOk_set]
    · have : (k == a) = false := by simpa using hk
      simp [List.lookup, this, lookupOk_set, hk]

/-- Reading a key after `for key, value := range src { dst[key] = value }`. -/
theorem lookupOk_mergeInto (dst src : GoMap) (k : String) :
    lookupOk (some (mergeInto dst src)) k =
      match lookupOk (some src) k with
      | some v => some v
      | none => lookupOk (some dst) k := by
  simp only [mergeInto]
  exact lookupOk_foldl_set src.entries src.nodup dst k

/-- Merging a map, with one key written, back into the map it came from. -/
theorem lookupOk_mergeInto_set (m : GoMap) (k v k' : String) :
    lookupOk (some (mergeInto m (m.set k v))) k' =
      if k' = k then some v else lookupOk (some m) k' := by
  rw [lookupOk_mergeInto, lookupOk_set]
  by_cases h : k' = k
  · simp [h]
  · simp only [h, if_false]
    cases lookupOk (some m) k' <;> rfl

/-! ## Frames -/

theorem Quiet.refl_quiet (w : World) : Quiet w w := ⟨[], by simp, by simp⟩

theorem Quiet.trans_quiet {a b c : World} (h1 : Quiet a b) (h2 : Quiet b c) : Quiet a c := by
  obtain ⟨x, hx, px⟩ := h1
  obtain ⟨y, hy, py⟩ := h2
  refine ⟨x ++ y, by rw [hy, hx, List.append_assoc], ?_⟩
  intro c hc
  rcases List.mem_append.1 hc with h | h
  · exact px c h
  · exact py c h

theorem Quiet.record_quiet (w : World) (c : Call) (h : c.isEntityCall = false) :
    Quiet w (w.record c) :=
  ⟨[c], rfl, by simpa using h⟩

theorem SameCluster.refl_same (w : World) : SameCluster w w := ⟨rfl, rfl⟩

theorem SameCluster.trans_same {a b c : World} (h1 : SameCluster a b) (h2 : SameCluster b c) :
    SameCluster a c :=
  ⟨h2.1.trans h1.1, h2.2.trans h1.2⟩

theorem SameCluster.record_same (w : World) (c : Call) : SameCluster w (w.record c) := ⟨rfl, rfl⟩

theorem SameCluster.except {a b : World} (name : String) (h : SameCluster a b) :
    SameClusterExcept name a b :=
  ⟨fun n _ => by rw [h.1], h.2⟩

theorem SameClusterExcept.refl_except (name : String) (w : World) : SameClusterExcept name w w :=
  ⟨fun _ _ => rfl, rfl⟩

theorem SameClusterExcept.trans_except {name : String} {a b c : World}
    (h1 : SameClusterExcept name a b) (h2 : SameClusterExcept name b c) :
    SameClusterExcept name a c :=
  ⟨fun n hn => (h2.1 n hn).trans (h1.1 n hn), h2.2.trans h1.2⟩

theorem OneCall.of_record (q : Call → Bool) (w : World) (c : Call) (h : q c = true) :
    OneCall q w (w.record c) :=
  ⟨[], c, [], rfl, by simp, h, by simp⟩

theorem Quiet.then_one {q : Call → Bool} {a b c : World} (h1 : Quiet a b)
    (h2 : OneCall q b c) : OneCall q a c := by
  obtain ⟨x, hx, px⟩ := h1
  obtain ⟨pre, k, post, hy, ppre, hk, ppost⟩ := h2
  refine ⟨x ++ pre, k, post, by rw [hy, hx]; simp [List.append_assoc], ?_, hk, ppost⟩
  intro c hc
  rcases List.mem_append.1 hc with h | h
  · exact px c h
  · exact ppre c h

theorem OneCall.then_quiet_one {q : Call → Bool} {a b c : World} (h1 : OneCall q a b)
    (h2 : Quiet b c) : OneCall q a c := by
  obtain ⟨pre, k, post, hy, ppre, hk, ppost⟩ := h1
  obtain ⟨x, hx, px⟩ := h2
  refine ⟨pre, k, post ++ x, by rw [hx, hy]; simp [List.append_assoc], ppre, hk, ?_⟩
  intro c hc
  rcases List.mem_append.1 hc with h | h
  · exact ppost c h
  · exact px c h

theorem OneCall.mono {q r : Call → Bool} {a b : World} (h : OneCall q a b)
    (hqr : ∀ c, q c = true → r c = true) : OneCall r a b := by
  obtain ⟨pre, k, post, hy, ppre, hk, ppost⟩ := h
  exact ⟨pre, k, post, hy, ppre, hqr k hk, ppost⟩

/-- The calls made from `w` to `w'`, when the trace of `w'` extends that of `w`. -/
theorem callsSince_eq {w w' : World} {added : List Call} (h : w'.trace = w.trace ++ added) :
    callsSince w w' = added := by
  simp [callsSince, h]

/-- A quiet run issues no call of a kind of remote write. -/
theorem Quiet.countP_eq_zero_quiet {w w' : World} (h : Quiet w w') (p : Call → Bool)
    (hp : ∀ c, p c = true → c.isEntityCall = true) : (callsSince w w').countP p = 0 := by
  obtain ⟨added, ha, hq⟩ := h
  rw [callsSince_eq ha, List.countP_eq_zero]
  intro c hc hpc
  have := hq c hc
  rw [hp c hpc] at this
  cases this

/-- A run with one remote write issues one call of the kinds that include it. -/
theorem OneCall.countP_eq_one {q : Call → Bool} {w w' : World} (h : OneCall q w w')
    (p : Call → Bool) (hp : ∀ c, p c = true → c.isEntityCall = true)
    (hq : ∀ c, q c = true → p c = true) : (callsSince w w').countP p = 1 := by
  obtain ⟨pre, k, post, ha, ppre, hk, ppost⟩ := h
  rw [callsSince_eq ha]
  have z1 : pre.countP p = 0 := by
    rw [List.countP_eq_zero]
    intro c hc hpc
    have := ppre c hc
    rw [hp c hpc] at this
    cases this
  have z2 : post.countP p = 0 := by
    rw [List.countP_eq_zero]
    intro c hc hpc
    have := ppost c hc
    rw [hp c hpc] at this
    cases this
  simp [List.countP_append, List.countP_cons, z1, z2, hq k hk]

/-- A run with one remote write issues no call of the kinds that exclude it. -/
theorem OneCall.countP_eq_zero_one {q : Call → Bool} {w w' : World} (h : OneCall q w w')
    (p : Call → Bool) (hp : ∀ c, p c = true → c.isEntityCall = true)
    (hq : ∀ c, q c = true → p c = false) : (callsSince w w').countP p = 0 := by
  obtain ⟨pre, k, post, ha, ppre, hk, ppost⟩ := h
  rw [callsSince_eq ha]
  have z1 : pre.countP p = 0 := by
    rw [List.countP_eq_zero]
    intro c hc hpc
    have := ppre c hc
    rw [hp c hpc] at this
    cases this
  have z2 : post.countP p = 0 := by
    rw [List.countP_eq_zero]
    intro c hc hpc
    have := ppost c hc
    rw [hp c hpc] at this
    cases this
  simp [List.countP_append, List.countP_cons, z1, z2, hq k hk]

/-- A run with one remote write issues at most one call of any kind of remote write. -/
theorem OneCall.countP_le_one_one {q : Call → Bool} {w w' : World} (h : OneCall q w w')
    (p : Call → Bool) (hp : ∀ c, p c = true → c.isEntityCall = true) :
    (callsSince w w').countP p ≤ 1 := by
  obtain ⟨pre, k, post, ha, ppre, hk, ppost⟩ := h
  rw [callsSince_eq ha]
  have z1 : pre.countP p = 0 := by
    rw [List.countP_eq_zero]
    intro c hc hpc
    have := ppre c hc
    rw [hp c hpc] at this
    cases this
  have z2 : post.countP p = 0 := by
    rw [List.countP_eq_zero]
    intro c hc hpc
    have := ppost c hc
    rw [hp c hpc] at this
    cases this
  rw [List.countP_append, List.countP_cons, z1, z2]
  split <;> simp

theorem Plumb.refl_plumb (w : World) : Plumb w w := ⟨SameCluster.refl_same w, Quiet.refl_quiet w⟩

theorem Plumb.trans_plumb {a b c : World} (h1 : Plumb a b) (h2 : Plumb b c) : Plumb a c :=
  ⟨h1.1.trans_same h2.1, h1.2.trans_quiet h2.2⟩

theorem Plumb.record_plumb (w : World) (c : Call) (h : c.isEntityCall = false) :
    Plumb w (w.record c) :=
  ⟨SameCluster.record_same w c, Quiet.record_quiet w c h⟩

theorem Plumb.writes {a b : World} (name : String) (h : Plumb a b) : Writes name a b :=
  ⟨h.1.except name, h.2⟩

theorem Writes.refl_writes (name : String) (w : World) : Writes name w w :=
  ⟨SameClusterExcept.refl_except name w, Quiet.refl_quiet w⟩

theorem Writes.trans_writes {name : String} {a b c : World} (h1 : Writes name a b)
    (h2 : Writes name b c) : Writes name a c :=
  ⟨h1.1.trans_except h2.1, h1.2.trans_quiet h2.2⟩

theorem AtMostOne.of_quiet {a b : World} (h : Quiet a b) : AtMostOne a b := Or.inl h

theorem AtMostOne.of_one {q : Call → Bool} {a b : World} (h : OneCall q a b) :
    AtMostOne a b :=
  Or.inr (h.mono fun _ _ => rfl)

theorem Quiet.then_atMostOne {a b c : World} (h1 : Quiet a b) (h2 : AtMostOne b c) :
    AtMostOne a c := by
  rcases h2 with h | h
  · exact Or.inl (h1.trans_quiet h)
  · exact Or.inr (h1.then_one h)

theorem AtMostOne.then_quiet_atMost {a b c : World} (h1 : AtMostOne a b) (h2 : Quiet b c) :
    AtMostOne a c := by
  rcases h1 with h | h
  · exact Or.inl (h.trans_quiet h2)
  · exact Or.inr (h.then_quiet_one h2)

/-- A run with at most one remote write issues at most one call of any kind of remote
write. -/
theorem AtMostOne.countP_le_one_atMost {w w' : World} (h : AtMostOne w w') (p : Call → Bool)
    (hp : ∀ c, p c = true → c.isEntityCall = true) : (callsSince w w').countP p ≤ 1 := by
  rcases h with h | h
  · rw [h.countP_eq_zero_quiet p hp]; exact Nat.zero_le 1
  · exact h.countP_le_one_one p hp

/-! ## The frame of each function -/

theorem clusterGet_frame {env : Env} {name : String} {w w' : World}
    {r : Except String ConfigMap} (h : clusterGet env name w = (r, w')) : Plumb w w' := by
  unfold clusterGet at h
  split at h
  · cases h; exact Plumb.record_plumb w _ (by rfl)
  · split at h <;> (cases h; exact Plumb.record_plumb w _ (by rfl))

theorem clusterUpdate_frame {env : Env} {cm : ConfigMap} {w w' : World} {r : GoError}
    (h : clusterUpdate env cm w = (r, w')) : Writes cm.Name w w' := by
  unfold clusterUpdate at h
  split at h
  · cases h; exact (Plumb.record_plumb w _ (by rfl)).writes _
  · split at h
    · cases h; exact (Plumb.record_plumb w _ (by rfl)).writes _
    · cases h
      refine ⟨⟨fun n hn => by simp [hn], rfl⟩, ⟨[.clusterUpdate cm], rfl, by simp [Call.isEntityCall]⟩⟩

theorem clusterGet_name {env : Env} {name : String} {w w' : World} {cm : ConfigMap}
    (h : clusterGet env name w = (.ok cm, w')) : cm.Name = name := by
  unfold clusterGet at h
  split at h
  · cases h
  · split at h <;> cases h
    rfl

theorem getConfigMap_frame {env : Env} {name : String} {w w' : World}
    {r : Except String ConfigMap} (h : getConfigMap env name w = (r, w')) : Plumb w w' :=
  clusterGet_frame h

theorem updateConfigMap_frame {env : Env} {name : String} {data : GoMap} {w w' : World}
    {r : GoError} (h : updateConfigMap env name data w = (r, w')) : Writes name w w' := by
  unfold updateConfigMap at h
  split at h
  · cases h
    exact (getConfigMap_frame ‹_›).writes name
  · rename_i cm w1 hg
    have hn : cm.Name = name := clusterGet_name hg
    have h2 := clusterUpdate_frame h
    simp only [hn] at h2
    exact ((getConfigMap_frame hg).writes name).trans_writes h2

theorem callValue_frame {α : Type} {c : Call} {answer : List Call → Except String α}
    {w w' : World} {r : Except String α} (h : callValue c answer w = (r, w'))
    (hc : c.isEntityCall = false) : Plumb w w' := by
  unfold callValue at h
  cases h
  exact Plumb.record_plumb w c hc

theorem callError_frame {c : Call} {answer : List Call → GoError}
    {w w' : World} {r : GoError} (h : callError c answer w = (r, w'))
    (hc : c.isEntityCall = false) : Plumb w w' := by
  unfold callError at h
  cases h
  exact Plumb.record_plumb w c hc

theorem callValue_one {α : Type} {c : Call} {answer : List Call → Except String α}
    {w w' : World} {r : Except String α} (q : Call → Bool)
    (h : callValue c answer w = (r, w')) (hc : q c = true) :
    SameCluster w w' ∧ OneCall q w w' := by
  unfold callValue at h
  cases h
  exact ⟨SameCluster.record_same w c, OneCall.of_record q w c hc⟩

theorem callError_one {c : Call} {answer : List Call → GoError}
    {w w' : World} {r : GoError} (q : Call → Bool)
    (h : callError c answer w = (r, w')) (hc : q c = true) :
    SameCluster w w' ∧ OneCall q w w' := by
  unfold callError at h
  cases h
  exact ⟨SameCluster.record_same w c, OneCall.of_record q w c hc⟩

theorem getConfigmapHashSet_frame {env : Env} {w w' : World}
    {r : Except String (Option GoMap)} (h : getConfigmapHashSet env w = (r, w')) :
    Plumb w w' := by
  unfold getConfigmapHashSet at h
  split at h <;> (cases h; exact getConfigMap_frame ‹_›)

theorem getConfigmapStoredHash_frame {env : Env} {name : String} {w w' : World}
    {r : Except String String} (h : getConfigmapStoredHash env name w = (r, w')) :
    Plumb w w' := by
  unfold getConfigmapStoredHash at h
  split at h
  · cases h; exact getConfigmapHashSet_frame ‹_›
  · split at h <;> (cases h; exact getConfigmapHashSet_frame ‹_›)

theorem hasBeenDeployed_frame {env : Env} {cm : ConfigMap} {w w' : World} {r : Bool}
    (h : hasBeenDeployed env cm w = (r, w')) : Plumb w w' := by
  unfold hasBeenDeployed at h
  split at h
  · cases h; exact Plumb.refl_plumb w
  · split at h <;> (cases h; exact getConfigmapStoredHash_frame ‹_›)

theorem storeConfigmapHash_frame {env : Env} {name hash : String} {w w' : World}
    {r : GoError} (h : storeConfigmapHash env name hash w = (r, w')) :
    Writes "challenge-configmap-hashset" w w' := by
  unfold storeConfigmapHash at h
  split at h
  · cases h; exact (getConfigmapHashSet_frame ‹_›).writes _
  · exact ((getConfigmapHashSet_frame ‹_›).writes _).trans_writes (updateConfigMap_frame h)

theorem getMappingMap_frame {env : Env} {w w' : World} {r : Except String MappingMap}
    (h : getMappingMap env w = (r, w')) : Plumb w w' := by
  unfold getMappingMap at h
  split at h <;> (cases h; exact clusterGet_frame ‹_›)

theorem getCTFdAccessToken_frame {env : Env} {w w' : World} {r : String}
    (h : getCTFdAccessToken env w = (r, w')) : Plumb w w' := by
  unfold getCTFdAccessToken at h
  split at h <;> (cases h; exact getConfigMap_frame ‹_›)

theorem getCTFdClient_frame {env : Env} {w w' : World} {r : Except String Client}
    (h : getCTFdClient env w = (r, w')) : Plumb w w' := by
  unfold getCTFdClient at h
  split at h
  · cases h; exact callError_frame (c := .getNonceAndSession) ‹_› rfl
  · split at h
    cases h
    exact (callError_frame (c := .getNonceAndSession) ‹_› rfl).trans_plumb (getCTFdAccessToken_frame ‹_›)

theorem getCTFdChallenges_frame {env : Env} {w w' : World} {r : Except String (List Int)}
    (h : getCTFdChallenges env w = (r, w')) : Plumb w w' := by
  unfold getCTFdChallenges at h
  split at h
  · cases h; exact getCTFdClient_frame ‹_›
  · split at h <;>
      (cases h; exact (getCTFdClient_frame ‹_›).trans_plumb (callValue_frame (c := .getChallenges) ‹_› rfl))

theorem getUploadedCTFdChallenges_frame {env : Env} {w w' : World} {r : Except String GoMap}
    (h : getUploadedCTFdChallenges env w = (r, w')) : Plumb w w' := by
  unfold getUploadedCTFdChallenges at h
  split at h
  · cases h; exact getConfigMap_frame ‹_›
  · split at h <;> (cases h; exact getConfigMap_frame ‹_›)

theorem getUploadedCTFdChallenge_frame {env : Env} {name : String} {w w' : World}
    {r : String × GoError} (h : getUploadedCTFdChallenge env name w = (r, w')) :
    Plumb w w' := by
  unfold getUploadedCTFdChallenge at h
  split at h
  · cases h; exact getUploadedCTFdChallenges_frame ‹_›
  · split at h
    · cases h; exact getUploadedCTFdChallenges_frame ‹_›
    · split at h
      · cases h; exact getUploadedCTFdChallenges_frame ‹_›
      · split at h <;> (cases h; exact getUploadedCTFdChallenges_frame ‹_›)

theorem setUploadedCTFdChallenge_frame {env : Env} {name : String} {id : Int} {w w' : World}
    {r : GoError} (h : setUploadedCTFdChallenge env name id w = (r, w')) :
    Writes "ctfd-challenges" w w' := by
  unfold setUploadedCTFdChallenge at h
  split at h
  · cases h; exact (getUploadedCTFdChallenges_frame ‹_›).writes _
  · split at h <;>
      (cases h
       exact ((getUploadedCTFdChallenges_frame ‹_›).writes _).trans_writes (updateConfigMap_frame ‹_›))

/-- The world after `getGithubFileBytes`: the call is recorded, whatever it gives. -/
theorem getGithubFileBytes_world (env : Env) (path : String) (w : World) :
    (getGithubFileBytes env path w).2 = w.record (.githubFileBytes path) := by
  simp only [getGithubFileBytes, callValue]
  cases env.githubFileBytes w.trace path with
  | error e => rfl
  | ok o => cases o <;> rfl

theorem getGithubFileBytes_frame {env : Env} {path : String} {w w' : World}
    {r : Result String} (h : getGithubFileBytes env path w = (r, w')) : Plumb w w' := by
  have hw := getGithubFileBytes_world env path w
  rw [h] at hw
  cases hw
  exact Plumb.record_plumb w _ rfl

theorem fetchFiles_frame {env : Env} {dir : String} (names : List String) {w w' : World}
    {r : Option (List InputFile)} (h : fetchFiles env dir names w = (r, w')) :
    Plumb w w' := by
  induction names generalizing w w' r with
  | nil => unfold fetchFiles at h; cases h; exact Plumb.refl_plumb w
  | cons name rest ih =>
    unfold fetchFiles at h
    split at h
    · exact ih h
    · split at h
      · rename_i hc
        exact (getGithubFileBytes_frame hc).trans_plumb (ih h)
      · rename_i hc
        split at h
        · split at h
          · rename_i hr
            cases h
            exact (getGithubFileBytes_frame hc).trans_plumb (ih hr)
          · rename_i hr
            cases h
            exact (getGithubFileBytes_frame hc).trans_plumb (ih hr)
        · exact (getGithubFileBytes_frame hc).trans_plumb (ih h)
      · rename_i hc
        cases h
        exact getGithubFileBytes_frame hc

theorem uploadCTFdChallengeFile_frame {env : Env} {id : Int} {challenge : ChallengeConfig}
    {w w' : World} {r : Result Int}
    (h : uploadCTFdChallengeFile env id challenge w = (r, w')) : Plumb w w' := by
  unfold uploadCTFdChallengeFile at h
  split at h
  · rename_i hd
    cases h
    exact callValue_frame (c := .githubDirContents _) hd rfl
  · rename_i hd
    have p1 := callValue_frame (c := .githubDirContents _) hd rfl
    split at h
    · rename_i hf
      have p2 := p1.trans_plumb (fetchFiles_frame _ hf)
      split at h
      · split at h
        · rename_i hp
          cases h
          exact p2.trans_plumb (callError_frame (c := .postFiles _ _) hp rfl)
        · rename_i hp
          cases h
          exact p2.trans_plumb (callError_frame (c := .postFiles _ _) hp rfl)
      · cases h; exact p2
    · rename_i hf
      cases h
      exact p1.trans_plumb (fetchFiles_frame _ hf)

theorem uploadFlags_frame {env : Env} {id : Int} (flags : List FlagDef) {w w' : World}
    {r : GoError} (h : uploadFlags env id flags w = (r, w')) : Plumb w w' := by
  induction flags generalizing w w' r with
  | nil => unfold uploadFlags at h; cases h; exact Plumb.refl_plumb w
  | cons flag rest ih =>
    unfold uploadFlags at h
    split at h
    · rename_i hc
      cases h
      exact callError_frame (c := .postFlags _ _ _ _) hc rfl
    · rename_i hc
      exact (callError_frame (c := .postFlags _ _ _ _) hc rfl).trans_plumb (ih h)

theorem uploadTags_frame {e : Env} {i : Int} (tags : List String) (w : World) :
    Plumb w (uploadTags e i tags w) := by
  induction tags generalizing w with
  | nil => unfold uploadTags; exact Plumb.refl_plumb w
  | cons tag rest ih =>
    unfold uploadTags
    split
    · exact ih w
    · exact (Plumb.record_plumb w (.postTags i tag) rfl).trans_plumb (ih _)

theorem deleteAll_frame {k : String → Call} {answer : List Call → String → GoError}
    (hmk : ∀ s, (k s).isEntityCall = false) (ids : List Int) {w w' : World} {r : GoError}
    (h : deleteAll k answer ids w = (r, w')) : Plumb w w' := by
  induction ids generalizing w w' r with
  | nil => unfold deleteAll at h; cases h; exact Plumb.refl_plumb w
  | cons id rest ih =>
    unfold deleteAll at h
    split at h
    · rename_i hc
      cases h
      exact callError_frame hc (hmk _)
    · rename_i hc
      exact (callError_frame hc (hmk _)).trans_plumb (ih h)

theorem createChallenge_frame {env : Env} {challenge : ChallengeConfig}
    {params : PostChallengesParams} {w w' : World} {r : Except String Int}
    (h : createChallenge env challenge params w = (r, w')) :
    SameCluster w w' ∧ OneCall Call.isCreate w w' := by
  unfold createChallenge at h
  split at h
  · exact callValue_one (c := .postKubeCTFChallenge _) Call.isCreate h rfl
  · exact callValue_one (c := .postChallenges _) Call.isCreate h rfl

theorem patchChallengeCall_frame {env : Env} {challenge : ChallengeConfig} {sid : String}
    {id : Int} {params : PatchChallengeParams} {w w' : World} {r : Except String Int}
    (h : patchChallengeCall env challenge sid id params w = (r, w')) :
    SameCluster w w' ∧ OneCall Call.isPatch w w' := by
  unfold patchChallengeCall at h
  split at h
  · exact callValue_one (c := .patchKubeCTFChallenge _ _) Call.isPatch h rfl
  · exact callValue_one (c := .patchChallenge _ _) Call.isPatch h rfl

/-- The upload path writes at most the challenge bindings and makes one create call, or
fails before it. -/
theorem uploadCTFdChallenge_frame {env : Env} {challenge : ChallengeConfig} {client : Client}
    {w w' : World} {r : Result Int}
    (h : uploadCTFdChallenge env challenge client w = (r, w')) :
    SameClusterExcept "ctfd-challenges" w w' ∧
      (OneCall Call.isCreate w w' ∨ (Quiet w w' ∧ ∃ e, r = .error e)) := by
  unfold uploadCTFdChallenge at h
  split at h
  · rename_i hm
    cases h
    have p := getMappingMap_frame hm
    exact ⟨p.1.except _, Or.inr ⟨p.2, _, rfl⟩⟩
  · rename_i hm
    have p1 := getMappingMap_frame hm
    split at h
    · rename_i hc
      cases h
      have p2 := createChallenge_frame hc
      exact ⟨(p1.1.trans_same p2.1).except _, Or.inl (p1.2.then_one p2.2)⟩
    · rename_i hc
      have p2 := createChallenge_frame hc
      have s2 := p1.1.trans_same p2.1
      have o2 := p1.2.then_one p2.2
      split at h
      pick_goal 3
      · rename_i hf
        cases h
        have p3 := uploadCTFdChallengeFile_frame hf
        exact ⟨(s2.trans_same p3.1).except _, Or.inl (o2.then_quiet_one p3.2)⟩
      · rename_i hf
        cases h
        have p3 := uploadCTFdChallengeFile_frame hf
        exact ⟨(s2.trans_same p3.1).except _, Or.inl (o2.then_quiet_one p3.2)⟩
      · rename_i hf
        have p3 := uploadCTFdChallengeFile_frame hf
        split at h
        · rename_i hg
          cases h
          have p4 := uploadFlags_frame _ hg
          exact ⟨((s2.trans_same p3.1).trans_same p4.1).except _,
            Or.inl ((o2.then_quiet_one p3.2).then_quiet_one p4.2)⟩
        · rename_i hg
          have p4 := uploadFlags_frame _ hg
          split at h
          · rename_i hs
            cases h
            have p6 := setUploadedCTFdChallenge_frame hs
            exact ⟨((((s2.trans_same p3.1).trans_same p4.1).trans_same (uploadTags_frame _ _).1).except _).trans_except
                p6.1,
              Or.inl ((((o2.then_quiet_one p3.2).then_quiet_one p4.2).then_quiet_one
                (uploadTags_frame _ _).2).then_quiet_one p6.2)⟩
          · rename_i hs
            cases h
            have p6 := setUploadedCTFdChallenge_frame hs
            exact ⟨((((s2.trans_same p3.1).trans_same p4.1).trans_same (uploadTags_frame _ _).1).except _).trans_except
                p6.1,
              Or.inl ((((o2.then_quiet_one p3.2).then_quiet_one p4.2).then_quiet_one
                (uploadTags_frame _ _).2).then_quiet_one p6.2)⟩

/-- A successful upload made exactly one create call. -/
theorem uploadCTFdChallenge_ok_one {env : Env} {challenge : ChallengeConfig} {client : Client}
    {w w' : World} {id : Int}
    (h : uploadCTFdChallenge env challenge client w = (.ok id, w')) :
    OneCall Call.isCreate w w' := by
  rcases (uploadCTFdChallenge_frame h).2 with h1 | ⟨_, e, he⟩
  · exact h1
  · cases he

theorem replaceSubResources_frame {env : Env} {challenge : ChallengeConfig}
    {challengeId uploadedID : Int} {w w' : World} {r : Result Int}
    (h : replaceSubResources env challenge challengeId uploadedID w = (r, w')) :
    Writes "ctfd-challenges" w w' := by
  unfold replaceSubResources at h
  split at h
  · rename_i h1; cases h
    exact (callValue_frame (c := .getChallengeFiles _) h1 rfl).writes _
  · rename_i h1
    have q1 := callValue_frame (c := .getChallengeFiles _) h1 rfl
    split at h
    · rename_i h2; cases h
      exact (q1.trans_plumb (deleteAll_frame (k := Call.deleteFile) (fun _ => rfl) _ h2)).writes _
    · rename_i h2
      have q2 := q1.trans_plumb (deleteAll_frame (k := Call.deleteFile) (fun _ => rfl) _ h2)
      split at h
      pick_goal 3
      · rename_i h3; cases h
        exact (q2.trans_plumb (uploadCTFdChallengeFile_frame h3)).writes _
      · rename_i h3; cases h
        exact (q2.trans_plumb (uploadCTFdChallengeFile_frame h3)).writes _
      · rename_i h3
        have q3 := q2.trans_plumb (uploadCTFdChallengeFile_frame h3)
        split at h
        · rename_i h4; cases h
          exact (q3.trans_plumb (callValue_frame (c := .getChallengeFlags _) h4 rfl)).writes _
        · rename_i h4
          have q4 := q3.trans_plumb (callValue_frame (c := .getChallengeFlags _) h4 rfl)
          split at h
          · rename_i h5; cases h
            exact (q4.trans_plumb (deleteAll_frame (k := Call.deleteFlag) (fun _ => rfl) _ h5)).writes _
          · rename_i h5
            have q5 := q4.trans_plumb (deleteAll_frame (k := Call.deleteFlag) (fun _ => rfl) _ h5)
            split at h
            · rename_i h6; cases h
              exact (q5.trans_plumb (uploadFlags_frame _ h6)).writes _
            · rename_i h6
              have q6 := q5.trans_plumb (uploadFlags_frame _ h6)
              split at h
              · rename_i h7; cases h
                exact (q6.trans_plumb (callValue_frame (c := .getTags _) h7 rfl)).writes _
              · rename_i h7
                have q7 := q6.trans_plumb (callValue_frame (c := .getTags _) h7 rfl)
                split at h
                · rename_i h8; cases h
                  exact (q7.trans_plumb (deleteAll_frame (k := Call.deleteTag) (fun _ => rfl) _ h8)).writes _
                · rename_i h8
                  have q8 := q7.trans_plumb (deleteAll_frame (k := Call.deleteTag) (fun _ => rfl) _ h8)
                  split at h
                  · rename_i h9; cases h
                    exact ((q8.trans_plumb (uploadTags_frame _ _)).writes _).trans_writes
                      (setUploadedCTFdChallenge_frame h9)
                  · rename_i h9; cases h
                    exact ((q8.trans_plumb (uploadTags_frame _ _)).writes _).trans_writes
                      (setUploadedCTFdChallenge_frame h9)

theorem uploadCTFdChallenge_atMostOne {env : Env} {challenge : ChallengeConfig}
    {client : Client} {w w' : World} {r : Result Int}
    (h : uploadCTFdChallenge env challenge client w = (r, w')) :
    SameClusterExcept "ctfd-challenges" w w' ∧ AtMostOne w w' := by
  have p := uploadCTFdChallenge_frame h
  refine ⟨p.1, ?_⟩
  rcases p.2 with h1 | ⟨h1, _⟩
  · exact AtMostOne.of_one h1
  · exact AtMostOne.of_quiet h1

theorem updateCTFdChallenge_frame {env : Env} {challenge : ChallengeConfig} {client : Client}
    {w w' : World} {r : Result Int}
    (h : updateCTFdChallenge env challenge client w = (r, w')) :
    SameClusterExcept "ctfd-challenges" w w' ∧ AtMostOne w w' := by
  unfold updateCTFdChallenge at h
  split at h
  · rename_i h1; cases h
    have p := getUploadedCTFdChallenge_frame h1
    exact ⟨p.1.except _, Or.inl p.2⟩
  · rename_i h1
    have p1 := getUploadedCTFdChallenge_frame h1
    split at h
    · cases h; exact ⟨p1.1.except _, Or.inl p1.2⟩
    · split at h
      · rename_i h2
        have p2 := p1.trans_plumb (getCTFdChallenges_frame h2)
        have u := uploadCTFdChallenge_atMostOne h
        exact ⟨(p2.1.except _).trans_except u.1, p2.2.then_atMostOne u.2⟩
      · rename_i h2
        have p2 := p1.trans_plumb (getCTFdChallenges_frame h2)
        split at h
        · have u := uploadCTFdChallenge_atMostOne h
          exact ⟨(p2.1.except _).trans_except u.1, p2.2.then_atMostOne u.2⟩
        · split at h
          · have u := uploadCTFdChallenge_atMostOne h
            exact ⟨(p2.1.except _).trans_except u.1, p2.2.then_atMostOne u.2⟩
          · split at h
            · rename_i h3; cases h
              have p3 := p2.trans_plumb (getMappingMap_frame h3)
              exact ⟨p3.1.except _, Or.inl p3.2⟩
            · rename_i h3
              have p3 := p2.trans_plumb (getMappingMap_frame h3)
              split at h
              · rename_i h4; cases h
                have p4 := patchChallengeCall_frame h4
                exact ⟨(p3.1.trans_same p4.1).except _, AtMostOne.of_one (p3.2.then_one p4.2)⟩
              · rename_i h4
                have p4 := patchChallengeCall_frame h4
                have p5 := replaceSubResources_frame h
                exact ⟨((p3.1.trans_same p4.1).except _).trans_except p5.1,
                  AtMostOne.of_one ((p3.2.then_one p4.2).then_quiet_one p5.2)⟩

theorem updateOrCreateCTFdChallenge_frame {env : Env} {challenge : ChallengeConfig}
    {w w' : World} {r : Result Int}
    (h : updateOrCreateCTFdChallenge env challenge w = (r, w')) :
    SameClusterExcept "ctfd-challenges" w w' ∧ AtMostOne w w' := by
  unfold updateOrCreateCTFdChallenge at h
  split at h
  · rename_i h1; cases h
    have p := getCTFdClient_frame h1
    exact ⟨p.1.except _, Or.inl p.2⟩
  · rename_i h1
    have p1 := getCTFdClient_frame h1
    split at h
    rename_i h2
    have p2 := p1.trans_plumb (getUploadedCTFdChallenge_frame h2)
    split at h
    · have u := uploadCTFdChallenge_atMostOne h
      exact ⟨(p2.1.except _).trans_except u.1, p2.2.then_atMostOne u.2⟩
    · have u := updateCTFdChallenge_frame h
      exact ⟨(p2.1.except _).trans_except u.1, p2.2.then_atMostOne u.2⟩

theorem disableCTFdChallenge_frame {env : Env} {challenge : ChallengeConfig}
    {w w' : World} {r : GoError} (h : disableCTFdChallenge env challenge w = (r, w')) :
    SameCluster w w' ∧ AtMostOne w w' := by
  unfold disableCTFdChallenge at h
  split at h
  · rename_i h1; cases h
    have p := getCTFdClient_frame h1
    exact ⟨p.1, Or.inl p.2⟩
  · rename_i h1
    have p1 := getCTFdClient_frame h1
    split at h
    rename_i h2
    have p2 := p1.trans_plumb (getUploadedCTFdChallenge_frame h2)
    split at h
    · cases h; exact ⟨p2.1, Or.inl p2.2⟩
    · split at h
      · cases h; exact ⟨p2.1, Or.inl p2.2⟩
      · have p3 := callError_one (c := .patchChallengeState _ _) Call.isPatch h rfl
        exact ⟨p2.1.trans_same p3.1, AtMostOne.of_one (p2.2.then_one p3.2)⟩

/-! ## The frame of the page functions -/

theorem getUploadedCTFdPages_frame {env : Env} {w w' : World} {r : Except String GoMap}
    (h : getUploadedCTFdPages env w = (r, w')) : Plumb w w' := by
  unfold getUploadedCTFdPages at h
  split at h
  · cases h; exact getConfigMap_frame ‹_›
  · split at h <;> (cases h; exact getConfigMap_frame ‹_›)

theorem getUploadedCTFdPage_frame {env : Env} {slug : String} {w w' : World}
    {r : String × GoError} (h : getUploadedCTFdPage env slug w = (r, w')) : Plumb w w' := by
  unfold getUploadedCTFdPage at h
  split at h
  · cases h; exact getUploadedCTFdPages_frame ‹_›
  · split at h
    · cases h; exact getUploadedCTFdPages_frame ‹_›
    · split at h
      · cases h; exact getUploadedCTFdPages_frame ‹_›
      · split at h <;> (cases h; exact getUploadedCTFdPages_frame ‹_›)

theorem setUploadedCTFdPage_frame {env : Env} {slug : String} {id : Int} {w w' : World}
    {r : GoError} (h : setUploadedCTFdPage env slug id w = (r, w')) :
    Writes "ctfd-pages" w w' := by
  unfold setUploadedCTFdPage at h
  split at h
  · cases h; exact (getUploadedCTFdPages_frame ‹_›).writes _
  · split at h <;>
      (cases h
       exact ((getUploadedCTFdPages_frame ‹_›).writes _).trans_writes (updateConfigMap_frame ‹_›))

theorem deleteUploadedCTFdPage_frame {env : Env} {slug : String} {w w' : World}
    {r : GoError} (h : deleteUploadedCTFdPage env slug w = (r, w')) :
    Writes "ctfd-pages" w w' := by
  unfold deleteUploadedCTFdPage at h
  split at h
  · cases h; exact (getUploadedCTFdPages_frame ‹_›).writes _
  · split at h <;>
      (cases h
       exact ((getUploadedCTFdPages_frame ‹_›).writes _).trans_writes (updateConfigMap_frame ‹_›))

theorem uploadCTFdPage_frame {env : Env} {page : Page} {client : Client} {w w' : World}
    {r : Except String Int} (h : uploadCTFdPage env page client w = (r, w')) :
    SameClusterExcept "ctfd-pages" w w' ∧ AtMostOne w w' := by
  unfold uploadCTFdPage at h
  split at h
  · rename_i h1; cases h
    have p := callValue_one (c := .postPages _) Call.isUpsert h1 rfl
    exact ⟨p.1.except _, AtMostOne.of_one p.2⟩
  · rename_i h1
    have p := callValue_one (c := .postPages _) Call.isUpsert h1 rfl
    split at h
    · rename_i h2; cases h
      have q := setUploadedCTFdPage_frame h2
      exact ⟨(p.1.except _).trans_except q.1, AtMostOne.of_one (p.2.then_quiet_one q.2)⟩
    · rename_i h2; cases h
      have q := setUploadedCTFdPage_frame h2
      exact ⟨(p.1.except _).trans_except q.1, AtMostOne.of_one (p.2.then_quiet_one q.2)⟩

theorem updateCTFdPage_frame {env : Env} {page : Page} {client : Client} {w w' : World}
    {r : Except String Int} (h : updateCTFdPage env page client w = (r, w')) :
    SameClusterExcept "ctfd-pages" w w' ∧ AtMostOne w w' := by
  unfold updateCTFdPage at h
  split at h
  rename_i h1
  have p1 := getUploadedCTFdPage_frame h1
  split at h
  · cases h; exact ⟨p1.1.except _, Or.inl p1.2⟩
  · split at h
    · have u := uploadCTFdPage_frame h
      exact ⟨(p1.1.except _).trans_except u.1, p1.2.then_atMostOne u.2⟩
    · split at h
      · rename_i h2; cases h
        have p := callValue_one (c := .patchPage _ _) Call.isUpsert h2 rfl
        exact ⟨(p1.1.trans_same p.1).except _, AtMostOne.of_one (p1.2.then_one p.2)⟩
      · rename_i h2; cases h
        have p := callValue_one (c := .patchPage _ _) Call.isUpsert h2 rfl
        exact ⟨(p1.1.trans_same p.1).except _, AtMostOne.of_one (p1.2.then_one p.2)⟩

theorem uploadOrUpdateCTFdPage_frame {env : Env} {page : Page} {w w' : World}
    {r : Except String Int} (h : uploadOrUpdateCTFdPage env page w = (r, w')) :
    SameClusterExcept "ctfd-pages" w w' ∧ AtMostOne w w' := by
  unfold uploadOrUpdateCTFdPage at h
  split at h
  · rename_i h1; cases h
    have p := getCTFdClient_frame h1
    exact ⟨p.1.except _, Or.inl p.2⟩
  · rename_i h1
    have p1 := getCTFdClient_frame h1
    split at h
    · rename_i h2; cases h
      have u := updateCTFdPage_frame h2
      exact ⟨(p1.1.except _).trans_except u.1, p1.2.then_atMostOne u.2⟩
    · rename_i h2; cases h
      have u := updateCTFdPage_frame h2
      exact ⟨(p1.1.except _).trans_except u.1, p1.2.then_atMostOne u.2⟩

theorem deleteCTFdPage_frame {env : Env} {slug : String} {w w' : World} {r : GoError}
    (h : deleteCTFdPage env slug w = (r, w')) :
    SameClusterExcept "ctfd-pages" w w' ∧ AtMostOne w w' := by
  unfold deleteCTFdPage at h
  split at h
  · rename_i h1; cases h
    have p := getCTFdClient_frame h1
    exact ⟨p.1.except _, Or.inl p.2⟩
  · rename_i h1
    have p1 := getCTFdClient_frame h1
    split at h
    · rename_i h2; cases h
      have p2 := p1.trans_plumb (getUploadedCTFdPage_frame h2)
      exact ⟨p2.1.except _, Or.inl p2.2⟩
    · rename_i h2
      have p2 := p1.trans_plumb (getUploadedCTFdPage_frame h2)
      split at h
      · cases h; exact ⟨p2.1.except _, Or.inl p2.2⟩
      · split at h
        · rename_i h3; cases h
          have p3 := callError_one (c := .deletePage _) Call.isEntityCall h3 rfl
          exact ⟨(p2.1.trans_same p3.1).except _, AtMostOne.of_one (p2.2.then_one p3.2)⟩
        · rename_i h3
          have p3 := callError_one (c := .deletePage _) Call.isEntityCall h3 rfl
          have p4 := deleteUploadedCTFdPage_frame h
          exact ⟨((p2.1.trans_same p3.1).except _).trans_except p4.1,
            AtMostOne.of_one ((p2.2.then_one p3.2).then_quiet_one p4.2)⟩

/-! ## Writing a record -/

/-- A successful `Get` returns the stored config map, under the name asked for. -/
theorem clusterGet_ok_inv {env : Env} {name : String} {w w' : World} {cm : ConfigMap}
    (h : clusterGet env name w = (.ok cm, w')) :
    ∃ c0, w.cluster name = some c0 ∧ cm = { c0 with Name := name } := by
  unfold clusterGet at h
  split at h
  · cases h
  · split at h
    · cases h
    · rename_i c0 hc
      cases h
      exact ⟨c0, hc, rfl⟩

/-- A successful `Update` stores the config map under its name. -/
theorem clusterUpdate_ok_inv {env : Env} {cm : ConfigMap} {w w' : World}
    (h : clusterUpdate env cm w = (none, w')) : w'.cluster cm.Name = some cm := by
  unfold clusterUpdate at h
  split at h
  · cases h
  · split at h
    · cases h
    · cases h
      simp

/-- A nil map and an empty map read alike. -/
theorem lookupOk_orEmpty (d : Option GoMap) (k : String) :
    lookupOk (some (match d with
      | none => GoMap.empty
      | some es => es)) k = lookupOk d k := by
  cases d <;> rfl

/-- A successful `updateConfigMap` with the data of the config map itself, one key
written: the key reads as written, every other key as before. -/
theorem updateConfigMap_set_ok {env : Env} {record k v : String} {w w' : World}
    {c0 : ConfigMap} (hc : w.cluster record = some c0)
    (h : updateConfigMap env record
      ((match c0.Data with
        | none => GoMap.empty
        | some es => es).set k v) w = (none, w')) (k' : String) :
    storedValue w' record k' = if k' = k then some v else storedValue w record k' := by
  unfold updateConfigMap at h
  split at h
  · cases h
  · rename_i cm w1 hg
    obtain ⟨c1, hc1, hcm⟩ := clusterGet_ok_inv hg
    rw [hc] at hc1
    cases hc1
    have hn : cm.Name = record := by rw [hcm]
    have hu := clusterUpdate_ok_inv h
    simp only [hn] at hu
    simp only [storedValue, hu, hc]
    rw [hcm]
    simp only []
    rw [← lookupOk_orEmpty c0.Data k']
    exact lookupOk_mergeInto_set _ k v k'

/-- A successful `storeConfigmapHash`: the name reads as the hash written, every other
name as before. -/
theorem storeConfigmapHash_ok_inv {env : Env} {name hash : String} {w w' : World}
    (h : storeConfigmapHash env name hash w = (none, w')) (k' : String) :
    storedFingerprint w' k' = if k' = name then some hash else storedFingerprint w k' := by
  unfold storeConfigmapHash at h
  split at h
  · cases h
  · rename_i d w1 hg
    unfold getConfigmapHashSet at hg
    split at hg
    · cases hg
    · rename_i cm w1' hgg
      cases hg
      obtain ⟨c0, hc0, hcm⟩ := clusterGet_ok_inv hgg
      have hs : w1.cluster = w.cluster := (clusterGet_frame hgg).1.1
      have hc1 : w1.cluster "challenge-configmap-hashset" = some c0 := by rw [hs, hc0]
      have hd : cm.Data = c0.Data := by rw [hcm]
      rw [hd] at h
      have := updateConfigMap_set_ok hc1 h k'
      simp only [storedFingerprint]
      rw [this]
      simp only [storedValue, hs]

/-- A successful `setUploadedCTFdChallenge`: the slug reads as the decimal id, every
other slug as before. -/
theorem setUploadedCTFdChallenge_ok_inv {env : Env} {slug : String} {id : Int} {w w' : World}
    (h : setUploadedCTFdChallenge env slug id w = (none, w')) (k' : String) :
    challengeBinding w' k' = if k' = slug then some (itoa id) else challengeBinding w k' := by
  unfold setUploadedCTFdChallenge at h
  split at h
  · cases h
  · rename_i d w1 hg
    split at h
    · cases h
    · rename_i w2 hu
      cases h
      unfold getUploadedCTFdChallenges at hg
      split at hg
      · cases hg
      · rename_i cm w1' hgg
        obtain ⟨c0, hc0, hcm⟩ := clusterGet_ok_inv hgg
        have hd : cm.Data = c0.Data := by rw [hcm]
        have hdd : d = (match c0.Data with
            | none => GoMap.empty
            | some es => es) ∧ w1 = w1' := by
          rw [← hd]
          split at hg <;> (cases hg; simp_all)
        obtain ⟨hd1, hw⟩ := hdd
        subst hw
        have hs : w1.cluster = w.cluster := (clusterGet_frame hgg).1.1
        have hc1 : w1.cluster "ctfd-challenges" = some c0 := by rw [hs, hc0]
        rw [hd1] at hu
        have := updateConfigMap_set_ok hc1 hu k'
        simp only [challengeBinding]
        rw [this]
        simp only [storedValue, hs]

/-! ## The add and modify branch -/

/-- The hash of a config map is always computed. -/
theorem getHashForConfigMap_ok (env : Env) (cm : ConfigMap) :
    ∃ h, getHashForConfigMap env cm = .ok h := by
  simp only [getHashForConfigMap, jsonMarshal]
  cases cm.Data <;> exact ⟨_, rfl⟩

/-- When `hasBeenDeployed` is true. -/
theorem hasBeenDeployed_true_iff (env : Env) (cm : ConfigMap) (w : World) :
    (hasBeenDeployed env cm w).1 = true ↔
      fingerprintReadable env w = true ∧
      getHashForConfigMap env cm = .ok ((storedFingerprint w cm.Name).getD "") := by
  obtain ⟨hsh, hh⟩ := getHashForConfigMap_ok env cm
  cases hr : fingerprintReadable env w with
  | true =>
    have e := getConfigmapStoredHash_of_readable env cm.Name w hr
    simp [hasBeenDeployed, hh, e]
  | false =>
    obtain ⟨err, e⟩ := getConfigmapStoredHash_of_not_readable env cm.Name w hr
    simp [hasBeenDeployed, hh, e]

/-- The check `hasBeenDeployed` makes one call: it reads the fingerprint record. -/
theorem hasBeenDeployed_world (env : Env) (cm : ConfigMap) (w : World) :
    (hasBeenDeployed env cm w).2 = w.record (.clusterGet "challenge-configmap-hashset") := by
  obtain ⟨hsh, hh⟩ := getHashForConfigMap_ok env cm
  cases hr : fingerprintReadable env w with
  | true =>
    have e := getConfigmapStoredHash_of_readable env cm.Name w hr
    simp [hasBeenDeployed, hh, e]
  | false =>
    obtain ⟨err, e⟩ := getConfigmapStoredHash_of_not_readable env cm.Name w hr
    simp [hasBeenDeployed, hh, e]

theorem storeNewHash_frame {env : Env} {cm : ConfigMap} {id : Int} {w w' : World}
    {r : Applied} (h : storeNewHash env cm id w = (r, w')) :
    Writes "challenge-configmap-hashset" w w' ∧
      ((∃ e, r = .hashFailed e) ∨ (∃ e, r = .storeFailed e) ∨ r = .stored id) := by
  unfold storeNewHash at h
  split at h
  · cases h; exact ⟨Writes.refl_writes _ w, Or.inl ⟨_, rfl⟩⟩
  · split at h
    · rename_i hs; cases h
      exact ⟨storeConfigmapHash_frame hs, Or.inr (Or.inl ⟨_, rfl⟩)⟩
    · rename_i hs; cases h
      exact ⟨storeConfigmapHash_frame hs, Or.inr (Or.inr rfl)⟩

/-- One add or modify event makes at most one remote write. -/
theorem applyConfigMap_atMostOne {env : Env} {cm : ConfigMap} {w w' : World} {r : Applied}
    (h : applyConfigMap env cm w = (r, w')) : AtMostOne w w' := by
  unfold applyConfigMap at h
  split at h
  · rename_i h1; cases h
    exact Or.inl (hasBeenDeployed_frame h1).2
  · rename_i h1
    have p1 := (hasBeenDeployed_frame h1).2
    split at h
    · split at h
      · cases h; exact Or.inl p1
      · split at h
        pick_goal 3
        · rename_i h2; cases h
          exact p1.then_atMostOne (updateOrCreateCTFdChallenge_frame h2).2
        · rename_i h2; cases h
          exact p1.then_atMostOne (updateOrCreateCTFdChallenge_frame h2).2
        · rename_i h2
          exact (p1.then_atMostOne (updateOrCreateCTFdChallenge_frame h2).2).then_quiet_atMost
            (storeNewHash_frame h).1.2
    · split at h
      · split at h
        · cases h; exact Or.inl p1
        · split at h
          · rename_i h2; cases h
            exact p1.then_atMostOne (uploadOrUpdateCTFdPage_frame h2).2
          · rename_i h2
            exact (p1.then_atMostOne (uploadOrUpdateCTFdPage_frame h2).2).then_quiet_atMost
              (storeNewHash_frame h).1.2
      · cases h; exact Or.inl p1

/-- An add or modify event that ends with a failed extraction or a failed upsert leaves
the fingerprint record as it was. -/
theorem applyConfigMap_failed_cluster {env : Env} {cm : ConfigMap} {w w' : World}
    {r : Applied} (h : applyConfigMap env cm w = (r, w'))
    (hr : (∃ e, r = .extractFailed e) ∨ ∃ e, r = .upsertFailed e) :
    w'.cluster "challenge-configmap-hashset" = w.cluster "challenge-configmap-hashset" := by
  unfold applyConfigMap at h
  split at h
  · cases h; rcases hr with ⟨e, he⟩ | ⟨e, he⟩ <;> cases he
  · rename_i h1
    have p1 := (hasBeenDeployed_frame h1).1.1
    split at h
    · split at h
      · cases h; rw [p1]
      · split at h
        pick_goal 3
        · cases h; rcases hr with ⟨e, he⟩ | ⟨e, he⟩ <;> cases he
        · rename_i h2; cases h
          rw [(updateOrCreateCTFdChallenge_frame h2).1.1 _ (by decide), p1]
        · rcases (storeNewHash_frame h).2 with ⟨e, he⟩ | ⟨e, he⟩ | he <;>
            (subst he; rcases hr with ⟨e', he'⟩ | ⟨e', he'⟩ <;> cases he')
    · split at h
      · split at h
        · cases h; rw [p1]
        · split at h
          · rename_i h2; cases h
            rw [(uploadOrUpdateCTFdPage_frame h2).1.1 _ (by decide), p1]
          · rcases (storeNewHash_frame h).2 with ⟨e, he⟩ | ⟨e, he⟩ | he <;>
              (subst he; rcases hr with ⟨e', he'⟩ | ⟨e', he'⟩ <;> cases he')
      · cases h; rcases hr with ⟨e, he⟩ | ⟨e, he⟩ <;> cases he

/-- An add or modify event of a config map is handled by `applyConfigMap`; the loop goes
on unless the upsert panicked. -/
theorem handleEvent_apply (env : Env) (t : EventType) (ht : t = .Added ∨ t = .Modified)
    (cm : ConfigMap) (w : World) (hp : (applyConfigMap env cm w).1 ≠ .panicked) :
    handleEvent env ⟨t, .configMap cm⟩ w = .done (applyConfigMap env cm w).2 := by
  have key : (match applyConfigMap env cm w with
      | (.panicked, w1) => Outcome.crashed w1
      | (_, w1) => Outcome.done w1) = .done (applyConfigMap env cm w).2 := by
    split
    · rename_i h; rw [h] at hp; exact absurd rfl hp
    · rename_i h; rw [h]
  rcases ht with h | h <;> (subst h; exact key)

/-- The world after an add or modify event of a config map is the world after
`applyConfigMap`, also when the upsert panicked. -/
theorem handleEvent_apply_world (env : Env) (t : EventType)
    (ht : t = .Added ∨ t = .Modified) (cm : ConfigMap) (w : World) :
    (handleEvent env ⟨t, .configMap cm⟩ w).world = (applyConfigMap env cm w).2 := by
  have key : (match applyConfigMap env cm w with
      | (.panicked, w1) => Outcome.crashed w1
      | (_, w1) => Outcome.done w1).world = (applyConfigMap env cm w).2 := by
    split <;> (rename_i h; rw [h]; rfl)
  rcases ht with h | h <;> (subst h; exact key)

/-- C9: when an add or modify event for an object that is not already deployed (its
stored fingerprint is not the hash of its payload) ends with a failed extraction or a
failed upsert, the fingerprint record is as before the event, the loop goes on to the
next event, `hasBeenDeployed` is still false for the object, and a further event for
it is not skipped as unchanged. -/
theorem failed_event_is_retried (env : Env) (cm : ConfigMap) (w : World) (t : EventType)
    (ht : t = .Added ∨ t = .Modified)
    (hnew : getHashForConfigMap env cm ≠ .ok ((storedFingerprint w cm.Name).getD ""))
    (hfail : (∃ e, (applyConfigMap env cm w).1 = .extractFailed e) ∨
      ∃ e, (applyConfigMap env cm w).1 = .upsertFailed e) :
    ∃ w', handleEvent env ⟨t, .configMap cm⟩ w = .done w' ∧
      w'.cluster "challenge-configmap-hashset" = w.cluster "challenge-configmap-hashset" ∧
      (∀ name, storedFingerprint w' name = storedFingerprint w name) ∧
      (∀ rest, processEvent env (⟨t, .configMap cm⟩ :: rest) w = processEvent env rest w') ∧
      (hasBeenDeployed env cm w').1 = false ∧
      (applyConfigMap env cm w').1 ≠ .unchanged := by
  have hc : (applyConfigMap env cm w).2.cluster "challenge-configmap-hashset" =
      w.cluster "challenge-configmap-hashset" :=
    applyConfigMap_failed_cluster (r := (applyConfigMap env cm w).1) rfl hfail
  have hs : ∀ name, storedFingerprint (applyConfigMap env cm w).2 name =
      storedFingerprint w name := by
    intro name
    simp only [storedFingerprint, storedValue, hc]
  have hd : (hasBeenDeployed env cm (applyConfigMap env cm w).2).1 = false := by
    cases hb : (hasBeenDeployed env cm (applyConfigMap env cm w).2).1 with
    | false => rfl
    | true =>
      have := ((hasBeenDeployed_true_iff env cm _).1 hb).2
      rw [hs] at this
      exact absurd this hnew
  have hp : (applyConfigMap env cm w).1 ≠ .panicked := by
    rcases hfail with ⟨e, he⟩ | ⟨e, he⟩ <;> (rw [he]; intro x; cases x)
  refine ⟨(applyConfigMap env cm w).2, handleEvent_apply env t ht cm w hp, hc, hs, ?_, hd, ?_⟩
  · intro rest
    simp only [processEvent, handleEvent_apply env t ht cm w hp]
  · intro hu
    have : (hasBeenDeployed env cm (applyConfigMap env cm w).2).1 = true := by
      generalize hw : (applyConfigMap env cm w).2 = w1 at hu
      unfold applyConfigMap at hu
      split at hu
      · rename_i h1; rw [h1]
      · split at hu
        · split at hu
          · cases hu
          · split at hu
            pick_goal 3
            · cases hu
            · cases hu
            · rename_i h3
              rcases (storeNewHash_frame (r := (storeNewHash _ _ _ _).1) rfl).2 with
                ⟨e, he⟩ | ⟨e, he⟩ | he <;> (rw [he] at hu; cases hu)
        · split at hu
          · split at hu
            · cases hu
            · split at hu
              · cases hu
              · rcases (storeNewHash_frame (r := (storeNewHash _ _ _ _).1) rfl).2 with
                  ⟨e, he⟩ | ⟨e, he⟩ | he <;> (rw [he] at hu; cases hu)
          · cases hu
    rw [hd] at this
    cases this

/-- C9 on the challenge object without `path`, added to a fresh world: extraction
fails, nothing is stored, and the object still counts as not deployed. -/
theorem failed_event_is_retried_witness :
    getHashForConfigMap demoEnv chalWithoutPath ≠
      .ok ((storedFingerprint demoWorld chalWithoutPath.Name).getD "") ∧
    (applyConfigMap demoEnv chalWithoutPath demoWorld).1 =
      .extractFailed "Configmap does not contain the required element: path" ∧
    ∃ w', handleEvent demoEnv ⟨.Added, .configMap chalWithoutPath⟩ demoWorld = .done w' ∧
      (hasBeenDeployed demoEnv chalWithoutPath w').1 = false :=
  ⟨by decide, by decide,
    let ⟨w', h1, _, _, _, h5, _⟩ :=
      failed_event_is_retried demoEnv chalWithoutPath demoWorld .Added (Or.inl rfl)
        (by decide)
        (Or.inl ⟨"Configmap does not contain the required element: path", by decide⟩)
    ⟨w', h1, h5⟩⟩

/-- The calls of two runs in a row. -/
theorem callsSince_append {a b c : World} {x y : List Call} (h1 : b.trace = a.trace ++ x)
    (h2 : c.trace = b.trace ++ y) : callsSince a c = callsSince a b ++ callsSince b c := by
  rw [callsSince_eq h1, callsSince_eq h2]
  have : c.trace = a.trace ++ (x ++ y) := by rw [h2, h1, List.append_assoc]
  rw [callsSince_eq this]

/-- The trace of a run with at most one remote write extends the trace before. -/
theorem AtMostOne.extends {a b : World} (h : AtMostOne a b) :
    ∃ x, b.trace = a.trace ++ x := by
  rcases h with ⟨x, hx, _⟩ | ⟨pre, c, post, hx, _⟩
  · exact ⟨x, hx⟩
  · exact ⟨_, hx⟩

/-- An add or modify event that ends with the hash stored has stored the hash of the
payload under the name of the object. -/
theorem applyConfigMap_stored {env : Env} {cm : ConfigMap} {w w' : World} {id : Int}
    (h : applyConfigMap env cm w = (.stored id, w')) :
    getHashForConfigMap env cm = .ok ((storedFingerprint w' cm.Name).getD "") := by
  have key : ∀ (i : Int) (v : World), storeNewHash env cm i v = (.stored id, w') →
      getHashForConfigMap env cm = .ok ((storedFingerprint w' cm.Name).getD "") := by
    intro i v hs
    unfold storeNewHash at hs
    split at hs
    · cases hs
    · rename_i newHash hh
      split at hs
      · cases hs
      · rename_i w1 hst
        cases hs
        rw [storeConfigmapHash_ok_inv hst cm.Name, hh]
        simp
  unfold applyConfigMap at h
  split at h
  · cases h
  · split at h
    · split at h
      · cases h
      · split at h
        · cases h
        · exact key _ _ h
        · cases h
    · split at h
      · split at h
        · cases h
        · split at h
          · cases h
          · exact key _ _ h
      · cases h

set_option maxRecDepth 100000 in
/-- C4, as stated, fails: the first event deploys `chal-foo` and stores its hash, the
read of the fingerprint record for the second event times out, so the second event
is treated as a change and issues a second upsert call. -/
theorem second_event_upserts_again_when_read_fails :
    (applyConfigMap flakyEnv chalFoo demoWorld).1 = .stored 7 ∧
    ((processEvent flakyEnv
        [⟨.Added, .configMap chalFoo⟩, ⟨.Modified, .configMap chalFoo⟩] demoWorld).world.trace.countP
      Call.isUpsert) = 2 := by
  decide

/-- C4, amended: when two consecutive add or modify events carry the same object, the
first one ends with its upsert done and the hash stored, and the fingerprint record
can be read when the second one is handled, then the second event is a no-op: it is
skipped as unchanged, its only call is the read of the fingerprint record, the
config maps (fingerprints and bindings among them) are as after the first event, and
the two events together issued at most one upsert call. -/
theorem second_event_is_noop (env : Env) (cm : ConfigMap) (w0 : World) (id : Int)
    (t1 t2 : EventType) (ht1 : t1 = .Added ∨ t1 = .Modified)
    (ht2 : t2 = .Added ∨ t2 = .Modified)
    (hfirst : (applyConfigMap env cm w0).1 = .stored id)
    (hread : fingerprintReadable env (handleEvent env ⟨t1, .configMap cm⟩ w0).world = true) :
    ∃ w1 w2, handleEvent env ⟨t1, .configMap cm⟩ w0 = .done w1 ∧
      handleEvent env ⟨t2, .configMap cm⟩ w1 = .done w2 ∧
      (applyConfigMap env cm w1).1 = .unchanged ∧
      callsSince w1 w2 = [.clusterGet "challenge-configmap-hashset"] ∧
      w2.cluster = w1.cluster ∧
      (callsSince w0 w2).countP Call.isUpsert ≤ 1 := by
  rw [handleEvent_apply_world env t1 ht1] at hread
  have hst : getHashForConfigMap env cm =
      .ok ((storedFingerprint (applyConfigMap env cm w0).2 cm.Name).getD "") :=
    applyConfigMap_stored (w := w0) (by rw [← hfirst])
  have hdep : (hasBeenDeployed env cm (applyConfigMap env cm w0).2).1 = true :=
    (hasBeenDeployed_true_iff env cm _).2 ⟨hread, hst⟩
  have hw := hasBeenDeployed_world env cm (applyConfigMap env cm w0).2
  have happ : applyConfigMap env cm (applyConfigMap env cm w0).2 =
      (.unchanged,
        (applyConfigMap env cm w0).2.record (.clusterGet "challenge-configmap-hashset")) := by
    generalize (applyConfigMap env cm w0).2 = w1 at hdep hw ⊢
    unfold applyConfigMap
    split
    · rename_i h1; rw [h1] at hw; simp only at hw; rw [hw]
    · rename_i h1; rw [h1] at hdep; cases hdep
  refine ⟨(applyConfigMap env cm w0).2, _,
    handleEvent_apply env t1 ht1 cm w0 (by rw [hfirst]; intro x; cases x),
    handleEvent_apply env t2 ht2 cm _ (by rw [happ]; intro x; cases x), by rw [happ], ?_, ?_, ?_⟩
  · rw [happ]
    exact callsSince_eq rfl
  · rw [happ]; rfl
  · have h1 : AtMostOne w0 (applyConfigMap env cm w0).2 :=
      applyConfigMap_atMostOne (r := (applyConfigMap env cm w0).1) rfl
    obtain ⟨x, hx⟩ := h1.extends
    have h2 : (applyConfigMap env cm (applyConfigMap env cm w0).2).2.trace =
        (applyConfigMap env cm w0).2.trace ++ [.clusterGet "challenge-configmap-hashset"] := by
      rw [happ]; rfl
    rw [callsSince_append hx h2, List.countP_append, callsSince_eq h2]
    have := h1.countP_le_one_atMost Call.isUpsert (by intro c hc; cases c <;> simp_all [Call.isUpsert, Call.isEntityCall])
    simpa [Call.isUpsert] using this

set_option maxRecDepth 100000 in
/-- C4, amended, on `chal-foo` added and then modified with the same payload. -/
theorem second_event_is_noop_witness :
    (applyConfigMap demoEnv chalFoo demoWorld).1 = .stored 7 ∧
    fingerprintReadable demoEnv
      (handleEvent demoEnv ⟨.Added, .configMap chalFoo⟩ demoWorld).world = true ∧
    ∃ w1 w2, handleEvent demoEnv ⟨.Added, .configMap chalFoo⟩ demoWorld = .done w1 ∧
      handleEvent demoEnv ⟨.Modified, .configMap chalFoo⟩ w1 = .done w2 ∧
      (callsSince demoWorld w2).countP Call.isUpsert ≤ 1 :=
  ⟨by decide, by decide,
    let ⟨w1, w2, h1, h2, _, _, _, h6⟩ :=
      second_event_is_noop demoEnv chalFoo demoWorld 7 .Added .Modified (Or.inl rfl)
        (Or.inr rfl) (by decide) (by decide)
    ⟨w1, w2, h1, h2, h6⟩⟩

/-! ## The binding after an upload -/

/-- A successful upload recorded the id of the challenge that its create call returned:
the slug is bound to the decimal string of the id, every other slug as before. -/
theorem uploadCTFdChallenge_ok_inv {env : Env} {challenge : ChallengeConfig} {client : Client}
    {w w' : World} {id : Int}
    (h : uploadCTFdChallenge env challenge client w = (.ok id, w')) :
    (∀ k', challengeBinding w' k' =
      if k' = challenge.Challenge.Slug then some (itoa id) else challengeBinding w k') ∧
    ∃ mm wa wb, createChallenge env challenge (postParamsOf challenge mm) wa = (.ok id, wb) ∧
      Quiet w wa ∧ Quiet wb w' := by
  unfold uploadCTFdChallenge at h
  split at h
  · cases h
  · rename_i mm w1 hm
    have p1 := getMappingMap_frame hm
    split at h
    · cases h
    · rename_i uid w2 hc
      have p2 := createChallenge_frame hc
      split at h
      pick_goal 3
      · cases h
      · cases h
      · rename_i hf
        have p3 := uploadCTFdChallengeFile_frame hf
        split at h
        · cases h
        · rename_i w4 hg
          have p4 := uploadFlags_frame _ hg
          split at h
          · cases h
          · rename_i hs
            cases h
            have p6 := setUploadedCTFdChallenge_frame hs
            have p5 := uploadTags_frame (e := env) (i := id) challenge.Challenge.Tags w4
            have hcl := ((((p1.1.trans_same p2.1).trans_same p3.1).trans_same p4.1).trans_same p5.1).1
            refine ⟨?_, mm, w1, w2, hc, p1.2, ((p3.2.trans_quiet p4.2).trans_quiet p5.2).trans_quiet p6.2⟩
            intro k'
            rw [setUploadedCTFdChallenge_ok_inv hs k']
            simp only [challengeBinding, storedValue, hcl]

/-- With no binding for the slug, `getUploadedCTFdChallenge` returns the empty string
or the sentinel. -/
theorem getUploadedCTFdChallenge_unbound {env : Env} {slug : String} {w w1 w2 : World}
    {r : String × GoError} (hcl : w1.cluster = w.cluster)
    (hb : challengeBinding w slug = none ∨ challengeBinding w slug = some "" ∨
      challengeBinding w slug = some "0")
    (h : getUploadedCTFdChallenge env slug w1 = (r, w2)) : r.1 = "" ∨ r.1 = "0" := by
  unfold getUploadedCTFdChallenge at h
  split at h
  · cases h; left; rfl
  · rename_i uploaded w3 hg
    split at h
    · cases h; left; rfl
    · rename_i v hl
      split at h
      · cases h; right; rfl
      · split at h
        · cases h; right; rfl
        · rename_i hn0 hne
          exfalso
          have hv : challengeBinding w slug = some v := by
            unfold getUploadedCTFdChallenges at hg
            split at hg
            · cases hg
            · rename_i cm w4 hgg
              obtain ⟨c0, hc0, hcm⟩ := clusterGet_ok_inv hgg
              rw [hcl] at hc0
              have hd : cm.Data = c0.Data := by rw [hcm]
              have hu : lookupOk (some uploaded) slug = lookupOk c0.Data slug := by
                rw [← hd]
                split at hg <;> (cases hg; simp_all [lookupOk, GoMap.empty])
              simp only [challengeBinding, storedValue, hc0, ← hu, hl]
          have hi : index (some uploaded) slug = v := by simp [index, hl]
          rw [hi] at hn0 hne
          rcases hb with hb | hb | hb
          · rw [hv] at hb; cases hb
          · rw [hv] at hb; cases hb; exact hne rfl
          · rw [hv] at hb; cases hb; exact hn0 rfl

/-- On a slug with no binding the upsert is the upload. -/
theorem updateOrCreateCTFdChallenge_unbound {env : Env} {challenge : ChallengeConfig}
    {w w' : World} {r : Result Int}
    (hb : challengeBinding w challenge.Challenge.Slug = none ∨
      challengeBinding w challenge.Challenge.Slug = some "" ∨
      challengeBinding w challenge.Challenge.Slug = some "0")
    (h : updateOrCreateCTFdChallenge env challenge w = (r, w')) :
    (∃ e w1, getCTFdClient env w = (.error e, w1)) ∨
    ∃ client w2, Plumb w w2 ∧ uploadCTFdChallenge env challenge client w2 = (r, w') := by
  unfold updateOrCreateCTFdChallenge at h
  split at h
  · rename_i h1; left; exact ⟨_, _, h1⟩
  · rename_i client w1 h1
    have p1 := getCTFdClient_frame h1
    split at h
    rename_i sid err w2 h2
    have p2 := p1.trans_plumb (getUploadedCTFdChallenge_frame h2)
    have hs := getUploadedCTFdChallenge_unbound p1.1.1 hb h2
    split at h
    · right; exact ⟨client, w2, p2, h⟩
    · rename_i hn
      exact absurd hs hn

/-- C10: for a challenge whose slug has no binding (absent, empty or "0"), a successful
`updateOrCreateCTFdChallenge` leaves the slug bound to the decimal string of the id
that the create call returned, returns that id, and changes no other binding. -/
theorem updateOrCreateCTFdChallenge_binds (env : Env) (challenge : ChallengeConfig)
    (w w' : World) (id : Int)
    (hb : challengeBinding w challenge.Challenge.Slug = none ∨
      challengeBinding w challenge.Challenge.Slug = some "" ∨
      challengeBinding w challenge.Challenge.Slug = some "0")
    (h : updateOrCreateCTFdChallenge env challenge w = (.ok id, w')) :
    challengeBinding w' challenge.Challenge.Slug = some (itoa id) ∧
    (∀ slug, slug ≠ challenge.Challenge.Slug →
      challengeBinding w' slug = challengeBinding w slug) ∧
    (∃ mm wa wb, createChallenge env challenge (postParamsOf challenge mm) wa = (.ok id, wb) ∧
      Quiet w wa ∧ Quiet wb w') ∧
    (callsSince w w').countP Call.isCreate = 1 := by
  rcases updateOrCreateCTFdChallenge_unbound hb h with ⟨e, w1, h1⟩ | ⟨client, w2, p, hu⟩
  · exfalso
    unfold updateOrCreateCTFdChallenge at h
    rw [h1] at h
    cases h
  · obtain ⟨hbind, mm, wa, wb, hc, q1, q2⟩ := uploadCTFdChallenge_ok_inv hu
    have hsame : ∀ k, challengeBinding w2 k = challengeBinding w k := by
      intro k
      simp only [challengeBinding, storedValue, p.1.1]
    refine ⟨?_, ?_, ⟨mm, wa, wb, hc, p.2.trans_quiet q1, q2⟩, ?_⟩
    · rw [hbind]; simp
    · intro slug hne
      rw [hbind, hsame]; simp [hne]
    · have one := p.2.then_one (uploadCTFdChallenge_ok_one hu)
      exact one.countP_eq_one Call.isCreate
        (by intro c hc; cases c <;> simp_all [Call.isCreate, Call.isEntityCall])
        (fun _ hc => hc)

set_option maxRecDepth 100000 in
/-- C10 on the challenge `foo` in a fresh world: the create call returns 7 and the slug
is bound to "7". -/
theorem updateOrCreateCTFdChallenge_binds_witness :
    challengeBinding demoWorld demoChallenge.Slug = none ∧
    (updateOrCreateCTFdChallenge demoEnv
      ⟨"Foo", "/foo", "org/repo", demoChallenge, "l1\nl2\nBody", ""⟩ demoWorld).1 = .ok 7 ∧
    challengeBinding (updateOrCreateCTFdChallenge demoEnv
      ⟨"Foo", "/foo", "org/repo", demoChallenge, "l1\nl2\nBody", ""⟩ demoWorld).2 "foo" =
        some "7" :=
  ⟨by decide, by decide,
    (updateOrCreateCTFdChallenge_binds demoEnv
      ⟨"Foo", "/foo", "org/repo", demoChallenge, "l1\nl2\nBody", ""⟩ demoWorld _ 7
      (Or.inl (by decide)) (Prod.ext (by decide) rfl)).1⟩

/-! ## Calls that succeed -/

theorem clusterGet_ok {env : Env} {name : String} {w : World} {c : ConfigMap}
    (he : env.clusterGetError w.trace name = none) (hc : w.cluster name = some c) :
    clusterGet env name w = (.ok { c with Name := name }, w.record (.clusterGet name)) := by
  simp only [clusterGet, he, hc]

theorem clusterUpdate_ok {env : Env} {cm c : ConfigMap} {w : World}
    (he : env.clusterUpdateError w.trace cm = none) (hc : w.cluster cm.Name = some c) :
    (clusterUpdate env cm w).1 = none := by
  simp only [clusterUpdate, he, hc]

theorem updateConfigMap_succeeds {env : Env} {name : String} {data : GoMap} {w : World}
    {c : ConfigMap} (ha : RecordAvailable env name) (hc : w.cluster name = some c) :
    (updateConfigMap env name data w).1 = none := by
  simp only [updateConfigMap, getConfigMap, clusterGet_ok (ha.1 w.trace) hc]
  exact clusterUpdate_ok (ha.2 _ _ rfl) (c := c) (by simpa [World.record] using hc)

theorem storeConfigmapHash_succeeds {env : Env} {n h : String} {w : World}
    {c : ConfigMap} (ha : RecordAvailable env "challenge-configmap-hashset")
    (hc : w.cluster "challenge-configmap-hashset" = some c) :
    (storeConfigmapHash env n h w).1 = none := by
  simp only [storeConfigmapHash, getConfigmapHashSet, getConfigMap,
    clusterGet_ok (ha.1 w.trace) hc]
  exact updateConfigMap_succeeds ha (c := c) (by simpa [World.record] using hc)

/-! ## The delete branch -/

/-- A delete event of a config map is handled by `removeConfigMap`. -/
theorem handleEvent_remove (env : Env) (cm : ConfigMap) (w : World) :
    handleEvent env ⟨.Deleted, .configMap cm⟩ w = .done (removeConfigMap env cm w) := rfl

set_option maxRecDepth 100000 in
/-- C8, as stated, fails: the deleted object `chal-foo` classifies as a challenge and
has a stored fingerprint, its payload lacks `path`, so extraction fails, and after the
event the fingerprint is still stored. -/
theorem delete_keeps_fingerprint_when_extraction_fails :
    getConfigMapType (some chalWithoutPath) = "challenge" ∧
    storedFingerprint staleWorld "chal-foo" = some "abc" ∧
    (∃ e, extractChallengeConfigMap demoEnv chalWithoutPath = .error e) ∧
    storedFingerprint
      (handleEvent demoEnv ⟨.Deleted, .configMap chalWithoutPath⟩ staleWorld).world
      "chal-foo" = some "abc" :=
  ⟨by decide, by decide, ⟨_, rfl⟩, by decide⟩

/-- C8, amended: for a delete event whose object classifies as challenge or page, when
the cluster answers the reads and updates of the fingerprint record, the fingerprint
stored under the name of the object is the empty string after the event if the typed
record can be extracted, whatever the remote disable or delete call returns; if the
extraction fails, the event changes nothing and makes no call. -/
theorem delete_clears_fingerprint (env : Env) (cm : ConfigMap) (w : World) (c0 : ConfigMap)
    (ha : RecordAvailable env "challenge-configmap-hashset")
    (hc : w.cluster "challenge-configmap-hashset" = some c0) :
    (getConfigMapType (some cm) = "challenge" →
      (∀ challenge, extractChallengeConfigMap env cm = .ok challenge →
        storedFingerprint (handleEvent env ⟨.Deleted, .configMap cm⟩ w).world cm.Name =
          some "") ∧
      (∀ e, extractChallengeConfigMap env cm = .error e →
        handleEvent env ⟨.Deleted, .configMap cm⟩ w = .done w)) ∧
    (getConfigMapType (some cm) = "page" →
      (∀ page, extractPageConfigMap env (some cm) = .ok page →
        storedFingerprint (handleEvent env ⟨.Deleted, .configMap cm⟩ w).world cm.Name =
          some "") ∧
      (∀ e, extractPageConfigMap env (some cm) = .error e →
        handleEvent env ⟨.Deleted, .configMap cm⟩ w = .done w)) := by
  have clear : ∀ w1 : World, w1.cluster "challenge-configmap-hashset" = some c0 →
      storedFingerprint (storeConfigmapHash env cm.Name "" w1).2 cm.Name = some "" := by
    intro w1 h1
    have hs := storeConfigmapHash_succeeds (n := cm.Name) (h := "") ha h1
    have := storeConfigmapHash_ok_inv
      (Prod.ext hs rfl : storeConfigmapHash env cm.Name "" w1 =
        (none, (storeConfigmapHash env cm.Name "" w1).2)) cm.Name
    simpa using this
  constructor
  · intro hty
    constructor
    · intro challenge hex
      simp only [handleEvent_remove, Outcome.world, removeConfigMap, hty, if_true, hex]
      apply clear
      have p : SameCluster w (disableCTFdChallenge env challenge w).2 :=
        (disableCTFdChallenge_frame (r := (disableCTFdChallenge env challenge w).1) rfl).1
      rw [p.1, hc]
    · intro e hex
      simp only [handleEvent_remove, removeConfigMap, hty, if_true, hex]
  · intro hty
    have hne : getConfigMapType (some cm) ≠ "challenge" := by rw [hty]; decide
    constructor
    · intro page hex
      simp only [handleEvent_remove, Outcome.world, removeConfigMap]
      rw [if_neg hne, if_pos hty]
      simp only [hex]
      apply clear
      have p : SameClusterExcept "ctfd-pages" w (deleteCTFdPage env page.Slug w).2 :=
        (deleteCTFdPage_frame (r := (deleteCTFdPage env page.Slug w).1) rfl).1
      rw [p.1 _ (by decide), hc]
    · intro e hex
      simp only [handleEvent_remove, removeConfigMap]
      rw [if_neg hne, if_pos hty]
      simp only [hex]

set_option maxRecDepth 100000 in
/-- C8, amended, on `chal-foo` deleted from a world that holds its fingerprint. -/
theorem delete_clears_fingerprint_witness :
    RecordAvailable demoEnv "challenge-configmap-hashset" ∧
    getConfigMapType (some chalFoo) = "challenge" ∧
    storedFingerprint staleWorld chalFoo.Name = some "abc" ∧
    storedFingerprint (handleEvent demoEnv ⟨.Deleted, .configMap chalFoo⟩ staleWorld).world
      chalFoo.Name = some "" :=
  ⟨⟨fun _ => rfl, fun _ _ _ => rfl⟩, by decide, by decide,
    ((delete_clears_fingerprint demoEnv chalFoo staleWorld _
      ⟨fun _ => rfl, fun _ _ _ => rfl⟩ rfl).1 (by decide)).1 _ rfl⟩

/-! ## The upload path when every call succeeds -/

theorem Reliable.available {env : Env} (R : Reliable env) (record : String) :
    RecordAvailable env record :=
  ⟨fun t => R.clusterGet t record, fun t cm _ => R.clusterUpdate t cm⟩

theorem getMappingMap_ok {env : Env} (R : Reliable env) {w : World} {mc : ConfigMap}
    {m : MappingMap} (hc : w.cluster "mapping-map" = some mc)
    (hd : decodeMappingMap env mc.Data = .ok m) : (getMappingMap env w).1 = .ok m := by
  simp only [getMappingMap, clusterGet_ok (R.clusterGet _ _) hc, hd]

theorem getCTFdClient_ok {env : Env} (R : Reliable env) (w : World) :
    ∃ client, (getCTFdClient env w).1 = .ok client := by
  simp only [getCTFdClient, callError, R.getNonceAndSession]
  exact ⟨_, rfl⟩

theorem createChallenge_ok {env : Env} (R : Reliable env) (challenge : ChallengeConfig)
    (params : PostChallengesParams) (w : World) :
    ∃ id, (createChallenge env challenge params w).1 = .ok id := by
  unfold createChallenge
  split
  · obtain ⟨id, h⟩ := R.postKubeCTFChallenge w.trace
      { PostChallengesParams := params, TemplateName := kubectfSlug challenge.Challenge,
        InstanceType := instanceTypeOf challenge.Challenge }
    exact ⟨id, by simp only [callValue, h]⟩
  · obtain ⟨id, h⟩ := R.postChallenges w.trace params
    exact ⟨id, by simp only [callValue, h]⟩

/-- When every entry that is fetched is a file whose content is returned, the loop over
the entries does not panic. -/
theorem fetchFiles_some {env : Env}
    (hf : ∀ t path, ∃ d, env.githubFileBytes t path = .ok (some d)) (dir : String)
    (names : List String) (w : World) : ∃ files, (fetchFiles env dir names w).1 = some files := by
  induction names generalizing w with
  | nil => exact ⟨[], rfl⟩
  | cons name rest ih =>
    obtain ⟨d, hd⟩ := hf w.trace (dir ++ "/" ++ name)
    simp only [fetchFiles, getGithubFileBytes, callValue, hd]
    split
    · exact ih _
    · split
      · obtain ⟨fs, hfs⟩ := ih (w.record (.githubFileBytes (dir ++ "/" ++ name)))
        split
        · exact ⟨_, rfl⟩
        · rename_i h; rw [h] at hfs; cases hfs
      · exact ih _

theorem uploadCTFdChallengeFile_ok {env : Env} (R : Reliable env) (id : Int)
    (challenge : ChallengeConfig) (w : World) :
    (uploadCTFdChallengeFile env id challenge w).1 = .ok id := by
  obtain ⟨l, hl⟩ := R.githubDirContents w.trace (filesDirPath challenge)
  simp only [uploadCTFdChallengeFile, callValue, hl]
  obtain ⟨fs, hfs⟩ := fetchFiles_some R.githubFileBytes (filesDirPath challenge) l
    (w.record (.githubDirContents (filesDirPath challenge)))
  split
  · simp only [callError, R.postFiles]
    split <;> rfl
  · rename_i h; rw [h] at hfs; cases hfs

theorem uploadFlags_ok {env : Env} (R : Reliable env) (id : Int) (flags : List FlagDef)
    (w : World) : (uploadFlags env id flags w).1 = none := by
  induction flags generalizing w with
  | nil => rfl
  | cons flag rest ih =>
    simp only [uploadFlags, callError, R.postFlags]
    exact ih _

theorem setUploadedCTFdChallenge_ok {env : Env} (R : Reliable env) (slug : String) (id : Int)
    {w : World} {c : ConfigMap} (hc : w.cluster "ctfd-challenges" = some c) :
    (setUploadedCTFdChallenge env slug id w).1 = none := by
  simp only [setUploadedCTFdChallenge, getUploadedCTFdChallenges, getConfigMap,
    clusterGet_ok (R.clusterGet _ _) hc]
  have key : ∀ data : GoMap,
      (updateConfigMap env "ctfd-challenges" data
        (w.record (.clusterGet "ctfd-challenges"))).1 = none := fun data =>
    updateConfigMap_succeeds (R.available _) (c := c) (by simpa [World.record] using hc)
  cases c.Data with
  | none =>
    simp only []
    split
    · rename_i h; have := key (GoMap.empty.set slug (itoa id)); rw [h] at this; cases this
    · rfl
  | some es =>
    simp only []
    split
    · rename_i h; have := key (es.set slug (itoa id)); rw [h] at this; cases this
    · rfl

/-- When every call succeeds and the config maps it reads exist, the upload succeeds. -/
theorem uploadCTFdChallenge_ok {env : Env} (R : Reliable env) (challenge : ChallengeConfig)
    (client : Client) {w : World} {a b : ConfigMap} {m : MappingMap}
    (hm : w.cluster "mapping-map" = some a) (hd : decodeMappingMap env a.Data = .ok m)
    (hb : w.cluster "ctfd-challenges" = some b) :
    ∃ id, (uploadCTFdChallenge env challenge client w).1 = .ok id := by
  unfold uploadCTFdChallenge
  split
  · rename_i h; have := getMappingMap_ok R hm hd; rw [h] at this; cases this
  · rename_i mm w1 h1
    have p1 := getMappingMap_frame h1
    split
    · rename_i h
      obtain ⟨id, hid⟩ := createChallenge_ok R challenge (postParamsOf challenge mm) w1
      rw [h] at hid; cases hid
    · rename_i uid w2 h2
      have p2 := createChallenge_frame h2
      split
      pick_goal 3
      · rename_i h
        have := uploadCTFdChallengeFile_ok R uid challenge w2
        rw [h] at this; cases this
      · rename_i h
        have := uploadCTFdChallengeFile_ok R uid challenge w2
        rw [h] at this; cases this
      · rename_i x w3 h3
        have p3 := uploadCTFdChallengeFile_frame h3
        split
        · rename_i h
          have := uploadFlags_ok R uid challenge.Challenge.Flag w3
          rw [h] at this; cases this
        · rename_i w4 h4
          have p4 := uploadFlags_frame _ h4
          have p5 := uploadTags_frame (e := env) (i := uid) challenge.Challenge.Tags w4
          have hcl := ((((p1.1.trans_same p2.1).trans_same p3.1).trans_same p4.1).trans_same p5.1).1
          split
          · rename_i h
            have := setUploadedCTFdChallenge_ok R challenge.Challenge.Slug uid
              (w := uploadTags env uid challenge.Challenge.Tags w4) (c := b)
              (by rw [hcl, hb])
            rw [h] at this; cases this
          · exact ⟨uid, rfl⟩

/-- The collaborators of the examples always answer. -/
theorem demoEnv_reliable : Reliable demoEnv := by
  constructor <;> intros <;> first | rfl | exact ⟨_, rfl⟩

set_option maxRecDepth 100000 in
/-- C5, as stated, fails: `chal-foo` is labelled challenge-config, its slug has no
binding, its record is extracted and every call succeeds, but the hash of its payload
is stored already, so the add event is skipped as unchanged and issues no create
call.  It fails also for an object that is not deployed yet.  When the mapping map
does not decode, the upsert returns an error before the create call, and no
fingerprint is stored.  When the files directory lists a sub-directory, the fetch of
that entry answers without a file content and the upsert panics after the create call:
the loop ends and no fingerprint is stored. -/
theorem add_event_skipped_when_fingerprint_matches :
    Reliable demoEnv ∧
    watchedLabel (some chalFoo) = some "challenge-config" ∧
    challengeBinding fingerprintedWorld demoChallenge.Slug = none ∧
    (∃ c, extractChallengeConfigMap demoEnv chalFoo = .ok c ∧ c.Challenge = demoChallenge) ∧
    (callsSince fingerprintedWorld
      (handleEvent demoEnv ⟨.Added, .configMap chalFoo⟩ fingerprintedWorld).world).countP
        Call.isCreate = 0 ∧
    (challengeBinding garbledMapWorld demoChallenge.Slug = none ∧
      storedFingerprint garbledMapWorld chalFoo.Name = none ∧
      (applyConfigMap demoEnv chalFoo garbledMapWorld).1 =
        .upsertFailed "error getting mapping map" ∧
      (callsSince garbledMapWorld
        (handleEvent demoEnv ⟨.Added, .configMap chalFoo⟩ garbledMapWorld).world).countP
          Call.isCreate = 0 ∧
      storedFingerprint
        (handleEvent demoEnv ⟨.Added, .configMap chalFoo⟩ garbledMapWorld).world
        chalFoo.Name = none) ∧
    ((∀ t path, subdirEnv.githubDirContents t path = .ok ["src"]) ∧
      (∀ t path, subdirEnv.githubFileBytes t path = .ok none) ∧
      (applyConfigMap subdirEnv chalFoo demoWorld).1 = .panicked ∧
      (handleEvent subdirEnv ⟨.Added, .configMap chalFoo⟩ demoWorld).isCrashed = true ∧
      (callsSince demoWorld
        (handleEvent subdirEnv ⟨.Added, .configMap chalFoo⟩ demoWorld).world).countP
          Call.isCreate = 1 ∧
      storedFingerprint
        (handleEvent subdirEnv ⟨.Added, .configMap chalFoo⟩ demoWorld).world
        chalFoo.Name = none) :=
  ⟨demoEnv_reliable, by decide, by decide,
    ⟨⟨"Foo", "/foo", "org/repo", demoChallenge, "l1\nl2\nBody", ""⟩, by decide, rfl⟩,
    by decide,
    ⟨by decide, by decide, by decide, by decide, by decide⟩,
    ⟨fun _ _ => rfl, fun _ _ => rfl, by decide, by decide, by decide, by decide⟩⟩

/-- C5, amended: for a config object labelled challenge-config that is not already
deployed (its stored fingerprint is not the hash of its payload), whose record is
extracted and whose slug has no binding, when every call to the collaborators
succeeds (every entry of the files directory whose bytes are fetched being a file,
whose content is returned), the config maps of the fingerprint record, of the mapping
map and of the bindings exist, and the mapping map decodes, one add event issues
exactly one remote create call and no patch, the loop goes on, and afterwards the
fingerprint stored under the name of the object is the hash of its payload. -/
theorem add_event_creates_once (env : Env) (R : Reliable env) (cm : ConfigMap)
    (challenge : ChallengeConfig) (w : World) (hc mc bc : ConfigMap) (m : MappingMap)
    (hlabel : watchedLabel (some cm) = some "challenge-config")
    (hnew : getHashForConfigMap env cm ≠ .ok ((storedFingerprint w cm.Name).getD ""))
    (hex : extractChallengeConfigMap env cm = .ok challenge)
    (hbind : challengeBinding w challenge.Challenge.Slug = none ∨
      challengeBinding w challenge.Challenge.Slug = some "" ∨
      challengeBinding w challenge.Challenge.Slug = some "0")
    (hH : w.cluster "challenge-configmap-hashset" = some hc)
    (hM : w.cluster "mapping-map" = some mc) (hD : decodeMappingMap env mc.Data = .ok m)
    (hB : w.cluster "ctfd-challenges" = some bc) :
    ∃ w' id hash, handleEvent env ⟨.Added, .configMap cm⟩ w = .done w' ∧
      applyConfigMap env cm w = (.stored id, w') ∧
      (callsSince w w').countP Call.isCreate = 1 ∧
      (callsSince w w').countP Call.isPatch = 0 ∧
      getHashForConfigMap env cm = .ok hash ∧
      storedFingerprint w' cm.Name = some hash := by
  have hty : getConfigMapType (some cm) = "challenge" := by
    rw [getConfigMapType_eq, hlabel]; rfl
  have hdf : (hasBeenDeployed env cm w).1 = false := by
    cases h : (hasBeenDeployed env cm w).1 with
    | false => rfl
    | true => exact absurd ((hasBeenDeployed_true_iff env cm w).1 h).2 hnew
  have hdep : hasBeenDeployed env cm w =
      (false, w.record (.clusterGet "challenge-configmap-hashset")) :=
    Prod.ext hdf (hasBeenDeployed_world env cm w)
  have q1 : Plumb w (w.record (.clusterGet "challenge-configmap-hashset")) :=
    Plumb.record_plumb w _ rfl
  rcases hu : updateOrCreateCTFdChallenge env challenge
      (w.record (.clusterGet "challenge-configmap-hashset")) with ⟨r, w2⟩
  rcases updateOrCreateCTFdChallenge_unbound (w := w.record _) hbind hu with
    ⟨e, w1, h1⟩ | ⟨client, wa, pa, hup⟩
  · exfalso
    obtain ⟨client, hcl⟩ := getCTFdClient_ok R (w.record (.clusterGet "challenge-configmap-hashset"))
    rw [h1] at hcl; cases hcl
  · have hcla : wa.cluster = w.cluster := (q1.trans_plumb pa).1.1
    obtain ⟨id, hid⟩ := uploadCTFdChallenge_ok R challenge client (w := wa) (a := mc)
      (b := bc) (m := m) (by rw [hcla, hM]) hD (by rw [hcla, hB])
    rw [hup] at hid
    simp only at hid
    subst hid
    have pu := uploadCTFdChallenge_frame hup
    have one : OneCall Call.isCreate w w2 :=
      (q1.trans_plumb pa).2.then_one (uploadCTFdChallenge_ok_one hup)
    obtain ⟨hash, hh⟩ := getHashForConfigMap_ok env cm
    have hH2 : w2.cluster "challenge-configmap-hashset" = some hc := by
      rw [pu.1.1 _ (by decide), hcla, hH]
    rcases hs : storeConfigmapHash env cm.Name hash w2 with ⟨se, w3⟩
    have hse : se = none := by
      have := storeConfigmapHash_succeeds (n := cm.Name) (h := hash) (R.available _) hH2
      rw [hs] at this; exact this
    subst hse
    have happ : applyConfigMap env cm w = (.stored id, w3) := by
      simp only [applyConfigMap, hdep, hty, if_true, hex, hu, storeNewHash, hh, hs]
    have one3 : OneCall Call.isCreate w w3 := one.then_quiet_one (storeConfigmapHash_frame hs).2
    refine ⟨w3, id, hash, ?_, happ, ?_, ?_, hh, ?_⟩
    · rw [handleEvent_apply env .Added (Or.inl rfl) cm w (by rw [happ]; intro x; cases x),
        happ]
    · exact one3.countP_eq_one Call.isCreate
        (by intro c hc; cases c <;> simp_all [Call.isCreate, Call.isEntityCall])
        (fun _ h => h)
    · exact one3.countP_eq_zero_one Call.isPatch
        (by intro c hc; cases c <;> simp_all [Call.isPatch, Call.isEntityCall])
        (by intro c hc; cases c <;> simp_all [Call.isPatch, Call.isCreate])
    · rw [storeConfigmapHash_ok_inv hs cm.Name]; simp

set_option maxRecDepth 100000 in
/-- C5, amended, on the end-to-end scenario: `chal-foo`, with the description
"l1\nl2\nBody", added to a fresh world. -/
theorem add_event_creates_once_witness :
    watchedLabel (some chalFoo) = some "challenge-config" ∧
    getHashForConfigMap demoEnv chalFoo ≠
      .ok ((storedFingerprint demoWorld chalFoo.Name).getD "") ∧
    challengeBinding demoWorld "foo" = none ∧
    ∃ w' id hash, handleEvent demoEnv ⟨.Added, .configMap chalFoo⟩ demoWorld = .done w' ∧
      applyConfigMap demoEnv chalFoo demoWorld = (.stored id, w') ∧
      (callsSince demoWorld w').countP Call.isCreate = 1 ∧
      (callsSince demoWorld w').countP Call.isPatch = 0 ∧
      getHashForConfigMap demoEnv chalFoo = .ok hash ∧
      storedFingerprint w' chalFoo.Name = some hash :=
  ⟨by decide, by decide, by decide,
    add_event_creates_once demoEnv demoEnv_reliable chalFoo
      ⟨"Foo", "/foo", "org/repo", demoChallenge, "l1\nl2\nBody", ""⟩ demoWorld
      ⟨"challenge-configmap-hashset", GoMap.empty, none⟩ ⟨"mapping-map", GoMap.empty, none⟩
      ⟨"ctfd-challenges", GoMap.empty, none⟩ ⟨GoMap.empty, GoMap.empty, GoMap.empty⟩
      (by decide) (by decide) (by decide) (Or.inl (by decide)) rfl rfl rfl rfl⟩

/-- A hexadecimal digit is one of the sixteen characters. -/
theorem hexDigit_mem (n : Nat) : hexDigit n ∈ "0123456789abcdef".toList := by
  by_cases h : n < 16
  · interval_cases n <;> decide
  · have : "0123456789abcdef".toList.length ≤ n := by
      have : "0123456789abcdef".toList.length = 16 := by decide
      omega
    unfold hexDigit
    rw [List.getD_eq_default _ _ this]
    decide

/-- The hexadecimal encoding has two characters for each byte. -/
theorem hexEncodeToString_length (bs : List (Fin 256)) :
    (hexEncodeToString bs).length = 2 * bs.length := by
  simp only [hexEncodeToString, String.length]
  induction bs with
  | nil => rfl
  | cons b bs ih => simp only [List.flatMap_cons, List.length_append, ih, List.length_cons,
      List.length_nil]; omega

/-- The hexadecimal encoding holds hexadecimal digits only. -/
theorem hexEncodeToString_hex (bs : List (Fin 256)) :
    ∀ c ∈ (hexEncodeToString bs).toList, c ∈ "0123456789abcdef".toList := by
  intro c hc
  change c ∈ bs.flatMap (fun b => [hexDigit (b.val / 16), hexDigit (b.val % 16)]) at hc
  rw [List.mem_flatMap] at hc
  obtain ⟨b, _, hb⟩ := hc
  simp only [List.mem_cons, List.mem_singleton, List.not_mem_nil, or_false] at hb
  rcases hb with h | h <;> (rw [h]; exact hexDigit_mem _)

/-- The hash of a payload is 64 hexadecimal digits. -/
theorem getHashForConfigMap_hex (env : Env) (cm : ConfigMap) :
    ∃ hash, getHashForConfigMap env cm = .ok hash ∧ hash.length = 64 ∧
      ∀ c ∈ hash.toList, c ∈ "0123456789abcdef".toList := by
  simp only [getHashForConfigMap, jsonMarshal]
  cases cm.Data <;>
    exact ⟨_, rfl, by rw [hexEncodeToString_length, Digest.size], hexEncodeToString_hex _⟩

/-- An object that does not count as deployed is not skipped as unchanged. -/
theorem applyConfigMap_not_unchanged {env : Env} {cm : ConfigMap} {w : World}
    (h : (hasBeenDeployed env cm w).1 = false) : (applyConfigMap env cm w).1 ≠ .unchanged := by
  have key : ∀ (i : Int) (v : World), (storeNewHash env cm i v).1 ≠ .unchanged := by
    intro i v
    unfold storeNewHash
    split
    · simp
    · split <;> simp
  unfold applyConfigMap
  split
  · rename_i h1; rw [h1] at h; cases h
  · split
    · split
      · simp
      · split
        · simp
        · exact key _ _
        · simp
    · split
      · split
        · simp
        · split
          · simp
          · exact key _ _
      · simp

/-- C14: for every object whose stored fingerprint is absent (never processed) or the
empty string (cleared by a delete event), and for every payload, the hash of the
payload is a string of 64 hexadecimal digits, so not the empty string,
`hasBeenDeployed` is false, and an add event for the object is not skipped as
unchanged: it is handled by `applyConfigMap`, and the loop goes on with the world so
reached unless the upsert panicked. -/
theorem cleared_fingerprint_never_suppresses (env : Env) (configMap : ConfigMap) (w : World)
    (h : storedFingerprint w configMap.Name = none ∨
      storedFingerprint w configMap.Name = some "") :
    (∃ hash, getHashForConfigMap env configMap = .ok hash ∧ hash.length = 64 ∧
      (∀ c ∈ hash.toList, c ∈ "0123456789abcdef".toList) ∧ hash ≠ "") ∧
    (hasBeenDeployed env configMap w).1 = false ∧
    (applyConfigMap env configMap w).1 ≠ .unchanged ∧
    (handleEvent env ⟨.Added, .configMap configMap⟩ w).world =
      (applyConfigMap env configMap w).2 ∧
    ((applyConfigMap env configMap w).1 ≠ .panicked →
      handleEvent env ⟨.Added, .configMap configMap⟩ w =
        .done (applyConfigMap env configMap w).2) := by
  obtain ⟨hash, hh, hlen, hhex⟩ := getHashForConfigMap_hex env configMap
  have hne : hash ≠ "" := by
    intro e
    rw [e] at hlen
    cases hlen
  have hfalse : (hasBeenDeployed env configMap w).1 = false := by
    cases hd : (hasBeenDeployed env configMap w).1 with
    | false => rfl
    | true =>
      have := ((hasBeenDeployed_true_iff env configMap w).1 hd).2
      rw [hh] at this
      rcases h with h | h <;> (rw [h] at this; injection this with e; exact absurd e hne)
  exact ⟨⟨hash, hh, hlen, hhex, hne⟩, hfalse, applyConfigMap_not_unchanged hfalse,
    handleEvent_apply_world env .Added (Or.inl rfl) configMap w,
    handleEvent_apply env .Added (Or.inl rfl) configMap w⟩

set_option maxRecDepth 100000 in
/-- C14 on the world left by a delete event: the fingerprint of `chal-foo` is the
empty string, and `hasBeenDeployed` is false for it. -/
theorem cleared_fingerprint_never_suppresses_witness :
    storedFingerprint clearedWorld chalFoo.Name = some "" ∧
    (hasBeenDeployed demoEnv chalFoo clearedWorld).1 = false :=
  ⟨by decide,
    (cleared_fingerprint_never_suppresses demoEnv chalFoo clearedWorld
      (Or.inr (by decide))).2.1⟩

set_option maxRecDepth 100000 in
/-- C16: a description of exactly two lines is sent as it is, not with its two lines
removed: the cut is made only when there are more than two lines.  With three lines
the first two are removed, and both the create path and the patch path send the
description so cut. -/
theorem cutDescription_two_lines :
    (splitLines "l1\nl2".toList).length = 2 ∧
    cutDescription "l1\nl2" = "l1\nl2" ∧
    joinWith "\n" (((splitLines "l1\nl2".toList).map String.mk).drop 2) = "" ∧
    cutDescription "l1\nl2\nBody" = "Body" ∧
    (∀ (challenge : ChallengeConfig) (mappingMap : MappingMap),
      (postParamsOf challenge mappingMap).Description = cutDescription challenge.Description ∧
      (patchParamsOf challenge mappingMap).Description =
        cutDescription challenge.Description) :=
  ⟨by decide, by decide, by decide, by decide, fun _ _ => ⟨rfl, rfl⟩⟩

/-- C18: `storeConfigmapHash` is a functional update of the fingerprint record.  When
it succeeds the record holds `hash` under `name` and, under every other name, what it
held before; a following `getConfigmapStoredHash` for `name` that returns a value
returns `hash`, and it returns one whenever the record can be read.  When the first
read, the second read or the update of the record fails, it returns that error. -/
theorem storeConfigmapHash_functional_update (env : Env) (name hash : String) (w : World) :
    (∀ w', storeConfigmapHash env name hash w = (none, w') →
      storedFingerprint w' name = some hash ∧
      (∀ other, other ≠ name → storedFingerprint w' other = storedFingerprint w other) ∧
      (∀ v, (getConfigmapStoredHash env name w').1 = .ok v → v = hash) ∧
      (fingerprintReadable env w' = true →
        (getConfigmapStoredHash env name w').1 = .ok hash)) ∧
    (∀ e w1, clusterGet env "challenge-configmap-hashset" w = (.error e, w1) →
      storeConfigmapHash env name hash w = (some e, w1)) ∧
    (∀ c w1 e w2, clusterGet env "challenge-configmap-hashset" w = (.ok c, w1) →
      clusterGet env "challenge-configmap-hashset" w1 = (.error e, w2) →
      storeConfigmapHash env name hash w = (some e, w2)) ∧
    (∀ c w1 c' w2 e w3, clusterGet env "challenge-configmap-hashset" w = (.ok c, w1) →
      clusterGet env "challenge-configmap-hashset" w1 = (.ok c', w2) →
      clusterUpdate env
        { c' with Data := some (mergeInto (c'.Data.getD GoMap.empty)
            ((c.Data.getD GoMap.empty).set name hash)) } w2 = (some e, w3) →
      storeConfigmapHash env name hash w = (some e, w3)) := by
  refine ⟨?_, ?_, ?_, ?_⟩
  · intro w' h
    have inv := storeConfigmapHash_ok_inv h
    have hn : storedFingerprint w' name = some hash := by rw [inv name, if_pos rfl]
    refine ⟨hn, ?_, ?_, ?_⟩
    · intro other ho
      rw [inv other, if_neg ho]
    · intro v hv
      cases hr : fingerprintReadable env w' with
      | true =>
        rw [getConfigmapStoredHash_of_readable env name w' hr, hn] at hv
        injection hv with e
        exact e.symm
      | false =>
        obtain ⟨err, e⟩ := getConfigmapStoredHash_of_not_readable env name w' hr
        rw [e] at hv
        cases hv
    · intro hr
      rw [getConfigmapStoredHash_of_readable env name w' hr, hn]
      rfl
  · intro e w1 h
    simp only [storeConfigmapHash, getConfigmapHashSet, getConfigMap, h]
  · intro c w1 e w2 h1 h2
    simp only [storeConfigmapHash, getConfigmapHashSet, getConfigMap, h1, updateConfigMap, h2]
  · intro c w1 c' w2 e w3 h1 h2 h3
    simp only [storeConfigmapHash, getConfigmapHashSet, getConfigMap, h1, updateConfigMap, h2]
    rw [← h3]
    cases c.Data <;> cases c'.Data <;> rfl

set_option maxRecDepth 100000 in
/-- C18 on a fresh world: storing "abc" for `chal-foo` succeeds and the record then
holds it. -/
theorem storeConfigmapHash_functional_update_witness :
    (storeConfigmapHash demoEnv "chal-foo" "abc" demoWorld).1 = none ∧
    storedFingerprint (storeConfigmapHash demoEnv "chal-foo" "abc" demoWorld).2 "chal-foo" =
      some "abc" :=
  ⟨by decide,
    ((storeConfigmapHash_functional_update demoEnv "chal-foo" "abc" demoWorld).1
      (storeConfigmapHash demoEnv "chal-foo" "abc" demoWorld).2
      (Prod.ext (by decide) rfl)).1⟩

/-- The loop of `processEvent` returns only after it has set the health flag to
false. -/
theorem processEvent_done_unhealthy (env : Env) (events : List Event) (w w' : World)
    (h : processEvent env events w = .done w') : w'.health = false := by
  induction events generalizing w with
  | nil =>
    simp only [processEvent, Outcome.done.injEq] at h
    rw [← h]; rfl
  | cons event rest ih =>
    simp only [processEvent] at h
    split at h
    · exact ih _ h
    · cases h

/-- C19: when the channel is closed, `processEvent` returns with the health flag set
to false, the config maps and the trace of calls as they were; whenever `processEvent`
returns, the flag is false; and after it has returned the loop of
`initBackgroundChallengeWatcher` goes into its next pass, which opens a new watch. -/
theorem closed_channel_sets_unhealthy (env : Env)
    (watch : List Call → Except String (List Event)) (w : World) :
    processEvent env [] w =
      .done { cluster := w.cluster, trace := w.trace, health := false } ∧
    (∀ events w', processEvent env events w = .done w' → w'.health = false) ∧
    (∀ events w1 passes, watch w.trace = .ok events →
      processEvent env events (w.record .clusterWatch) = .done w1 →
      w1.health = false ∧
      initBackgroundChallengeWatcher env watch true (passes + 2) w =
        watchLoop env watch (passes + 1) w1 ∧
      watchLoop env watch (passes + 1) w1 =
        match watch w1.trace with
        | .error _ => .crashed (w1.record .clusterWatch)
        | .ok next =>
          match processEvent env next (w1.record .clusterWatch) with
          | .done w2 => watchLoop env watch passes w2
          | .crashed w2 => .crashed w2) := by
  refine ⟨rfl, fun events w' h => processEvent_done_unhealthy env events w w' h, ?_⟩
  intro events w1 passes h1 h2
  refine ⟨processEvent_done_unhealthy env events _ w1 h2, ?_, rfl⟩
  simp only [initBackgroundChallengeWatcher, watchLoop, h1, h2]
  simp

set_option maxRecDepth 100000 in
/-- C19 on a watch whose channel is closed at once: after two passes the loop has
opened two watches and made no other call, and the flag is false. -/
theorem closed_channel_sets_unhealthy_witness :
    ((initBackgroundChallengeWatcher demoEnv (fun _ => .ok []) true 2 demoWorld).world
      demoWorld).trace = [.clusterWatch, .clusterWatch] ∧
    ((initBackgroundChallengeWatcher demoEnv (fun _ => .ok []) true 2 demoWorld).world
      demoWorld).health = false ∧
    initBackgroundChallengeWatcher demoEnv (fun _ => .ok []) true 2 demoWorld =
      watchLoop demoEnv (fun _ => .ok []) 1
        { cluster := demoWorld.cluster, trace := [.clusterWatch], health := false } :=
  ⟨by decide, by decide,
    ((closed_channel_sets_unhealthy demoEnv (fun _ => .ok []) demoWorld).2.2 []
      { cluster := demoWorld.cluster, trace := [.clusterWatch], health := false } 0
      rfl rfl).2.1⟩

/-- A string has at least as many bytes as characters. -/
theorem length_le_utf8ByteSize (s : String) : s.length ≤ s.utf8ByteSize := by
  have key : ∀ l : List Char, l.length ≤ String.utf8ByteSize.go l := by
    intro l
    induction l with
    | nil => exact Nat.le_refl _
    | cons c cs ih =>
      have := Char.utf8Size_pos c
      simp only [String.utf8ByteSize.go, List.length_cons]
      omega
  exact key s.data

/-- The test of `middleware` for the prefix, on a header that is not the bare prefix:
it holds exactly when the header starts with "Bearer ". -/
theorem bearer_test_iff (authorization : String) (h : authorization ≠ "Bearer ") :
    (authorization.utf8ByteSize > 7 ∧ authorization.toList.take 7 = "Bearer ".toList) ↔
      "Bearer ".toList.isPrefixOf authorization.toList = true := by
  rw [List.isPrefixOf_iff_prefix]
  constructor
  · rintro ⟨_, h2⟩
    rw [← h2]
    exact List.take_prefix _ _
  · rintro ⟨rest, hr⟩
    have hlen : "Bearer ".toList.length = 7 := by decide
    have htake : authorization.toList.take 7 = "Bearer ".toList := by
      rw [← hr, ← hlen, List.take_left]
    refine ⟨?_, htake⟩
    have hne : rest ≠ [] := by
      intro e
      apply h
      rw [e, List.append_nil] at hr
      exact String.ext hr.symm
    have h1 : authorization.length = 7 + rest.length := by
      rw [String.length, ← String.toList, ← hr, List.length_append, hlen]
    have h2 := length_le_utf8ByteSize authorization
    have h3 : 0 < rest.length := List.length_pos.2 hne
    omega

/-- What is left after `dropWhile` does not start with a dropped element. -/
theorem dropWhile_head_false {α : Type} (p : α → Bool) :
    ∀ (xs : List α) (a : α) (rest : List α), xs.dropWhile p = a :: rest → p a = false
  | [], a, rest, h => by simp at h
  | x :: xs, a, rest, h => by
    by_cases hx : p x = true
    · rw [List.dropWhile_cons_of_pos hx] at h
      exact dropWhile_head_false p xs a rest h
    · rw [List.dropWhile_cons_of_neg hx] at h
      injection h with h1 _
      subst h1
      simpa using hx

/-- No header value that arrives through `net/http` ends in a space: none is the bare
prefix "Bearer ". -/
theorem receivedHeaderValue_ne_bare (line : String) : receivedHeaderValue line ≠ "Bearer " := by
  intro h
  have h1 : (receivedHeaderValue line).toList.reverse = "Bearer ".toList.reverse := by rw [h]
  have h2 : ((line.toList.dropWhile isHeaderSpace).reverse.dropWhile isHeaderSpace) =
      ' ' :: "reraeB".toList := by
    simpa [receivedHeaderValue] using h1
  have := dropWhile_head_false isHeaderSpace _ _ _ h2
  revert this
  decide

/-- On a request built by hand whose header is the bare prefix "Bearer ", the guard
`len(bearerToken) > 7` keeps the prefix: with the secret "Bearer" the request is let
through, although the header with the prefix removed is the empty token. -/
theorem middleware_accepts_bare_prefix :
    specPresentedToken "Bearer " = "" ∧ trimSpace "Bearer" = "Bearer" ∧
    specPresentedToken "Bearer " ≠ trimSpace "Bearer" ∧
    middleware "Bearer" "Bearer " = (none, none) := by
  decide

/-- C20: for every request, `middleware` returns no error exactly when the
`Authorization` header is not empty and the presented token (the header with a leading
"Bearer " removed when present, then trimmed) equals the trimmed secret; when the header
is empty or the token differs it returns the error "Unauthorized" and answers 401.  The
header of a request is never the bare prefix "Bearer ": `net/http` removes the white
space around a header value, so that value arrives as "Bearer".  (On that value alone,
which only a request built by hand can carry, the prefix is kept and the request is let
through exactly when the trimmed secret is "Bearer".) -/
theorem middleware_rejects_bad_secret (valid_password authorization : String)
    (h : authorization ≠ "Bearer ") :
    ((middleware valid_password authorization).1 = none ↔
      authorization ≠ "" ∧ specPresentedToken authorization = trimSpace valid_password) ∧
    ((authorization = "" ∨ specPresentedToken authorization ≠ trimSpace valid_password) →
      middleware valid_password authorization =
        (some "Unauthorized", some ⟨401, "Unauthorized"⟩)) ∧
    ((middleware valid_password "Bearer ").1 = none ↔ trimSpace valid_password = "Bearer") ∧
    (∀ line, receivedHeaderValue line ≠ "Bearer " ∧
      ((middleware valid_password (receivedHeaderValue line)).1 = none ↔
        receivedHeaderValue line ≠ "" ∧
          specPresentedToken (receivedHeaderValue line) = trimSpace valid_password)) := by
  suffices main : ∀ authorization : String, authorization ≠ "Bearer " →
      ((middleware valid_password authorization).1 = none ↔
        authorization ≠ "" ∧ specPresentedToken authorization = trimSpace valid_password) ∧
      ((authorization = "" ∨ specPresentedToken authorization ≠ trimSpace valid_password) →
        middleware valid_password authorization =
          (some "Unauthorized", some ⟨401, "Unauthorized"⟩)) ∧
      ((middleware valid_password "Bearer ").1 = none ↔
        trimSpace valid_password = "Bearer") from
    ⟨(main authorization h).1, (main authorization h).2.1, (main authorization h).2.2,
      fun line => ⟨receivedHeaderValue_ne_bare line,
        (main _ (receivedHeaderValue_ne_bare line)).1⟩⟩
  clear h authorization
  intro authorization h
  have hbare : (middleware valid_password "Bearer ").1 = none ↔
      trimSpace valid_password = "Bearer" := by
    have e : middleware valid_password "Bearer " =
        if validatePassword valid_password "Bearer " = false then
          (some "Unauthorized", some ⟨401, "Unauthorized"⟩) else (none, none) := by
      unfold middleware
      rw [if_neg (show ¬ ("Bearer " : String) = "" by decide)]
      simp only []
      rw [if_neg (show ¬ (("Bearer " : String).utf8ByteSize > 7 ∧
        ("Bearer " : String).toList.take 7 = "Bearer ".toList) by decide)]
    have t : trimSpace "Bearer " = "Bearer" := by decide
    rw [e]
    simp only [validatePassword, stringStrip, t, decide_eq_false_iff_not]
    by_cases hv : "Bearer" = trimSpace valid_password
    · rw [if_neg (not_not.2 hv)]
      exact ⟨fun _ => hv.symm, fun _ => rfl⟩
    · rw [if_pos hv]
      exact ⟨fun x => (by cases x), fun x => absurd x.symm hv⟩
  by_cases he : authorization = ""
  · subst he
    refine ⟨?_, fun _ => rfl, hbare⟩
    constructor
    · intro x; cases x
    · rintro ⟨x, _⟩; exact absurd rfl x
  · have e : middleware valid_password authorization =
        if specPresentedToken authorization = trimSpace valid_password then (none, none)
        else (some "Unauthorized", some ⟨401, "Unauthorized"⟩) := by
      unfold middleware specPresentedToken
      rw [if_neg he]
      simp only [validatePassword, stringStrip, decide_eq_false_iff_not]
      by_cases hp : "Bearer ".toList.isPrefixOf authorization.toList = true
      · rw [if_pos ((bearer_test_iff authorization h).2 hp), if_pos hp]
        by_cases hx : trimSpace (String.mk (authorization.toList.drop 7)) =
            trimSpace valid_password
        · rw [if_neg (not_not.2 hx), if_pos hx]
        · rw [if_pos hx, if_neg hx]
      · rw [if_neg (fun x => hp ((bearer_test_iff authorization h).1 x)), if_neg hp]
        by_cases hx : trimSpace authorization = trimSpace valid_password
        · rw [if_neg (not_not.2 hx), if_pos hx]
        · rw [if_pos hx, if_neg hx]
    rw [e]
    refine ⟨?_, ?_, hbare⟩
    · constructor
      · intro x
        refine ⟨he, ?_⟩
        by_contra hx
        rw [if_neg hx] at x
        cases x
      · rintro ⟨_, x⟩
        rw [if_pos x]
    · rintro (x | x)
      · exact absurd x he
      · rw [if_neg x]

/-- C20 on two requests against the secret "s3cret": the header "Bearer s3cret" is let
through, the header "Bearer wrong" is answered with 401. -/
theorem middleware_rejects_bad_secret_witness :
    (middleware "s3cret" "Bearer s3cret").1 = none ∧
    middleware "s3cret" "Bearer wrong" = (some "Unauthorized", some ⟨401, "Unauthorized"⟩) :=
  ⟨(middleware_rejects_bad_secret "s3cret" "Bearer s3cret" (by decide)).1.2
      ⟨by decide, by decide⟩,
    (middleware_rejects_bad_secret "s3cret" "Bearer wrong" (by decide)).2.1
      (Or.inr (by decide))⟩

/-! ## Hiding a challenge and deleting a page -/

/-- A `Get` changes nothing but the trace. -/
theorem clusterGet_world (env : Env) (name : String) (w : World) :
    (clusterGet env name w).2 = w.record (.clusterGet name) := by
  unfold clusterGet
  split
  · rfl
  · split <;> rfl

/-- The client is built when the session opens; the access token is read on the
way. -/
theorem getCTFdClient_of_session {env : Env} {w : World}
    (hs : env.getNonceAndSession w.trace = none) :
    ∃ client, getCTFdClient env w =
      (.ok client, (w.record .getNonceAndSession).record (.clusterGet "ctfd-access-token")) := by
  simp only [getCTFdClient, callError, hs, getCTFdAccessToken, getConfigMap]
  have hw := clusterGet_world env "ctfd-access-token" (w.record .getNonceAndSession)
  cases hc : clusterGet env "ctfd-access-token" (w.record .getNonceAndSession) with
  | mk r w1 =>
    rw [hc] at hw
    cases hw
    cases r <;> exact ⟨_, rfl⟩

/-- No client is built when the session does not open. -/
theorem getCTFdClient_of_no_session {env : Env} {w : World} {e : String}
    (hs : env.getNonceAndSession w.trace = some e) :
    getCTFdClient env w = (.error e, w.record .getNonceAndSession) := by
  simp only [getCTFdClient, callError, hs]

/-- Reading a binding changes nothing but the trace. -/
theorem getUploadedCTFdChallenge_world (env : Env) (slug : String) (w : World) :
    (getUploadedCTFdChallenge env slug w).2 = w.record (.clusterGet "ctfd-challenges") := by
  have hw := clusterGet_world env "ctfd-challenges" w
  simp only [getUploadedCTFdChallenge, getUploadedCTFdChallenges, getConfigMap]
  cases hc : clusterGet env "ctfd-challenges" w with
  | mk r w1 =>
    rw [hc] at hw
    cases hw
    cases r with
    | error e => rfl
    | ok cm =>
      simp only []
      cases cm.Data <;> simp only [] <;> (repeat' split) <;> rfl

/-- Reading the binding of a bound challenge slug gives the bound id. -/
theorem getUploadedCTFdChallenge_bound (env : Env) (slug : String) {s : String} (w : World)
    (he : env.clusterGetError w.trace "ctfd-challenges" = none)
    (hb : challengeBinding w slug = some s) (h1 : s ≠ "") (h0 : s ≠ "0") :
    (getUploadedCTFdChallenge env slug w).1 = (s, none) := by
  simp only [challengeBinding, storedValue] at hb
  cases hc : w.cluster "ctfd-challenges" with
  | none => rw [hc] at hb; cases hb
  | some cm =>
    rw [hc] at hb
    simp only [] at hb
    simp only [getUploadedCTFdChallenge, getUploadedCTFdChallenges, getConfigMap,
      clusterGet_ok he hc]
    cases hd : cm.Data with
    | none => rw [hd] at hb; cases hb
    | some es =>
      rw [hd] at hb
      have hi : index (some es) slug = s := by simp only [index, hb, Option.getD_some]
      simp only [hb, hi, if_neg h0, if_neg h1]

/-- Reading a page binding changes nothing but the trace. -/
theorem getUploadedCTFdPage_world (env : Env) (slug : String) (w : World) :
    (getUploadedCTFdPage env slug w).2 = w.record (.clusterGet "ctfd-pages") := by
  have hw := clusterGet_world env "ctfd-pages" w
  simp only [getUploadedCTFdPage, getUploadedCTFdPages, getConfigMap]
  cases hc : clusterGet env "ctfd-pages" w with
  | mk r w1 =>
    rw [hc] at hw
    cases hw
    cases r with
    | error e => rfl
    | ok cm =>
      simp only []
      cases cm.Data <;> simp only [] <;> (repeat' split) <;> rfl

/-- Reading the binding of a page slug that is bound in a readable record: the bound
id, or the sentinel when the stored value is the empty string. -/
theorem getUploadedCTFdPage_bound (env : Env) (slug : String) {s : String} (w : World)
    (he : env.clusterGetError w.trace "ctfd-pages" = none)
    (hb : pageBinding w slug = some s) :
    (getUploadedCTFdPage env slug w).1 = (if s = "0" ∨ s = "" then "0" else s, none) := by
  simp only [pageBinding, storedValue] at hb
  cases hc : w.cluster "ctfd-pages" with
  | none => rw [hc] at hb; cases hb
  | some cm =>
    rw [hc] at hb
    simp only [] at hb
    simp only [getUploadedCTFdPage, getUploadedCTFdPages, getConfigMap, clusterGet_ok he hc]
    cases hd : cm.Data with
    | none => rw [hd] at hb; cases hb
    | some es =>
      rw [hd] at hb
      have hi : index (some es) slug = s := by simp only [index, hb, Option.getD_some]
      simp only [hb, hi]
      by_cases h0 : s = "0"
      · simp [h0]
      · by_cases h1 : s = ""
        · simp [h1]
        · simp [h0, h1]

/-- A successful `deleteUploadedCTFdPage` binds the slug to the sentinel and leaves
every other binding as it was. -/
theorem deleteUploadedCTFdPage_ok_inv {env : Env} {slug : String} {w w' : World}
    (h : deleteUploadedCTFdPage env slug w = (none, w')) (k' : String) :
    pageBinding w' k' = if k' = slug then some "0" else pageBinding w k' := by
  unfold deleteUploadedCTFdPage at h
  split at h
  · cases h
  · rename_i d w1 hg
    split at h
    · cases h
    · rename_i w2 hu
      cases h
      unfold getUploadedCTFdPages at hg
      split at hg
      · cases hg
      · rename_i cm w1' hgg
        obtain ⟨c0, hc0, hcm⟩ := clusterGet_ok_inv hgg
        have hd : cm.Data = c0.Data := by rw [hcm]
        have hdd : d = (match c0.Data with
            | none => GoMap.empty
            | some es => es) ∧ w1 = w1' := by
          rw [← hd]
          split at hg <;> (cases hg; simp_all)
        obtain ⟨hd1, hw⟩ := hdd
        subst hw
        have hs : w1.cluster = w.cluster := (clusterGet_frame hgg).1.1
        have hc1 : w1.cluster "ctfd-pages" = some c0 := by rw [hs, hc0]
        rw [hd1] at hu
        have := updateConfigMap_set_ok hc1 hu k'
        simp only [pageBinding]
        rw [this]
        simp only [storedValue, hs]

/-- The sentinel is written when the page record can be read and updated. -/
theorem deleteUploadedCTFdPage_succeeds {env : Env} (ha : RecordAvailable env "ctfd-pages")
    (slug : String) {w : World} {c : ConfigMap} (hc : w.cluster "ctfd-pages" = some c) :
    (deleteUploadedCTFdPage env slug w).1 = none := by
  simp only [deleteUploadedCTFdPage, getUploadedCTFdPages, getConfigMap,
    clusterGet_ok (ha.1 _) hc]
  have key : ∀ data : GoMap,
      (updateConfigMap env "ctfd-pages" data (w.record (.clusterGet "ctfd-pages"))).1 = none :=
    fun data => updateConfigMap_succeeds ha (c := c) (by simpa [World.record] using hc)
  cases c.Data with
  | none =>
    simp only []
    split
    · rename_i h; have := key (GoMap.empty.set slug "0"); rw [h] at this; cases this
    · rfl
  | some es =>
    simp only []
    split
    · rename_i h; have := key (es.set slug "0"); rw [h] at this; cases this
    · rfl

set_option maxRecDepth 100000 in
/-- C13, as stated, fails.  The slug `pwn-101` is bound to the remote id 7, but the
binding record cannot be read: `disableCTFdChallenge` returns no error and has issued
no patch.  And for a slug with no binding, when the content service opens no session,
it returns an error, after a call to the content service. -/
theorem disable_without_patch_or_with_error :
    challengeBinding (boundChallengeWorld "pwn-101" "7") "pwn-101" = some "7" ∧
    (disableCTFdChallenge (unreadableEnv "ctfd-challenges") pwn101
      (boundChallengeWorld "pwn-101" "7")).1 = none ∧
    (disableCTFdChallenge (unreadableEnv "ctfd-challenges") pwn101
      (boundChallengeWorld "pwn-101" "7")).2.trace =
      [.getNonceAndSession, .clusterGet "ctfd-access-token", .clusterGet "ctfd-challenges"] ∧
    challengeBinding demoWorld "pwn-101" = none ∧
    disableCTFdChallenge sessionDownEnv pwn101 demoWorld =
      (some "connection refused",
        { cluster := demoWorld.cluster, trace := [.getNonceAndSession], health := true }) := by
  refine ⟨by decide, by decide, by decide, by decide, ?_⟩
  rfl

/-- C13, amended: when the session with the content service opens.  For a challenge
whose slug is bound to a remote id that is not the sentinel and reads as the number
`b`, if the binding record can be read, `disableCTFdChallenge` makes these calls and
no other: the session bootstrap, the read of the access token, the read of the binding
record, and one patch of challenge `b` whose only field is the state "hidden"; it
returns what the patch returns, and the config maps, so the binding, are as before.
For a slug with no binding or the sentinel binding it makes the first three calls
only and returns no error. -/
theorem disable_is_hide_only (env : Env) (challenge : ChallengeConfig) (w : World)
    (hs : env.getNonceAndSession w.trace = none) :
    (∀ s b, challengeBinding w challenge.Challenge.Slug = some s → s ≠ "" → s ≠ "0" →
      atoi s = .ok b → (∀ t, env.clusterGetError t "ctfd-challenges" = none) →
      callsSince w (disableCTFdChallenge env challenge w).2 =
        [.getNonceAndSession, .clusterGet "ctfd-access-token", .clusterGet "ctfd-challenges",
          .patchChallengeState b { State := "hidden" }] ∧
      (disableCTFdChallenge env challenge w).2.cluster = w.cluster ∧
      challengeBinding (disableCTFdChallenge env challenge w).2 challenge.Challenge.Slug =
        some s ∧
      (disableCTFdChallenge env challenge w).1 =
        env.patchChallengeState
          (w.trace ++ [.getNonceAndSession, .clusterGet "ctfd-access-token",
            .clusterGet "ctfd-challenges"]) b { State := "hidden" }) ∧
    ((challengeBinding w challenge.Challenge.Slug = none ∨
        challengeBinding w challenge.Challenge.Slug = some "" ∨
        challengeBinding w challenge.Challenge.Slug = some "0") →
      (disableCTFdChallenge env challenge w).1 = none ∧
      callsSince w (disableCTFdChallenge env challenge w).2 =
        [.getNonceAndSession, .clusterGet "ctfd-access-token",
          .clusterGet "ctfd-challenges"] ∧
      (disableCTFdChallenge env challenge w).2.cluster = w.cluster) := by
  obtain ⟨client, hcl⟩ := getCTFdClient_of_session hs
  have hw := getUploadedCTFdChallenge_world env challenge.Challenge.Slug
    ((w.record .getNonceAndSession).record (.clusterGet "ctfd-access-token"))
  constructor
  · intro s b hb h1 h0 ha hr
    have hu1 := getUploadedCTFdChallenge_bound env challenge.Challenge.Slug
      ((w.record .getNonceAndSession).record (.clusterGet "ctfd-access-token"))
      (hr _) hb h1 h0
    have hu : getUploadedCTFdChallenge env challenge.Challenge.Slug
        ((w.record .getNonceAndSession).record (.clusterGet "ctfd-access-token")) =
        ((s, none), ((w.record .getNonceAndSession).record
          (.clusterGet "ctfd-access-token")).record (.clusterGet "ctfd-challenges")) :=
      Prod.ext hu1 hw
    have e : disableCTFdChallenge env challenge w =
        callError (.patchChallengeState b { State := "hidden" })
          (fun t => env.patchChallengeState t b { State := "hidden" })
          (((w.record .getNonceAndSession).record (.clusterGet "ctfd-access-token")).record
            (.clusterGet "ctfd-challenges")) := by
      simp only [disableCTFdChallenge, hcl, hu, ha]
      rw [if_neg (by simp [h1, h0])]
    rw [e]
    refine ⟨by simp [callsSince, callError, World.record], rfl, hb, ?_⟩
    simp [callError, World.record]
  · intro hb
    cases hr : getUploadedCTFdChallenge env challenge.Challenge.Slug
      ((w.record .getNonceAndSession).record (.clusterGet "ctfd-access-token")) with
    | mk r w2 =>
      have hid := getUploadedCTFdChallenge_unbound (w := w)
        (show ((w.record .getNonceAndSession).record
          (.clusterGet "ctfd-access-token")).cluster = w.cluster from rfl) hb hr
      rw [hr] at hw
      cases hw
      have e : disableCTFdChallenge env challenge w =
          (none, ((w.record .getNonceAndSession).record (.clusterGet "ctfd-access-token")).record
            (.clusterGet "ctfd-challenges")) := by
        simp only [disableCTFdChallenge, hcl, hr]
        rw [if_pos (Or.inr hid)]
        rfl
      rw [e]
      exact ⟨rfl, by simp [callsSince, World.record], rfl⟩

set_option maxRecDepth 100000 in
/-- C13, amended, on the slug `pwn-101` bound to the remote id 7: one patch of
challenge 7 to the state "hidden", no error, and the slug is still bound to 7. -/
theorem disable_is_hide_only_witness :
    (disableCTFdChallenge demoEnv pwn101 (boundChallengeWorld "pwn-101" "7")).2.trace =
      [.getNonceAndSession, .clusterGet "ctfd-access-token", .clusterGet "ctfd-challenges",
        .patchChallengeState 7 { State := "hidden" }] ∧
    challengeBinding (disableCTFdChallenge demoEnv pwn101
      (boundChallengeWorld "pwn-101" "7")).2 "pwn-101" = some "7" ∧
    (disableCTFdChallenge demoEnv pwn101 (boundChallengeWorld "pwn-101" "7")).1 = none :=
  ⟨((disable_is_hide_only demoEnv pwn101 (boundChallengeWorld "pwn-101" "7") rfl).1 "7" 7
      (by decide) (by decide) (by decide) (by decide) (fun _ => rfl)).1,
    ((disable_is_hide_only demoEnv pwn101 (boundChallengeWorld "pwn-101" "7") rfl).1 "7" 7
      (by decide) (by decide) (by decide) (by decide) (fun _ => rfl)).2.2.1,
    by decide⟩

set_option maxRecDepth 100000 in
/-- C15, as stated, fails.  The slug `rules` is bound to the remote id 5 and the
remote delete succeeds, but the cluster refuses the update of the binding record:
`deleteCTFdPage` has deleted the remote page 5, returns an error, and the slug is
still bound to 5.  And for a slug bound to the sentinel, when the content service
opens no session, it returns an error, after a call to the content service. -/
theorem delete_page_keeps_binding_when_update_fails :
    pageBinding (boundPageWorld "rules" "5") "rules" = some "5" ∧
    (readOnlyEnv "ctfd-pages").deletePage
      [.getNonceAndSession, .clusterGet "ctfd-access-token", .clusterGet "ctfd-pages"] "5" =
      none ∧
    .deletePage "5" ∈
      (deleteCTFdPage (readOnlyEnv "ctfd-pages") "rules" (boundPageWorld "rules" "5")).2.trace ∧
    (deleteCTFdPage (readOnlyEnv "ctfd-pages") "rules" (boundPageWorld "rules" "5")).1 =
      some "error updating CTFd pages configmap" ∧
    pageBinding
      (deleteCTFdPage (readOnlyEnv "ctfd-pages") "rules" (boundPageWorld "rules" "5")).2
      "rules" = some "5" ∧
    pageBinding (boundPageWorld "rules" "0") "rules" = some "0" ∧
    (deleteCTFdPage sessionDownEnv "rules" (boundPageWorld "rules" "0")).1 =
      some "failed to get CTFd client: connection refused" ∧
    (deleteCTFdPage sessionDownEnv "rules" (boundPageWorld "rules" "0")).2.trace =
      [.getNonceAndSession] := by
  refine ⟨by decide, by decide, by decide, by decide, by decide, by decide, by decide,
    by decide⟩

/-- C15, amended: when the session with the content service opens and the page
binding record can be read and updated.  For a page slug bound to a remote id `b` that
is not the sentinel, when the remote delete succeeds, `deleteCTFdPage` returns no
error, its calls are the session bootstrap, the read of the access token, the read of
the binding record, the delete of remote page `b`, and then calls that write no remote
entity; afterwards the slug is bound to the sentinel "0" and every other slug is bound
as before.  For a slug bound to the sentinel (or to the empty string) it makes the
first three calls only and returns no error. -/
theorem deleteCTFdPage_resets_binding (env : Env) (pageSlug : String) (w : World)
    (hs : env.getNonceAndSession w.trace = none) (ha : RecordAvailable env "ctfd-pages") :
    (∀ b, pageBinding w pageSlug = some b → b ≠ "" → b ≠ "0" →
      (∀ t, env.deletePage t b = none) →
      (deleteCTFdPage env pageSlug w).1 = none ∧
      (∃ rest, callsSince w (deleteCTFdPage env pageSlug w).2 =
          [.getNonceAndSession, .clusterGet "ctfd-access-token", .clusterGet "ctfd-pages",
            .deletePage b] ++ rest ∧ ∀ c ∈ rest, c.isEntityCall = false) ∧
      pageBinding (deleteCTFdPage env pageSlug w).2 pageSlug = some "0" ∧
      ∀ other, other ≠ pageSlug →
        pageBinding (deleteCTFdPage env pageSlug w).2 other = pageBinding w other) ∧
    ((pageBinding w pageSlug = some "0" ∨ pageBinding w pageSlug = some "") →
      (deleteCTFdPage env pageSlug w).1 = none ∧
      callsSince w (deleteCTFdPage env pageSlug w).2 =
        [.getNonceAndSession, .clusterGet "ctfd-access-token", .clusterGet "ctfd-pages"] ∧
      (deleteCTFdPage env pageSlug w).2.cluster = w.cluster) := by
  obtain ⟨client, hcl⟩ := getCTFdClient_of_session hs
  have hw := getUploadedCTFdPage_world env pageSlug
    ((w.record .getNonceAndSession).record (.clusterGet "ctfd-access-token"))
  constructor
  · intro b hb h1 h0 hdel
    have hu1 := getUploadedCTFdPage_bound env pageSlug
      ((w.record .getNonceAndSession).record (.clusterGet "ctfd-access-token"))
      (ha.1 _) hb
    rw [if_neg (by simp [h1, h0])] at hu1
    have hu : getUploadedCTFdPage env pageSlug
        ((w.record .getNonceAndSession).record (.clusterGet "ctfd-access-token")) =
        ((b, none), ((w.record .getNonceAndSession).record
          (.clusterGet "ctfd-access-token")).record (.clusterGet "ctfd-pages")) :=
      Prod.ext hu1 hw
    have e : deleteCTFdPage env pageSlug w =
        deleteUploadedCTFdPage env pageSlug
          ((((w.record .getNonceAndSession).record (.clusterGet "ctfd-access-token")).record
            (.clusterGet "ctfd-pages")).record (.deletePage b)) := by
      simp only [deleteCTFdPage, hcl, hu, callError, hdel]
      rw [if_neg h0]
    have hrec : ∃ c, w.cluster "ctfd-pages" = some c := by
      simp only [pageBinding, storedValue] at hb
      cases hc : w.cluster "ctfd-pages" with
      | none => rw [hc] at hb; cases hb
      | some c => exact ⟨c, rfl⟩
    obtain ⟨c, hc⟩ := hrec
    have hok := deleteUploadedCTFdPage_succeeds ha pageSlug
      (w := (((w.record .getNonceAndSession).record (.clusterGet "ctfd-access-token")).record
        (.clusterGet "ctfd-pages")).record (.deletePage b)) (c := c) hc
    have hrun : deleteUploadedCTFdPage env pageSlug
        ((((w.record .getNonceAndSession).record (.clusterGet "ctfd-access-token")).record
          (.clusterGet "ctfd-pages")).record (.deletePage b)) =
        (none, (deleteUploadedCTFdPage env pageSlug
          ((((w.record .getNonceAndSession).record (.clusterGet "ctfd-access-token")).record
            (.clusterGet "ctfd-pages")).record (.deletePage b))).2) := Prod.ext hok rfl
    have inv := deleteUploadedCTFdPage_ok_inv hrun
    obtain ⟨rest, hrest, hq⟩ := (deleteUploadedCTFdPage_frame hrun).2
    rw [e]
    refine ⟨hok, ⟨rest, ?_, hq⟩, ?_, ?_⟩
    · rw [callsSince, hrest]
      simp [World.record]
    · rw [inv pageSlug, if_pos rfl]
    · intro other ho
      rw [inv other, if_neg ho]
      rfl
  · intro hb
    have hu1 : (getUploadedCTFdPage env pageSlug
        ((w.record .getNonceAndSession).record (.clusterGet "ctfd-access-token"))).1 =
        ("0", none) := by
      rcases hb with hb | hb
      · have := getUploadedCTFdPage_bound env pageSlug
          ((w.record .getNonceAndSession).record (.clusterGet "ctfd-access-token"))
          (ha.1 _) hb
        rw [if_pos (Or.inl rfl)] at this
        exact this
      · have := getUploadedCTFdPage_bound env pageSlug
          ((w.record .getNonceAndSession).record (.clusterGet "ctfd-access-token"))
          (ha.1 _) hb
        rw [if_pos (Or.inr rfl)] at this
        exact this
    have hu : getUploadedCTFdPage env pageSlug
        ((w.record .getNonceAndSession).record (.clusterGet "ctfd-access-token")) =
        (("0", none), ((w.record .getNonceAndSession).record
          (.clusterGet "ctfd-access-token")).record (.clusterGet "ctfd-pages")) :=
      Prod.ext hu1 hw
    have e : deleteCTFdPage env pageSlug w =
        (none, ((w.record .getNonceAndSession).record (.clusterGet "ctfd-access-token")).record
          (.clusterGet "ctfd-pages")) := by
      simp only [deleteCTFdPage, hcl, hu]
      rfl
    rw [e]
    exact ⟨rfl, by simp [callsSince, World.record], rfl⟩

set_option maxRecDepth 100000 in
/-- C15, amended, on the slug `rules` bound to the remote id 5: the remote page 5 is
deleted, the slug is then bound to the sentinel, and the slug `about` is still bound
to 9. -/
theorem deleteCTFdPage_resets_binding_witness :
    (deleteCTFdPage demoEnv "rules" (boundPageWorld "rules" "5")).1 = none ∧
    pageBinding (deleteCTFdPage demoEnv "rules" (boundPageWorld "rules" "5")).2 "rules" =
      some "0" ∧
    pageBinding (deleteCTFdPage demoEnv "rules" (boundPageWorld "rules" "5")).2 "about" =
      some "9" ∧
    .deletePage "5" ∈ (deleteCTFdPage demoEnv "rules" (boundPageWorld "rules" "5")).2.trace :=
  ⟨((deleteCTFdPage_resets_binding demoEnv "rules" (boundPageWorld "rules" "5") rfl
      ⟨fun _ => rfl, fun _ _ _ => rfl⟩).1 "5" (by decide) (by decide) (by decide)
      (fun _ => rfl)).1,
    ((deleteCTFdPage_resets_binding demoEnv "rules" (boundPageWorld "rules" "5") rfl
      ⟨fun _ => rfl, fun _ _ _ => rfl⟩).1 "5" (by decide) (by decide) (by decide)
      (fun _ => rfl)).2.2.1,
    by decide, by decide⟩

/-! ## Create or patch -/

set_option maxRecDepth 100000 in
/-- C12: the page slug `rules` is bound to the remote id 5 and the content service has
no such page any more.  `uploadOrUpdateCTFdPage` makes four calls: the session
bootstrap, the read of the access token, the read of the binding record and the patch
of page 5; it lists no remote pages, makes no create call, and returns the error of the
patch.  When the patch succeeds the calls are the same four: the binding record is not
written. -/
theorem page_update_has_no_fallback :
    pageBinding (boundPageWorld "rules" "5") "rules" = some "5" ∧
    (uploadOrUpdateCTFdPage pageGoneEnv demoPage (boundPageWorld "rules" "5")).1 =
      .error "failed to upload or update CTFd page: failed to update CTFd page: 404 not found" ∧
    (uploadOrUpdateCTFdPage pageGoneEnv demoPage (boundPageWorld "rules" "5")).2.trace =
      [.getNonceAndSession, .clusterGet "ctfd-access-token", .clusterGet "ctfd-pages",
        .patchPage "5" (patchPageParamsFromPage demoPage)] ∧
    (uploadOrUpdateCTFdPage demoEnv demoPage (boundPageWorld "rules" "5")).1 = .ok 7 ∧
    (uploadOrUpdateCTFdPage demoEnv demoPage (boundPageWorld "rules" "5")).2.trace =
      [.getNonceAndSession, .clusterGet "ctfd-access-token", .clusterGet "ctfd-pages",
        .patchPage "5" (patchPageParamsFromPage demoPage)] ∧
    pageBinding (uploadOrUpdateCTFdPage demoEnv demoPage (boundPageWorld "rules" "5")).2
      "rules" = some "5" := by
  refine ⟨by decide, by decide, by decide, by decide, by decide, by decide⟩

/-- The mapping map is read when the cluster returns it and it decodes. -/
theorem getMappingMap_of_readable (env : Env) (w : World) {mc : ConfigMap} {m : MappingMap}
    (he : env.clusterGetError w.trace "mapping-map" = none)
    (hc : w.cluster "mapping-map" = some mc) (hd : decodeMappingMap env mc.Data = .ok m) :
    getMappingMap env w = (.ok m, w.record (.clusterGet "mapping-map")) := by
  simp only [getMappingMap, clusterGet_ok he hc, hd]

/-- The upload path makes exactly one create call once the mapping map is read. -/
theorem uploadCTFdChallenge_one_of_mapping {env : Env} {challenge : ChallengeConfig}
    {client : Client} {w w' : World} {r : Result Int} {m : MappingMap}
    (hm : (getMappingMap env w).1 = .ok m)
    (h : uploadCTFdChallenge env challenge client w = (r, w')) :
    OneCall Call.isCreate w w' := by
  unfold uploadCTFdChallenge at h
  split at h
  · rename_i hg; rw [hg] at hm; cases hm
  · rename_i hg
    have p1 := getMappingMap_frame hg
    split at h
    · rename_i hc
      cases h
      exact p1.2.then_one (createChallenge_frame hc).2
    · rename_i hc
      have o2 := p1.2.then_one (createChallenge_frame hc).2
      split at h
      pick_goal 3
      · rename_i hf
        cases h
        exact o2.then_quiet_one (uploadCTFdChallengeFile_frame hf).2
      · rename_i hf
        cases h
        exact o2.then_quiet_one (uploadCTFdChallengeFile_frame hf).2
      · rename_i hf
        have o3 := o2.then_quiet_one (uploadCTFdChallengeFile_frame hf).2
        split at h
        · rename_i hg2
          cases h
          exact o3.then_quiet_one (uploadFlags_frame _ hg2).2
        · rename_i hg2
          have o4 := o3.then_quiet_one (uploadFlags_frame _ hg2).2
          split at h <;>
            (rename_i hset
             cases h
             exact (o4.then_quiet_one (uploadTags_frame _ _).2).then_quiet_one
               (setUploadedCTFdChallenge_frame hset).2)

/-- The listing of the remote challenges, when the session opens: the answer of the
content service. -/
theorem getCTFdChallenges_of_session (env : Env) (w : World)
    (hs : env.getNonceAndSession w.trace = none) :
    (getCTFdChallenges env w).1 =
      env.getChallenges
        ((w.record .getNonceAndSession).record (.clusterGet "ctfd-access-token")).trace := by
  obtain ⟨client, hcl⟩ := getCTFdClient_of_session hs
  simp only [getCTFdChallenges, hcl, callValue]
  cases env.getChallenges
    ((w.record .getNonceAndSession).record (.clusterGet "ctfd-access-token")).trace <;> rfl

/-- The patch call of the update path goes to the challenge whose id was read. -/
theorem patchChallengeCall_targets {env : Env} {challenge : ChallengeConfig} {sid : String}
    {id : Int} {params : PatchChallengeParams} {w w' : World} {r : Except String Int}
    (ha : atoi sid = .ok id)
    (h : patchChallengeCall env challenge sid id params w = (r, w')) :
    OneCall (Call.patchesChallenge id) w w' := by
  unfold patchChallengeCall at h
  split at h
  · exact (callValue_one (c := .patchKubeCTFChallenge _ _) (Call.patchesChallenge id) h
      (by simp [Call.patchesChallenge, ha])).2
  · exact (callValue_one (c := .patchChallenge _ _) (Call.patchesChallenge id) h
      (by simp [Call.patchesChallenge])).2

/-- The update path patches the bound challenge when the listing holds its id. -/
theorem updateCTFdChallenge_patches {env : Env} {challenge : ChallengeConfig}
    {client : Client} {w0 w w' : World} {r : Result Int} {s : String} {b : Int}
    {l : List Int} {mc : ConfigMap} {m : MappingMap}
    (hs : ∀ t, env.getNonceAndSession t = none)
    (hr : ∀ t, env.clusterGetError t "ctfd-challenges" = none)
    (hmr : ∀ t, env.clusterGetError t "mapping-map" = none)
    (hmc : w0.cluster "mapping-map" = some mc) (hdec : decodeMappingMap env mc.Data = .ok m)
    (hcl : w.cluster = w0.cluster)
    (hb : challengeBinding w0 challenge.Challenge.Slug = some s) (h1 : s ≠ "") (h0 : s ≠ "0")
    (ha : atoi s = .ok b) (hl : ∀ t, env.getChallenges t = .ok l) (hmem : b ∈ l)
    (h : updateCTFdChallenge env challenge client w = (r, w')) :
    OneCall (Call.patchesChallenge b) w w' := by
  have hbw : challengeBinding w challenge.Challenge.Slug = some s := by
    simp only [challengeBinding, storedValue, hcl] at hb ⊢
    exact hb
  have hu1 := getUploadedCTFdChallenge_bound env _ w (hr _) hbw h1 h0
  unfold updateCTFdChallenge at h
  split at h
  · rename_i h2; rw [h2] at hu1; cases hu1
  · rename_i sid w1 h2
    rw [h2] at hu1
    cases hu1
    have p1 := getUploadedCTFdChallenge_frame h2
    rw [ha] at h
    simp only [] at h
    have hg := getCTFdChallenges_of_session env w1 (hs _)
    rw [hl] at hg
    split at h
    · rename_i h3; rw [h3] at hg; cases hg
    · rename_i l2 w2 h3
      rw [h3] at hg
      cases hg
      have p2 := p1.trans_plumb (getCTFdChallenges_frame h3)
      have hne : ¬ l.length = 0 := by
        intro e
        rw [List.length_eq_zero] at e
        rw [e] at hmem
        cases hmem
      rw [if_neg hne] at h
      have hc : ¬ (!l.contains b) = true := by simp [hmem]
      rw [if_neg hc] at h
      have hm := getMappingMap_of_readable env w2 (hmr _)
        (by rw [p2.1.1, hcl]; exact hmc) hdec
      rw [hm] at h
      simp only [] at h
      have p3 : Quiet w (w2.record (.clusterGet "mapping-map")) :=
        p2.2.trans_quiet (Quiet.record_quiet w2 (.clusterGet "mapping-map") rfl)
      split at h
      · rename_i h4
        cases h
        exact p3.then_one (patchChallengeCall_targets ha h4)
      · rename_i h4
        exact (p3.then_one (patchChallengeCall_targets ha h4)).then_quiet_one
          (replaceSubResources_frame h).2

/-- The update path goes to the upload path when the listing fails or lacks the
bound id. -/
theorem updateCTFdChallenge_falls_back {env : Env} {challenge : ChallengeConfig}
    {client : Client} {w0 w w' : World} {r : Result Int} {s : String} {b : Int}
    (hs : ∀ t, env.getNonceAndSession t = none)
    (hr : ∀ t, env.clusterGetError t "ctfd-challenges" = none)
    (hcl : w.cluster = w0.cluster)
    (hb : challengeBinding w0 challenge.Challenge.Slug = some s) (h1 : s ≠ "") (h0 : s ≠ "0")
    (ha : atoi s = .ok b)
    (hl : (∀ t, ∃ e, env.getChallenges t = .error e) ∨
      ∃ l, (∀ t, env.getChallenges t = .ok l) ∧ b ∉ l)
    (h : updateCTFdChallenge env challenge client w = (r, w')) :
    ∃ w2, Plumb w w2 ∧ uploadCTFdChallenge env challenge client w2 = (r, w') := by
  have hbw : challengeBinding w challenge.Challenge.Slug = some s := by
    simp only [challengeBinding, storedValue, hcl] at hb ⊢
    exact hb
  have hu1 := getUploadedCTFdChallenge_bound env _ w (hr _) hbw h1 h0
  unfold updateCTFdChallenge at h
  split at h
  · rename_i h2; rw [h2] at hu1; cases hu1
  · rename_i sid w1 h2
    rw [h2] at hu1
    cases hu1
    have p1 := getUploadedCTFdChallenge_frame h2
    rw [ha] at h
    simp only [] at h
    have hg := getCTFdChallenges_of_session env w1 (hs _)
    split at h
    · rename_i h3
      exact ⟨_, p1.trans_plumb (getCTFdChallenges_frame h3), h⟩
    · rename_i l2 w2 h3
      have p2 := p1.trans_plumb (getCTFdChallenges_frame h3)
      rw [h3] at hg
      rcases hl with hl | ⟨l, hl, hmem⟩
      · obtain ⟨e, he⟩ := hl
          ((w1.record .getNonceAndSession).record (.clusterGet "ctfd-access-token")).trace
        rw [he] at hg
        cases hg
      · rw [hl] at hg
        cases hg
        split at h
        · exact ⟨_, p2, h⟩
        · have hc : (!(List.contains l2 b)) = true := by simp [hmem]
          rw [if_pos hc] at h
          exact ⟨_, p2, h⟩

set_option maxRecDepth 100000 in
/-- C11, as stated, fails.  The slug `pwn-101` is bound to the remote id 7 and 7 is in
the remote listing.  When the binding record cannot be read, the upsert makes a create
call and no patch.  When the cluster holds no mapping map, the upsert returns an error
and has made neither a patch nor a create. -/
theorem bound_and_listed_yet_not_patched :
    challengeBinding (boundChallengeWorld "pwn-101" "7") "pwn-101" = some "7" ∧
    (unreadableEnv "ctfd-challenges").getChallenges [] = .ok [7] ∧
    ((updateOrCreateCTFdChallenge (unreadableEnv "ctfd-challenges") pwn101
      (boundChallengeWorld "pwn-101" "7")).2.trace.countP Call.isCreate = 1 ∧
     (updateOrCreateCTFdChallenge (unreadableEnv "ctfd-challenges") pwn101
      (boundChallengeWorld "pwn-101" "7")).2.trace.countP Call.isPatch = 0) ∧
    challengeBinding unmappedWorld "pwn-101" = some "7" ∧
    (updateOrCreateCTFdChallenge demoEnv pwn101 unmappedWorld).1 =
      .error "error getting mapping map" ∧
    (updateOrCreateCTFdChallenge demoEnv pwn101 unmappedWorld).2.trace.countP
      Call.isUpsert = 0 := by
  refine ⟨by decide, by decide, ⟨by decide, by decide⟩, by decide, by decide, by decide⟩

/-- C11, amended: when the session with the content service opens, the binding record
is read, and the mapping map is read and decodes.  For a challenge whose slug is bound
to a remote id that is not the sentinel and reads as the number `b`: if the remote
listing holds `b`, `updateOrCreateCTFdChallenge` makes exactly one remote write, a
patch of challenge `b`, and no create; if the listing fails or does not hold `b`, it
makes exactly one remote write, a create, and no patch.  For a slug with no binding or
the sentinel binding it makes exactly one remote write, a create. -/
theorem create_versus_patch_decision (env : Env) (challenge : ChallengeConfig) (w : World)
    (mc : ConfigMap) (m : MappingMap)
    (hs : ∀ t, env.getNonceAndSession t = none)
    (hr : ∀ t, env.clusterGetError t "ctfd-challenges" = none)
    (hmr : ∀ t, env.clusterGetError t "mapping-map" = none)
    (hmc : w.cluster "mapping-map" = some mc) (hdec : decodeMappingMap env mc.Data = .ok m) :
    (∀ s b, challengeBinding w challenge.Challenge.Slug = some s → s ≠ "" → s ≠ "0" →
      atoi s = .ok b →
      (∀ l, (∀ t, env.getChallenges t = .ok l) → b ∈ l →
        OneCall (Call.patchesChallenge b) w (updateOrCreateCTFdChallenge env challenge w).2 ∧
        (callsSince w (updateOrCreateCTFdChallenge env challenge w).2).countP
          Call.isCreate = 0) ∧
      (((∀ t, ∃ e, env.getChallenges t = .error e) ∨
          ∃ l, (∀ t, env.getChallenges t = .ok l) ∧ b ∉ l) →
        OneCall Call.isCreate w (updateOrCreateCTFdChallenge env challenge w).2 ∧
        (callsSince w (updateOrCreateCTFdChallenge env challenge w).2).countP
          Call.isPatch = 0)) ∧
    ((challengeBinding w challenge.Challenge.Slug = none ∨
        challengeBinding w challenge.Challenge.Slug = some "" ∨
        challengeBinding w challenge.Challenge.Slug = some "0") →
      OneCall Call.isCreate w (updateOrCreateCTFdChallenge env challenge w).2 ∧
      (callsSince w (updateOrCreateCTFdChallenge env challenge w).2).countP
        Call.isPatch = 0) := by
  have hcreate : ∀ {a b : World}, OneCall Call.isCreate a b →
      OneCall Call.isCreate a b ∧ (callsSince a b).countP Call.isPatch = 0 := by
    intro a b h
    refine ⟨h, h.countP_eq_zero_one Call.isPatch ?_ ?_⟩
    · intro c hc; cases c <;> simp_all [Call.isPatch, Call.isEntityCall]
    · intro c hc; cases c <;> simp_all [Call.isPatch, Call.isCreate]
  have hmap : ∀ v : World, v.cluster "mapping-map" = w.cluster "mapping-map" →
      (getMappingMap env v).1 = .ok m := by
    intro v hv
    rw [getMappingMap_of_readable env v (hmr _) (by rw [hv]; exact hmc) hdec]
  obtain ⟨client, hclient⟩ := getCTFdClient_of_session (hs w.trace)
  have pc := getCTFdClient_frame hclient
  cases hrun : updateOrCreateCTFdChallenge env challenge w with
  | mk r w' =>
    simp only []
    cases hget : getUploadedCTFdChallenge env challenge.Challenge.Slug
      ((w.record .getNonceAndSession).record (.clusterGet "ctfd-access-token")) with
    | mk re w2 =>
    obtain ⟨sid, err⟩ := re
    have hrun2 := hrun
    simp only [updateOrCreateCTFdChallenge, hclient, hget] at hrun2
    have p2 := pc.trans_plumb (getUploadedCTFdChallenge_frame hget)
    constructor
    · intro s b hb h1 h0 ha
      have hu1 := getUploadedCTFdChallenge_bound env _
        ((w.record .getNonceAndSession).record (.clusterGet "ctfd-access-token"))
        (hr _) hb h1 h0
      rw [hget] at hu1
      cases hu1
      rw [if_neg (by simp [h1, h0])] at hrun2
      constructor
      · intro l hl hmem
        have o := p2.2.then_one
          (updateCTFdChallenge_patches hs hr hmr hmc hdec p2.1.1 hb h1 h0 ha hl hmem hrun2)
        refine ⟨o, o.countP_eq_zero_one Call.isCreate ?_ ?_⟩
        · intro c hc; cases c <;> simp_all [Call.isCreate, Call.isEntityCall]
        · intro c hc; cases c <;> simp_all [Call.patchesChallenge, Call.isCreate]
      · intro hl
        obtain ⟨w3, p3, hup⟩ :=
          updateCTFdChallenge_falls_back hs hr p2.1.1 hb h1 h0 ha hl hrun2
        have p4 := p2.trans_plumb p3
        exact hcreate (p4.2.then_one
          (uploadCTFdChallenge_one_of_mapping (hmap w3 (by rw [p4.1.1])) hup))
    · intro hb
      have hid := getUploadedCTFdChallenge_unbound (w := w)
        (show ((w.record .getNonceAndSession).record
          (.clusterGet "ctfd-access-token")).cluster = w.cluster from rfl) hb hget
      rw [if_pos hid] at hrun2
      exact hcreate (p2.2.then_one
        (uploadCTFdChallenge_one_of_mapping (hmap w2 (by rw [p2.1.1])) hrun2))

set_option maxRecDepth 100000 in
/-- C11, amended, on the slug `pwn-101` bound to the remote id 7, which is in the
listing: the upsert patches challenge 7 and creates nothing. -/
theorem create_versus_patch_decision_witness :
    OneCall (Call.patchesChallenge 7) (boundChallengeWorld "pwn-101" "7")
      (updateOrCreateCTFdChallenge demoEnv pwn101 (boundChallengeWorld "pwn-101" "7")).2 ∧
    (callsSince (boundChallengeWorld "pwn-101" "7")
      (updateOrCreateCTFdChallenge demoEnv pwn101
        (boundChallengeWorld "pwn-101" "7")).2).countP Call.isCreate = 0 ∧
    .patchChallenge 7 (patchParamsOf pwn101 ⟨GoMap.empty, GoMap.empty, GoMap.empty⟩) ∈
      (updateOrCreateCTFdChallenge demoEnv pwn101 (boundChallengeWorld "pwn-101" "7")).2.trace :=
  ⟨(((create_versus_patch_decision demoEnv pwn101 (boundChallengeWorld "pwn-101" "7")
      ⟨"mapping-map", GoMap.empty, none⟩ ⟨GoMap.empty, GoMap.empty, GoMap.empty⟩
      (fun _ => rfl) (fun _ => rfl) (fun _ => rfl) (by decide) (by decide)).1 "7" 7
      (by decide) (by decide) (by decide) (by decide)).1 [7] (fun _ => rfl) (by decide)).1,
    (((create_versus_patch_decision demoEnv pwn101 (boundChallengeWorld "pwn-101" "7")
      ⟨"mapping-map", GoMap.empty, none⟩ ⟨GoMap.empty, GoMap.empty, GoMap.empty⟩
      (fun _ => rfl) (fun _ => rfl) (fun _ => rfl) (by decide) (by decide)).1 "7" 7
      (by decide) (by decide) (by decide) (by decide)).1 [7] (fun _ => rfl) (by decide)).2,
    by decide⟩

/-! ## A failed remote call ends the upsert -/

theorem Harmless.refl_harmless (w : World) : Harmless w w := ⟨[], by simp, by simp⟩

theorem Harmless.trans_harmless {a b c : World} (h1 : Harmless a b) (h2 : Harmless b c) :
    Harmless a c := by
  obtain ⟨x, hx, px⟩ := h1
  obtain ⟨y, hy, py⟩ := h2
  refine ⟨x ++ y, by rw [hy, hx, List.append_assoc], ?_⟩
  intro c hc
  rcases List.mem_append.1 hc with h | h
  · exact px c h
  · exact py c h

theorem Harmless.record_harmless (w : World) (c : Call) (h : c.aborts = false) :
    Harmless w (w.record c) :=
  ⟨[c], rfl, by simpa using h⟩

theorem Harmless.failFast {w w' : World} (h : Harmless w w') (env : Env) (ok : Bool) :
    FailFast env ok w w' := by
  obtain ⟨added, ha, hq⟩ := h
  refine ⟨added, ha, ?_⟩
  intro pre c post e hc _
  have := hq c (by rw [e]; simp)
  rw [hc] at this
  cases this

/-- A part that succeeded, followed by another part. -/
theorem FailFast.seq {env : Env} {ok : Bool} {a b c : World} (h1 : FailFast env true a b)
    (h2 : FailFast env ok b c) : FailFast env ok a c := by
  obtain ⟨x, hx, px⟩ := h1
  obtain ⟨y, hy, py⟩ := h2
  refine ⟨x ++ y, by rw [hy, hx, List.append_assoc], ?_⟩
  intro pre k post e hk hf
  rcases List.append_eq_append_iff.1 e with ⟨a', e1, e2⟩ | ⟨c', e1, e2⟩
  · apply py a' k post e2 hk
    rw [hx, List.append_assoc, ← e1]
    exact hf
  · cases c' with
    | nil =>
      simp only [List.nil_append, List.append_nil] at e1 e2
      apply py [] k post e2.symm hk
      rw [hx, List.append_nil, e1]
      exact hf
    | cons k' rest =>
      simp only [List.cons_append, List.cons.injEq] at e2
      obtain ⟨ek, _⟩ := e2
      subst ek
      have := (px pre k rest e1 hk hf).2
      cases this

theorem FailFast.of_call {env : Env} {ok : Bool} (w : World) (c : Call)
    (h : c.aborts = true → c.failsIn env w.trace = true → ok = false) :
    FailFast env ok w (w.record c) := by
  refine ⟨[c], rfl, ?_⟩
  intro pre k post e hk hf
  cases pre with
  | nil =>
    simp only [List.nil_append, List.cons.injEq] at e
    obtain ⟨e1, e2⟩ := e
    subst e1
    rw [List.append_nil] at hf
    exact ⟨e2.symm, h hk hf⟩
  | cons p rest =>
    simp only [List.cons_append, List.cons.injEq] at e
    have := e.2
    cases rest <;> simp at this

theorem callValue_failFast {α : Type} {env : Env} {c : Call}
    {answer : List Call → Except String α} {w w' : World} {r : Except String α}
    (h : callValue c answer w = (r, w'))
    (hfa : ∀ t, c.failsIn env t = !succeeded (answer t)) : FailFast env (succeeded r) w w' := by
  unfold callValue at h
  cases h
  apply FailFast.of_call
  intro _ hf
  rw [hfa] at hf
  simpa using hf

theorem callError_failFast {env : Env} {c : Call} {answer : List Call → GoError}
    {w w' : World} {r : GoError} (h : callError c answer w = (r, w'))
    (hfa : ∀ t, c.failsIn env t = (answer t).isSome) : FailFast env r.isNone w w' := by
  unfold callError at h
  cases h
  apply FailFast.of_call
  intro _ hf
  rw [hfa] at hf
  cases hq : answer w.trace <;> simp_all

theorem callValue_failed {α : Type} {env : Env} {c : Call}
    {answer : List Call → Except String α} {w w' : World} {e : String}
    (h : callValue c answer w = (.error e, w'))
    (hfa : ∀ t, c.failsIn env t = !succeeded (answer t)) : FailFast env false w w' :=
  callValue_failFast h hfa

theorem callValue_passed {α : Type} {env : Env} {c : Call}
    {answer : List Call → Except String α} {w w' : World} {v : α}
    (h : callValue c answer w = (.ok v, w'))
    (hfa : ∀ t, c.failsIn env t = !succeeded (answer t)) : FailFast env true w w' :=
  callValue_failFast h hfa

theorem callValue_harmless {α : Type} {c : Call} {answer : List Call → Except String α}
    {w w' : World} {r : Except String α} (h : callValue c answer w = (r, w'))
    (hc : c.aborts = false) : Harmless w w' := by
  unfold callValue at h
  cases h
  exact Harmless.record_harmless w c hc

theorem callError_harmless {c : Call} {answer : List Call → GoError}
    {w w' : World} {r : GoError} (h : callError c answer w = (r, w'))
    (hc : c.aborts = false) : Harmless w w' := by
  unfold callError at h
  cases h
  exact Harmless.record_harmless w c hc

theorem clusterGet_harmless {env : Env} {name : String} {w w' : World}
    {r : Except String ConfigMap} (h : clusterGet env name w = (r, w')) : Harmless w w' := by
  have := clusterGet_world env name w
  rw [h] at this
  cases this
  exact Harmless.record_harmless w _ rfl

theorem clusterUpdate_harmless {env : Env} {cm : ConfigMap} {w w' : World} {r : GoError}
    (h : clusterUpdate env cm w = (r, w')) : Harmless w w' := by
  unfold clusterUpdate at h
  split at h
  · cases h; exact Harmless.record_harmless w _ rfl
  · split at h
    · cases h; exact Harmless.record_harmless w _ rfl
    · cases h
      exact ⟨[.clusterUpdate cm], rfl, by simp [Call.aborts]⟩

theorem updateConfigMap_harmless {env : Env} {name : String} {data : GoMap} {w w' : World}
    {r : GoError} (h : updateConfigMap env name data w = (r, w')) : Harmless w w' := by
  unfold updateConfigMap getConfigMap at h
  split at h
  · cases h
    exact clusterGet_harmless ‹_›
  · exact (clusterGet_harmless ‹_›).trans_harmless (clusterUpdate_harmless h)

theorem getMappingMap_harmless {env : Env} {w w' : World} {r : Except String MappingMap}
    (h : getMappingMap env w = (r, w')) : Harmless w w' := by
  unfold getMappingMap at h
  split at h <;> (cases h; exact clusterGet_harmless ‹_›)

theorem getCTFdClient_harmless {env : Env} {w w' : World} {r : Except String Client}
    (h : getCTFdClient env w = (r, w')) : Harmless w w' := by
  unfold getCTFdClient at h
  split at h
  · cases h; exact callError_harmless (c := .getNonceAndSession) ‹_› rfl
  · split at h
    cases h
    rename_i ht
    unfold getCTFdAccessToken getConfigMap at ht
    split at ht <;>
      (cases ht
       exact (callError_harmless (c := .getNonceAndSession) ‹_› rfl).trans_harmless
         (clusterGet_harmless ‹_›))

theorem getCTFdChallenges_harmless {env : Env} {w w' : World} {r : Except String (List Int)}
    (h : getCTFdChallenges env w = (r, w')) : Harmless w w' := by
  unfold getCTFdChallenges at h
  split at h
  · cases h; exact getCTFdClient_harmless ‹_›
  · split at h <;>
      (cases h
       exact (getCTFdClient_harmless ‹_›).trans_harmless
         (callValue_harmless (c := .getChallenges) ‹_› rfl))

theorem getUploadedCTFdChallenges_harmless {env : Env} {w w' : World}
    {r : Except String GoMap} (h : getUploadedCTFdChallenges env w = (r, w')) :
    Harmless w w' := by
  unfold getUploadedCTFdChallenges getConfigMap at h
  split at h
  · cases h; exact clusterGet_harmless ‹_›
  · split at h <;> (cases h; exact clusterGet_harmless ‹_›)

theorem getUploadedCTFdChallenge_harmless {env : Env} {name : String} {w w' : World}
    {r : String × GoError} (h : getUploadedCTFdChallenge env name w = (r, w')) :
    Harmless w w' := by
  have := getUploadedCTFdChallenge_world env name w
  rw [h] at this
  cases this
  exact Harmless.record_harmless w _ rfl

theorem setUploadedCTFdChallenge_harmless {env : Env} {name : String} {id : Int}
    {w w' : World} {r : GoError}
    (h : setUploadedCTFdChallenge env name id w = (r, w')) : Harmless w w' := by
  unfold setUploadedCTFdChallenge at h
  split at h
  · cases h; exact getUploadedCTFdChallenges_harmless ‹_›
  · split at h <;>
      (cases h
       exact (getUploadedCTFdChallenges_harmless ‹_›).trans_harmless
         (updateConfigMap_harmless ‹_›))

theorem getGithubFileBytes_harmless {env : Env} {path : String} {w w' : World}
    {r : Result String} (h : getGithubFileBytes env path w = (r, w')) : Harmless w w' := by
  have hw := getGithubFileBytes_world env path w
  rw [h] at hw
  cases hw
  exact Harmless.record_harmless w _ rfl

theorem fetchFiles_harmless {env : Env} {dir : String} (names : List String) {w w' : World}
    {r : Option (List InputFile)} (h : fetchFiles env dir names w = (r, w')) :
    Harmless w w' := by
  induction names generalizing w w' r with
  | nil => unfold fetchFiles at h; cases h; exact Harmless.refl_harmless w
  | cons name rest ih =>
    unfold fetchFiles at h
    split at h
    · exact ih h
    · split at h
      · rename_i hc
        exact (getGithubFileBytes_harmless hc).trans_harmless (ih h)
      · rename_i hc
        split at h
        · split at h
          · rename_i hr
            cases h
            exact (getGithubFileBytes_harmless hc).trans_harmless (ih hr)
          · rename_i hr
            cases h
            exact (getGithubFileBytes_harmless hc).trans_harmless (ih hr)
        · exact (getGithubFileBytes_harmless hc).trans_harmless (ih h)
      · rename_i hc
        cases h
        exact getGithubFileBytes_harmless hc

theorem uploadTags_harmless {e : Env} {i : Int} (tags : List String) (w : World) :
    Harmless w (uploadTags e i tags w) := by
  induction tags generalizing w with
  | nil => unfold uploadTags; exact Harmless.refl_harmless w
  | cons tag rest ih =>
    unfold uploadTags
    split
    · exact ih w
    · exact (Harmless.record_harmless w (.postTags i tag) rfl).trans_harmless (ih _)

theorem uploadCTFdChallengeFile_failFast {env : Env} {id : Int} {challenge : ChallengeConfig}
    {w w' : World} {r : Result Int}
    (h : uploadCTFdChallengeFile env id challenge w = (r, w')) :
    FailFast env (noError r) w w' := by
  unfold uploadCTFdChallengeFile at h
  split at h
  · rename_i hd
    cases h
    exact callValue_failed (c := .githubDirContents _) hd (fun _ => rfl)
  · rename_i hd
    have p1 : FailFast env true w _ :=
      callValue_passed (c := .githubDirContents _) hd (fun _ => rfl)
    split at h
    · rename_i hf
      have p2 := p1.seq ((fetchFiles_harmless _ hf).failFast env true)
      split at h
      · split at h
        · rename_i hp
          cases h
          exact p2.seq (callError_failFast (c := .postFiles _ _) hp (fun _ => rfl))
        · rename_i hp
          cases h
          exact p2.seq (callError_failFast (c := .postFiles _ _) hp (fun _ => rfl))
      · cases h; exact p2
    · rename_i hf
      cases h
      exact p1.seq ((fetchFiles_harmless _ hf).failFast env true)

theorem uploadFlags_failFast {env : Env} {id : Int} (flags : List FlagDef) {w w' : World}
    {r : GoError} (h : uploadFlags env id flags w = (r, w')) :
    FailFast env r.isNone w w' := by
  induction flags generalizing w w' r with
  | nil => unfold uploadFlags at h; cases h; exact (Harmless.refl_harmless w).failFast env _
  | cons flag rest ih =>
    unfold uploadFlags at h
    split at h
    · rename_i hc
      cases h
      exact callError_failFast (c := .postFlags _ _ _ _) hc (fun _ => rfl)
    · rename_i hc
      have p1 : FailFast env true w _ :=
        callError_failFast (c := .postFlags _ _ _ _) hc (fun _ => rfl)
      exact p1.seq (ih h)

theorem deleteAll_failFast {env : Env} {k : String → Call}
    {answer : List Call → String → GoError}
    (ids : List Int) {w w' : World} {r : GoError} (h : deleteAll k answer ids w = (r, w'))
    (hk : ∀ s t, (k s).failsIn env t = (answer t s).isSome) : FailFast env r.isNone w w' := by
  induction ids generalizing w w' r with
  | nil => unfold deleteAll at h; cases h; exact (Harmless.refl_harmless w).failFast env _
  | cons id rest ih =>
    unfold deleteAll at h
    split at h
    · rename_i hc
      cases h
      exact callError_failFast hc (fun t => hk _ t)
    · rename_i hc
      have p1 : FailFast env true w _ := callError_failFast hc (fun t => hk _ t)
      exact p1.seq (ih h)

theorem createChallenge_failFast {env : Env} {challenge : ChallengeConfig}
    {params : PostChallengesParams} {w w' : World} {r : Except String Int}
    (h : createChallenge env challenge params w = (r, w')) :
    FailFast env (succeeded r) w w' := by
  unfold createChallenge at h
  split at h
  · exact callValue_failFast (c := .postKubeCTFChallenge _) h (fun _ => rfl)
  · exact callValue_failFast (c := .postChallenges _) h (fun _ => rfl)

theorem patchChallengeCall_failFast {env : Env} {challenge : ChallengeConfig} {sid : String}
    {id : Int} {params : PatchChallengeParams} {w w' : World} {r : Except String Int}
    (h : patchChallengeCall env challenge sid id params w = (r, w')) :
    FailFast env (succeeded r) w w' := by
  unfold patchChallengeCall at h
  split at h
  · exact callValue_failFast (c := .patchKubeCTFChallenge _ _) h (fun _ => rfl)
  · exact callValue_failFast (c := .patchChallenge _ _) h (fun _ => rfl)

theorem uploadCTFdChallenge_failFast {env : Env} {challenge : ChallengeConfig}
    {client : Client} {w w' : World} {r : Result Int}
    (h : uploadCTFdChallenge env challenge client w = (r, w')) :
    FailFast env (noError r) w w' := by
  unfold uploadCTFdChallenge at h
  split at h
  · rename_i hm
    cases h
    exact (getMappingMap_harmless hm).failFast env _
  · rename_i hm
    have p1 : FailFast env true w _ := (getMappingMap_harmless hm).failFast env true
    split at h
    · rename_i hc
      cases h
      exact p1.seq (createChallenge_failFast hc)
    · rename_i hc
      have p2 : FailFast env true w _ := p1.seq (createChallenge_failFast hc)
      split at h
      pick_goal 3
      · rename_i hf
        cases h
        exact p2.seq (uploadCTFdChallengeFile_failFast hf)
      · rename_i hf
        cases h
        exact p2.seq (uploadCTFdChallengeFile_failFast hf)
      · rename_i hf
        have p3 : FailFast env true w _ := p2.seq (uploadCTFdChallengeFile_failFast hf)
        split at h
        · rename_i hg
          cases h
          exact p3.seq (uploadFlags_failFast _ hg)
        · rename_i hg
          have p4 : FailFast env true w _ := p3.seq (uploadFlags_failFast _ hg)
          split at h <;>
            (rename_i hset
             cases h
             exact (p4.seq ((uploadTags_harmless _ _).failFast env true)).seq
               ((setUploadedCTFdChallenge_harmless hset).failFast env _))

theorem replaceSubResources_failFast {env : Env} {challenge : ChallengeConfig}
    {challengeId uploadedID : Int} {w w' : World} {r : Result Int}
    (h : replaceSubResources env challenge challengeId uploadedID w = (r, w')) :
    FailFast env (noError r) w w' := by
  unfold replaceSubResources at h
  split at h
  · rename_i h1; cases h
    exact callValue_failed (c := .getChallengeFiles _) h1 (fun _ => rfl)
  · rename_i h1
    have p1 : FailFast env true w _ :=
      callValue_passed (c := .getChallengeFiles _) h1 (fun _ => rfl)
    split at h
    · rename_i h2; cases h
      exact p1.seq (deleteAll_failFast _ h2 (fun _ _ => rfl))
    · rename_i h2
      have p2 : FailFast env true w _ := p1.seq (deleteAll_failFast _ h2 (fun _ _ => rfl))
      split at h
      pick_goal 3
      · rename_i h3; cases h
        exact p2.seq (uploadCTFdChallengeFile_failFast h3)
      · rename_i h3; cases h
        exact p2.seq (uploadCTFdChallengeFile_failFast h3)
      · rename_i h3
        have p3 : FailFast env true w _ := p2.seq (uploadCTFdChallengeFile_failFast h3)
        split at h
        · rename_i h4; cases h
          exact p3.seq (callValue_failed (c := .getChallengeFlags _) h4 (fun _ => rfl))
        · rename_i h4
          have p4 : FailFast env true w _ :=
            p3.seq (callValue_passed (c := .getChallengeFlags _) h4 (fun _ => rfl))
          split at h
          · rename_i h5; cases h
            exact p4.seq (deleteAll_failFast _ h5 (fun _ _ => rfl))
          · rename_i h5
            have p5 : FailFast env true w _ :=
              p4.seq (deleteAll_failFast _ h5 (fun _ _ => rfl))
            split at h
            · rename_i h6; cases h
              exact p5.seq (uploadFlags_failFast _ h6)
            · rename_i h6
              have p6 : FailFast env true w _ := p5.seq (uploadFlags_failFast _ h6)
              split at h
              · rename_i h7; cases h
                exact p6.seq (callValue_failed (c := .getTags _) h7 (fun _ => rfl))
              · rename_i h7
                have p7 : FailFast env true w _ :=
                  p6.seq (callValue_passed (c := .getTags _) h7 (fun _ => rfl))
                split at h
                · rename_i h8; cases h
                  exact p7.seq (deleteAll_failFast _ h8 (fun _ _ => rfl))
                · rename_i h8
                  have p8 : FailFast env true w _ :=
                    p7.seq (deleteAll_failFast _ h8 (fun _ _ => rfl))
                  split at h <;>
                    (rename_i hset
                     cases h
                     exact (p8.seq ((uploadTags_harmless _ _).failFast env true)).seq
                       ((setUploadedCTFdChallenge_harmless hset).failFast env _))

theorem updateCTFdChallenge_failFast {env : Env} {challenge : ChallengeConfig}
    {client : Client} {w w' : World} {r : Result Int}
    (h : updateCTFdChallenge env challenge client w = (r, w')) :
    FailFast env (noError r) w w' := by
  unfold updateCTFdChallenge at h
  split at h
  · rename_i h1; cases h
    exact (getUploadedCTFdChallenge_harmless h1).failFast env _
  · rename_i h1
    have p1 := getUploadedCTFdChallenge_harmless h1
    split at h
    · cases h; exact p1.failFast env _
    · split at h
      · rename_i h2
        have p2 := p1.trans_harmless (getCTFdChallenges_harmless h2)
        exact (p2.failFast env true).seq (uploadCTFdChallenge_failFast h)
      · rename_i h2
        have p2 := p1.trans_harmless (getCTFdChallenges_harmless h2)
        split at h
        · exact (p2.failFast env true).seq (uploadCTFdChallenge_failFast h)
        · split at h
          · exact (p2.failFast env true).seq (uploadCTFdChallenge_failFast h)
          · split at h
            · rename_i h3; cases h
              exact (p2.trans_harmless (getMappingMap_harmless h3)).failFast env _
            · rename_i h3
              have p3 := (p2.trans_harmless (getMappingMap_harmless h3)).failFast env true
              split at h
              · rename_i h4; cases h
                exact p3.seq (patchChallengeCall_failFast h4)
              · rename_i h4
                have p4 : FailFast env true w _ := p3.seq (patchChallengeCall_failFast h4)
                exact p4.seq (replaceSubResources_failFast h)

theorem updateOrCreateCTFdChallenge_failFast {env : Env} {challenge : ChallengeConfig}
    {w w' : World} {r : Result Int}
    (h : updateOrCreateCTFdChallenge env challenge w = (r, w')) :
    FailFast env (noError r) w w' := by
  unfold updateOrCreateCTFdChallenge at h
  split at h
  · rename_i h1; cases h
    exact (getCTFdClient_harmless h1).failFast env _
  · rename_i h1
    have p1 := getCTFdClient_harmless h1
    split at h
    rename_i h2
    have p2 := (p1.trans_harmless (getUploadedCTFdChallenge_harmless h2)).failFast env true
    split at h
    · exact p2.seq (uploadCTFdChallenge_failFast h)
    · exact p2.seq (updateCTFdChallenge_failFast h)

set_option maxRecDepth 100000 in
/-- C17, as stated, fails.  When the bytes of the file `a.txt` cannot be fetched, the
upsert of `pwn-101` goes on without the file and reports success.  When the listing of
the remote challenges fails for the bound slug `pwn-101`, the upsert goes on along the
upload path, creates a challenge and reports success. -/
theorem upsert_succeeds_after_failed_call :
    (∀ t path, noBytesEnv.githubFileBytes t path = .error "404 not found") ∧
    .githubFileBytes (filesDirPath pwn101 ++ "/a.txt") ∈
      (updateOrCreateCTFdChallenge noBytesEnv pwn101 demoWorld).2.trace ∧
    (updateOrCreateCTFdChallenge noBytesEnv pwn101 demoWorld).1 = .ok 7 ∧
    (∀ t, noListingEnv.getChallenges t = .error "500 internal server error") ∧
    challengeBinding (boundChallengeWorld "pwn-101" "7") "pwn-101" = some "7" ∧
    .getChallenges ∈ (updateOrCreateCTFdChallenge noListingEnv pwn101
      (boundChallengeWorld "pwn-101" "7")).2.trace ∧
    (updateOrCreateCTFdChallenge noListingEnv pwn101
      (boundChallengeWorld "pwn-101" "7")).2.trace.countP Call.isCreate = 1 ∧
    (updateOrCreateCTFdChallenge noListingEnv pwn101
      (boundChallengeWorld "pwn-101" "7")).1 = .ok 7 := by
  refine ⟨fun _ _ => rfl, by decide, by decide, fun _ => rfl, by decide, by decide,
    by decide, by decide⟩

/-- C17, amended: in every challenge upsert, when a call to create or to patch the
challenge, to list, delete or upload its files or its flags, to list or delete its
tags, or to list the directory of the repository fails, that call is the last call of
the upsert and the upsert returns an error.  (Not so for the upload of a tag, the
fetching of the bytes of a file and the listing of the remote challenges: after such a
failure the upsert goes on.)  And when the session bootstrap of the upsert fails, the
upsert returns that error and makes no further call. -/
theorem failed_call_aborts_upsert (env : Env) (challenge : ChallengeConfig) (w : World) :
    (∀ pre c post,
      (updateOrCreateCTFdChallenge env challenge w).2.trace = w.trace ++ (pre ++ c :: post) →
      c.aborts = true → c.failsIn env (w.trace ++ pre) = true →
      post = [] ∧ ∃ e, (updateOrCreateCTFdChallenge env challenge w).1 = .error e) ∧
    (∀ e, env.getNonceAndSession w.trace = some e →
      updateOrCreateCTFdChallenge env challenge w = (.error e, w.record .getNonceAndSession)) := by
  constructor
  · intro pre c post ht hc hf
    obtain ⟨added, ha, hq⟩ := updateOrCreateCTFdChallenge_failFast
      (show updateOrCreateCTFdChallenge env challenge w =
        ((updateOrCreateCTFdChallenge env challenge w).1,
          (updateOrCreateCTFdChallenge env challenge w).2) from rfl)
    rw [ha] at ht
    have := hq pre c post (List.append_cancel_left ht) hc hf
    refine ⟨this.1, ?_⟩
    cases hr : (updateOrCreateCTFdChallenge env challenge w).1 with
    | error e => exact ⟨e, rfl⟩
    | ok v =>
      have h2 := this.2
      rw [hr] at h2
      cases h2
    | panicked =>
      have h2 := this.2
      rw [hr] at h2
      cases h2
  · intro e he
    simp only [updateOrCreateCTFdChallenge, getCTFdClient_of_no_session he]

set_option maxRecDepth 100000 in
/-- C17, amended, on a content service that refuses to create a challenge: the create
call fails, it is the last call, and the upsert returns an error. -/
theorem failed_call_aborts_upsert_witness :
    ([] : List Call) = [] ∧
    ∃ e, (updateOrCreateCTFdChallenge createDownEnv pwn101 demoWorld).1 = .error e :=
  (failed_call_aborts_upsert createDownEnv pwn101 demoWorld).1
    [.getNonceAndSession, .clusterGet "ctfd-access-token", .clusterGet "ctfd-challenges",
      .clusterGet "mapping-map"]
    (.postChallenges (postParamsOf pwn101 ⟨GoMap.empty, GoMap.empty, GoMap.empty⟩)) []
    (by decide) (by decide) (by decide)

/-! ## Events of another kind -/

/-- C21: an event that is neither added, modified nor deleted and carries an object
that is not a config map (an error event carries a status object) makes the type
assertion of the default branch fail: `processEvent` does not go on to the next event,
whatever events follow.  With a config map as object the event is passed over and the
world is as before. -/
theorem unhandled_event_with_other_object_crashes (env : Env) (rest : List Event)
    (w : World) :
    handleEvent env ⟨.Error, .other⟩ w = .crashed w ∧
    handleEvent env ⟨.Bookmark, .other⟩ w = .crashed w ∧
    processEvent env (⟨.Error, .other⟩ :: rest) w = .crashed w ∧
    processEvent env (⟨.Bookmark, .other⟩ :: rest) w = .crashed w ∧
    (∀ cm, handleEvent env ⟨.Error, .configMap cm⟩ w = .done w ∧
      handleEvent env ⟨.Bookmark, .configMap cm⟩ w = .done w ∧
      processEvent env (⟨.Bookmark, .configMap cm⟩ :: rest) w = processEvent env rest w) :=
  ⟨rfl, rfl, rfl, rfl, fun _ => ⟨rfl, rfl, rfl⟩⟩

/-! ## Names of categories -/

set_option maxRecDepth 100000 in
/-- C22, as stated, fails: the challenge `pwn-101` has the category token `web`, the
categories mapping has the entry "Web Exploitation" for it, and `getCategoryName`
returns "Beginner", the difficulty-categories entry of its difficulty token `easy`. -/
theorem getCategoryName_prefers_difficulty :
    pwn101.Challenge.Category = "web" ∧ pwn101.Challenge.Difficulty = "easy" ∧
    lookupOk (some demoMappingMap.Categories) "web" = some "Web Exploitation" ∧
    lookupOk (some demoMappingMap.DifficultyMapping) "easy" = some "Beginner" ∧
    getCategoryName pwn101 demoMappingMap = "Beginner" := by
  decide

/-- C22, amended: for a challenge with a non-empty category token and a mapping table
whose difficulty-categories mapping has no entry for the difficulty token of the
challenge, `getCategoryName` returns the display name that the categories mapping
gives for the category token when it has an entry for it, and the raw token when it
has none. -/
theorem getCategoryName_lookup (challengeConfig : ChallengeConfig) (mappingMap : MappingMap)
    (hc : challengeConfig.Challenge.Category ≠ "")
    (hd : lookupOk (some mappingMap.DifficultyMapping) challengeConfig.Challenge.Difficulty =
      none) :
    (∀ name,
      lookupOk (some mappingMap.Categories) challengeConfig.Challenge.Category = some name →
      getCategoryName challengeConfig mappingMap = name) ∧
    (lookupOk (some mappingMap.Categories) challengeConfig.Challenge.Category = none →
      getCategoryName challengeConfig mappingMap = challengeConfig.Challenge.Category) := by
  constructor
  · intro name hn
    simp only [getCategoryName, if_neg hc, hd, hn]
  · intro hn
    simp only [getCategoryName, if_neg hc, hd, hn]

set_option maxRecDepth 100000 in
/-- C22, amended, on the challenge `pwn-101`: with the category entry alone the name
is "Web Exploitation", with an empty mapping table it is the token `web`. -/
theorem getCategoryName_lookup_witness :
    getCategoryName pwn101 categoriesOnlyMap = "Web Exploitation" ∧
    getCategoryName pwn101 ⟨GoMap.empty, GoMap.empty, GoMap.empty⟩ = "web" :=
  ⟨(getCategoryName_lookup pwn101 categoriesOnlyMap (by decide) (by decide)).1
      "Web Exploitation" (by decide),
    (getCategoryName_lookup pwn101 ⟨GoMap.empty, GoMap.empty, GoMap.empty⟩ (by decide)
      (by decide)).2 (by decide)⟩

/-- C30: `getCategoryName` is the reference definition, for every challenge and every
mapping table: "Uncategorized" for an empty category token; otherwise the
difficulty-categories entry of the difficulty token when there is one, before the
categories entry of the category token, before the raw category token. -/
theorem getCategoryName_eq_spec (challengeConfig : ChallengeConfig)
    (mappingMap : MappingMap) :
    getCategoryName challengeConfig mappingMap =
      specCategoryName challengeConfig mappingMap := by
  unfold getCategoryName specCategoryName
  split
  · rfl
  · cases lookupOk (some mappingMap.DifficultyMapping) challengeConfig.Challenge.Difficulty with
    | some n => rfl
    | none =>
      cases lookupOk (some mappingMap.Categories) challengeConfig.Challenge.Category <;> rfl

/-! ## State, type and instance descriptor -/

/-- C26: in the create parameters and in the patch parameters the state is "visible"
exactly when the record is enabled and "hidden" exactly when it is not; the remote
type of the create parameters is "kubectf" exactly when the type of the record is
"instanced" and "dynamic" exactly when it is not. -/
theorem state_and_type_of_record (challenge : ChallengeConfig) (mappingMap : MappingMap) :
    ((postParamsOf challenge mappingMap).State = "visible" ↔
      challenge.Challenge.Enabled = true) ∧
    ((postParamsOf challenge mappingMap).State = "hidden" ↔
      challenge.Challenge.Enabled = false) ∧
    ((patchParamsOf challenge mappingMap).State = "visible" ↔
      challenge.Challenge.Enabled = true) ∧
    ((patchParamsOf challenge mappingMap).State = "hidden" ↔
      challenge.Challenge.Enabled = false) ∧
    ((postParamsOf challenge mappingMap).Typ = "kubectf" ↔
      challenge.Challenge.Typ = "instanced") ∧
    ((postParamsOf challenge mappingMap).Typ = "dynamic" ↔
      challenge.Challenge.Typ ≠ "instanced") := by
  have hvh : ("visible" : String) ≠ "hidden" := by decide
  have hkd : ("kubectf" : String) ≠ "dynamic" := by decide
  simp only [postParamsOf, patchParamsOf, stateOf, challTypeOf]
  cases challenge.Challenge.Enabled <;>
    by_cases ht : challenge.Challenge.Typ = "instanced" <;>
    simp [ht, hvh, hvh.symm, hkd, hkd.symm]

/-- C25: for an instanced challenge the create call and the patch call carry the same
template name and the same instance type.  The template name is `instanced_name`
when that is not empty, and the slug otherwise.  With `instanced_type`, or "none"
when that is empty, as base type: the instance type is the base type when there are
no subdomains; the base type, a colon and the subdomains joined by commas when the
first subdomain has no colon; the subdomains joined by commas when it has one. -/
theorem instanced_payload_same_on_both_paths (env : Env) (challenge : ChallengeConfig)
    (w : World) (uploadedChallengeID : String) (challengeId : Int)
    (postParams : PostChallengesParams) (patchParams : PatchChallengeParams)
    (h : challenge.Challenge.Typ = "instanced") :
    ∃ templateName instanceType,
      (createChallenge env challenge postParams w).2 =
        w.record (.postKubeCTFChallenge ⟨postParams, templateName, instanceType⟩) ∧
      (patchChallengeCall env challenge uploadedChallengeID challengeId patchParams w).2 =
        w.record (.patchKubeCTFChallenge uploadedChallengeID
          ⟨patchParams, templateName, instanceType⟩) ∧
      templateName =
        (if challenge.Challenge.InstancedName ≠ "" then challenge.Challenge.InstancedName
          else challenge.Challenge.Slug) ∧
      (challenge.Challenge.InstancedSubdomains = [] →
        instanceType =
          (if challenge.Challenge.InstancedType = "" then "none"
            else challenge.Challenge.InstancedType)) ∧
      (∀ first rest, challenge.Challenge.InstancedSubdomains = first :: rest →
        (containsColon first = false →
          instanceType =
            (if challenge.Challenge.InstancedType = "" then "none"
              else challenge.Challenge.InstancedType) ++ ":" ++
              joinWith "," challenge.Challenge.InstancedSubdomains) ∧
        (containsColon first = true →
          instanceType = joinWith "," challenge.Challenge.InstancedSubdomains)) := by
  refine ⟨kubectfSlug challenge.Challenge, instanceTypeOf challenge.Challenge, ?_, ?_, ?_, ?_,
    ?_⟩
  · simp only [createChallenge, if_pos h, callValue]
  · simp only [patchChallengeCall, if_pos h, callValue]
  · unfold kubectfSlug
    by_cases h1 : challenge.Challenge.InstancedName = ""
    · simp [h1]
    · by_cases h2 : challenge.Challenge.InstancedName = challenge.Challenge.Slug
      · simp [h1, h2]
      · simp [h1, h2]
  · intro hs
    simp only [instanceTypeOf, hs]
  · intro first rest hs
    constructor
    · intro hc
      simp only [instanceTypeOf, hs, hc]
      rfl
    · intro hc
      simp only [instanceTypeOf, hs, hc]
      rfl

set_option maxRecDepth 100000 in
/-- C25 on an instanced challenge with the type `web`, the template `shell-template`
and the subdomains `app` and `admin`: both calls carry the template name
"shell-template" and the instance type "web:app,admin". -/
theorem instanced_payload_same_on_both_paths_witness :
    instancedChallenge.Challenge.Typ = "instanced" ∧
    ∃ templateName instanceType,
      (createChallenge demoEnv instancedChallenge
        (postParamsOf instancedChallenge demoMappingMap) demoWorld).2 =
        demoWorld.record (.postKubeCTFChallenge
          ⟨postParamsOf instancedChallenge demoMappingMap, templateName, instanceType⟩) ∧
      (patchChallengeCall demoEnv instancedChallenge "7" 7
        (patchParamsOf instancedChallenge demoMappingMap) demoWorld).2 =
        demoWorld.record (.patchKubeCTFChallenge "7"
          ⟨patchParamsOf instancedChallenge demoMappingMap, templateName, instanceType⟩) ∧
      templateName = "shell-template" ∧ instanceType = "web:app,admin" := by
  refine ⟨by decide, ?_⟩
  obtain ⟨t, i, h1, h2, h3, _, h5⟩ :=
    instanced_payload_same_on_both_paths demoEnv instancedChallenge demoWorld "7" 7
      (postParamsOf instancedChallenge demoMappingMap)
      (patchParamsOf instancedChallenge demoMappingMap) (by decide)
  refine ⟨t, i, h1, h2, ?_, ?_⟩
  · rw [h3]; decide
  · rw [(h5 "app" ["admin"] (by decide)).1 (by decide)]; decide

/-! ## The content of a page -/

set_option maxRecDepth 100000 in
/-- C27, as stated, fails: the payload of `page-rules` is accepted, its blob decodes
to a page whose content is "from the blob", and the content of the record returned is
"# Rules", the value of the payload key `content`. -/
theorem page_content_is_not_from_blob :
    demoEnv.unmarshalPage (index pageRules.Data "page") = .ok demoPage ∧
    demoPage.Content = "from the blob" ∧
    index pageRules.Data "content" = "# Rules" ∧
    ∃ pc, extractPageConfigMap demoEnv (some pageRules) = .ok pc ∧
      pc.Page.Content = "# Rules" ∧ pc.Page.Content ≠ demoPage.Content := by
  refine ⟨by decide, by decide, by decide,
    { Slug := "rules", Name := "Rules", Path := "/pages/rules", Repository := "org/repo",
      Page := { demoPage with Content := "# Rules" }, GeneratedAt := "2025-01-01" },
    by decide, by decide, by decide⟩

/-- C27, amended: for every page payload that `extractPageConfigMap` accepts, the
blob decodes, and the page record returned has the slug, the title, the route, the
format, the nonce and the flags (enabled, draft, auth required) decoded from the blob;
its content is the value of the payload key `content`, the empty string when that key
is absent, whatever content the blob gives. -/
theorem extractPageConfigMap_page (env : Env) (configMap : ConfigMap) (pc : PageConfig)
    (h : extractPageConfigMap env (some configMap) = .ok pc) :
    ∃ page, env.unmarshalPage (index configMap.Data "page") = .ok page ∧
      pc.Page = { page with Content := index configMap.Data "content" } ∧
      pc.Page.Slug = page.Slug ∧ pc.Page.Title = page.Title ∧ pc.Page.Route = page.Route ∧
      pc.Page.Format = page.Format ∧ pc.Page.Nonce = page.Nonce ∧
      pc.Page.Enabled = page.Enabled ∧ pc.Page.Draft = page.Draft ∧
      pc.Page.AuthRequired = page.AuthRequired ∧
      pc.Page.Content = index configMap.Data "content" ∧
      (lookupOk configMap.Data "content" = none → pc.Page.Content = "") := by
  unfold extractPageConfigMap at h
  simp only [] at h
  split at h
  · cases h
  · split at h
    · cases h
    · rename_i page hp
      injection h with h
      subst h
      refine ⟨page, hp, rfl, rfl, rfl, rfl, rfl, rfl, rfl, rfl, rfl, rfl, ?_⟩
      intro hn
      simp only [index, hn]
      rfl

set_option maxRecDepth 100000 in
/-- C27, amended, on the payload of `page-rules`: the title of the record is the
title of the blob, its content is the payload value "# Rules". -/
theorem extractPageConfigMap_page_witness :
    ∃ pc, extractPageConfigMap demoEnv (some pageRules) = .ok pc ∧
      pc.Page.Title = "Rules" ∧ pc.Page.Content = "# Rules" := by
  have hrun : extractPageConfigMap demoEnv (some pageRules) =
      .ok { Slug := "rules", Name := "Rules", Path := "/pages/rules",
            Repository := "org/repo",
            Page := { demoPage with Content := "# Rules" },
            GeneratedAt := "2025-01-01" } := by decide
  obtain ⟨page, hp, _, _, ht, _, _, _, _, _, _, hc, _⟩ :=
    extractPageConfigMap_page demoEnv pageRules _ hrun
  have hpage : page = demoPage := by
    have : demoEnv.unmarshalPage (index pageRules.Data "page") = .ok demoPage := by decide
    rw [this] at hp
    injection hp with hp
    exact hp.symm
  refine ⟨_, hrun, ?_, ?_⟩
  · rw [ht, hpage]; decide
  · rw [hc]; decide

/-! ## The health flag -/

/-- An add or modify event leaves the health flag as it is. -/
theorem applyConfigMap_health (env : Env) (cm : ConfigMap) (w : World) :
    (applyConfigMap env cm w).2.health = w.health := by
  cases h : applyConfigMap env cm w with
  | mk r w' =>
    simp only []
    unfold applyConfigMap at h
    split at h
    · rename_i h1; cases h
      exact (hasBeenDeployed_frame h1).1.2
    · rename_i h1
      have p1 := (hasBeenDeployed_frame h1).1.2
      split at h
      · split at h
        · cases h; exact p1
        · split at h
          pick_goal 3
          · rename_i h2; cases h
            exact ((updateOrCreateCTFdChallenge_frame h2).1.2).trans p1
          · rename_i h2; cases h
            exact ((updateOrCreateCTFdChallenge_frame h2).1.2).trans p1
          · rename_i h2
            exact ((storeNewHash_frame h).1.1.2.trans
              (updateOrCreateCTFdChallenge_frame h2).1.2).trans p1
      · split at h
        · split at h
          · cases h; exact p1
          · split at h
            · rename_i h2; cases h
              exact ((uploadOrUpdateCTFdPage_frame h2).1.2).trans p1
            · rename_i h2
              exact ((storeNewHash_frame h).1.1.2.trans
                (uploadOrUpdateCTFdPage_frame h2).1.2).trans p1
        · cases h; exact p1

/-- A delete event leaves the health flag as it is. -/
theorem removeConfigMap_health (env : Env) (cm : ConfigMap) (w : World) :
    (removeConfigMap env cm w).health = w.health := by
  unfold removeConfigMap
  split
  · split
    · rfl
    · rename_i challenge _
      have p1 := (disableCTFdChallenge_frame
        (show disableCTFdChallenge env challenge w =
          ((disableCTFdChallenge env challenge w).1, (disableCTFdChallenge env challenge w).2)
          from rfl)).1.2
      have p2 := (storeConfigmapHash_frame
        (show storeConfigmapHash env cm.Name "" (disableCTFdChallenge env challenge w).2 =
          ((storeConfigmapHash env cm.Name "" (disableCTFdChallenge env challenge w).2).1,
            (storeConfigmapHash env cm.Name "" (disableCTFdChallenge env challenge w).2).2)
          from rfl)).1.2
      exact p2.trans p1
  · split
    · split
      · rfl
      · rename_i page _
        have p1 := (deleteCTFdPage_frame
          (show deleteCTFdPage env page.Slug w =
            ((deleteCTFdPage env page.Slug w).1, (deleteCTFdPage env page.Slug w).2)
            from rfl)).1.2
        have p2 := (storeConfigmapHash_frame
          (show storeConfigmapHash env cm.Name "" (deleteCTFdPage env page.Slug w).2 =
            ((storeConfigmapHash env cm.Name "" (deleteCTFdPage env page.Slug w).2).1,
              (storeConfigmapHash env cm.Name "" (deleteCTFdPage env page.Slug w).2).2)
            from rfl)).1.2
        exact p2.trans p1
    · rfl

/-- Handling one event leaves the health flag as it is. -/
theorem handleEvent_health (env : Env) (event : Event) (w : World) :
    (handleEvent env event w).world.health = w.health := by
  obtain ⟨t, o⟩ := event
  cases t <;> cases o <;>
    first
    | rfl
    | (rw [handleEvent_apply_world env _ (Or.inl rfl)]; exact applyConfigMap_health env _ w)
    | (rw [handleEvent_apply_world env _ (Or.inr rfl)]; exact applyConfigMap_health env _ w)
    | exact removeConfigMap_health env _ w

/-- Once the flag is false it is false after any run of `processEvent`. -/
theorem processEvent_stays_unhealthy (env : Env) (events : List Event) (w : World)
    (h : w.health = false) : (processEvent env events w).world.health = false := by
  induction events generalizing w with
  | nil => rfl
  | cons event rest ih =>
    have he := handleEvent_health env event w
    simp only [processEvent]
    cases hr : handleEvent env event w with
    | done w1 =>
      rw [hr] at he
      exact ih w1 (he.trans h)
    | crashed w1 =>
      rw [hr] at he
      exact he.trans h

/-- Once the flag is false it is false after any number of passes of the watcher
loop. -/
theorem watchLoop_stays_unhealthy (env : Env)
    (watch : List Call → Except String (List Event)) (passes : Nat) (w start : World)
    (h : w.health = false) : ((watchLoop env watch passes w).world start).health = false := by
  induction passes generalizing w with
  | zero => exact h
  | succ n ih =>
    simp only [watchLoop]
    cases watch w.trace with
    | error e => exact h
    | ok events =>
      simp only []
      have hp := processEvent_stays_unhealthy env events (w.record .clusterWatch) h
      cases hr : processEvent env events (w.record .clusterWatch) with
      | done w1 =>
        rw [hr] at hp
        exact ih w1 hp
      | crashed w1 =>
        rw [hr] at hp
        exact hp

/-- C28: the flag is true when the process starts, and nothing raises it afterwards:
handling an event and an upsert leave it as it is, and the watcher only lowers it.  So
once it is false it is false after any events and any number of passes of the watcher
loop, and `healthy` returns false.  In particular, after `processEvent` has returned
on a closed channel, the flag is false and `healthy` returns false however many new
watches the loop opens and whatever events it handles. -/
theorem health_never_recovers (env : Env) (watch : List Call → Except String (List Event))
    (w : World) :
    (∀ cluster, (startWorld cluster).health = true) ∧
    (∀ event, (handleEvent env event w).world.health = w.health) ∧
    (∀ challenge, (updateOrCreateCTFdChallenge env challenge w).2.health = w.health) ∧
    (w.health = false →
      (∀ events, (processEvent env events w).world.health = false) ∧
      (∀ passes start, ((watchLoop env watch passes w).world start).health = false) ∧
      (∀ clientset passes, (backgroundWatcher env watch clientset passes w).health = false) ∧
      ∀ checkAccess getConfigMaps, healthy checkAccess getConfigMaps w = false) ∧
    (∀ events w1, watch w.trace = .ok events →
      processEvent env events (w.record .clusterWatch) = .done w1 →
      ∀ passes start checkAccess getConfigMaps,
        ((watchLoop env watch passes w1).world start).health = false ∧
        healthy checkAccess getConfigMaps ((watchLoop env watch passes w1).world start) =
          false ∧
        watchLoop env watch (passes + 1) w = watchLoop env watch passes w1) := by
  have hh : ∀ v : World, v.health = false → ∀ a b, healthy a b v = false := by
    intro v hv a b
    simp only [healthy, hv]
    split
    · rfl
    · split <;> rfl
  refine ⟨fun _ => rfl, fun event => handleEvent_health env event w, ?_, ?_, ?_⟩
  · intro challenge
    exact (updateOrCreateCTFdChallenge_frame
      (show updateOrCreateCTFdChallenge env challenge w =
        ((updateOrCreateCTFdChallenge env challenge w).1,
          (updateOrCreateCTFdChallenge env challenge w).2) from rfl)).1.2
  · intro h
    refine ⟨fun events => processEvent_stays_unhealthy env events w h,
      fun passes start => watchLoop_stays_unhealthy env watch passes w start h, ?_, hh w h⟩
    intro clientset passes
    unfold backgroundWatcher initBackgroundChallengeWatcher
    cases clientset with
    | false => rfl
    | true =>
      have := watchLoop_stays_unhealthy env watch passes w w h
      simp only [Bool.true_eq_false, if_false]
      cases hr : watchLoop env watch passes w with
      | notInitialized => rfl
      | crashed w1 => rw [hr] at this; exact this
      | watching w1 => rw [hr] at this; exact this
  · intro events w1 h1 h2 passes start a b
    have hw1 := processEvent_done_unhealthy env events _ w1 h2
    have hl := watchLoop_stays_unhealthy env watch passes w1 start hw1
    refine ⟨hl, hh _ hl a b, ?_⟩
    simp only [watchLoop, h1, h2]

set_option maxRecDepth 100000 in
/-- C28 on a watch whose first channel is closed at once and whose second channel
delivers an add event: after the second pass, in which the challenge was created, the
flag is false and `healthy` returns false though both cluster checks succeed. -/
theorem health_never_recovers_witness :
    (startWorld (demoCluster none none none)).health = true ∧
    ((watchLoop demoEnv reopeningWatch 1
      { cluster := demoCluster none none none, trace := [.clusterWatch],
        health := false }).world demoWorld).trace.countP Call.isCreate = 1 ∧
    healthy none none ((watchLoop demoEnv reopeningWatch 1
      { cluster := demoCluster none none none, trace := [.clusterWatch],
        health := false }).world demoWorld) = false :=
  ⟨rfl, by decide,
    ((health_never_recovers demoEnv reopeningWatch demoWorld).2.2.2.2 []
      { cluster := demoCluster none none none, trace := [.clusterWatch], health := false }
      rfl rfl 1 demoWorld none none).2.1⟩

/-! ## The flag and tag uploads of an upsert -/

theorem SubPosts.refl_posts (w : World) : SubPosts [] w w := ⟨[], by simp, rfl⟩

theorem SubPosts.trans_posts {l1 l2 : List Call} {a b c : World} (h1 : SubPosts l1 a b)
    (h2 : SubPosts l2 b c) : SubPosts (l1 ++ l2) a c := by
  obtain ⟨x, hx, px⟩ := h1
  obtain ⟨y, hy, py⟩ := h2
  exact ⟨x ++ y, by rw [hy, hx, List.append_assoc], by rw [List.filter_append, px, py]⟩

theorem SubPosts.then_none {l : List Call} {a b c : World} (h1 : SubPosts l a b)
    (h2 : SubPosts [] b c) : SubPosts l a c := by
  have := h1.trans_posts h2
  rwa [List.append_nil] at this

theorem SubPosts.none_then {l : List Call} {a b c : World} (h1 : SubPosts [] a b)
    (h2 : SubPosts l b c) : SubPosts l a c :=
  h1.trans_posts h2

theorem SubPosts.record_posts (w : World) (c : Call) (h : c.isSubUpload = false) :
    SubPosts [] w (w.record c) :=
  ⟨[c], rfl, by simp [List.filter, h]⟩

theorem callValue_posts {α : Type} {c : Call} {answer : List Call → Except String α}
    {w w' : World} {r : Except String α} (h : callValue c answer w = (r, w'))
    (hc : c.isSubUpload = false) : SubPosts [] w w' := by
  unfold callValue at h
  cases h
  exact SubPosts.record_posts w c hc

theorem callError_posts {c : Call} {answer : List Call → GoError}
    {w w' : World} {r : GoError} (h : callError c answer w = (r, w'))
    (hc : c.isSubUpload = false) : SubPosts [] w w' := by
  unfold callError at h
  cases h
  exact SubPosts.record_posts w c hc

theorem clusterGet_posts {env : Env} {name : String} {w w' : World}
    {r : Except String ConfigMap} (h : clusterGet env name w = (r, w')) : SubPosts [] w w' := by
  have := clusterGet_world env name w
  rw [h] at this
  cases this
  exact SubPosts.record_posts w _ rfl

theorem clusterUpdate_posts {env : Env} {cm : ConfigMap} {w w' : World} {r : GoError}
    (h : clusterUpdate env cm w = (r, w')) : SubPosts [] w w' := by
  unfold clusterUpdate at h
  split at h
  · cases h; exact SubPosts.record_posts w _ rfl
  · split at h
    · cases h; exact SubPosts.record_posts w _ rfl
    · cases h
      exact ⟨[.clusterUpdate cm], rfl, rfl⟩

theorem updateConfigMap_posts {env : Env} {name : String} {data : GoMap} {w w' : World}
    {r : GoError} (h : updateConfigMap env name data w = (r, w')) : SubPosts [] w w' := by
  unfold updateConfigMap getConfigMap at h
  split at h
  · cases h
    exact clusterGet_posts ‹_›
  · exact (clusterGet_posts ‹_›).then_none (clusterUpdate_posts h)

theorem getMappingMap_posts {env : Env} {w w' : World} {r : Except String MappingMap}
    (h : getMappingMap env w = (r, w')) : SubPosts [] w w' := by
  unfold getMappingMap at h
  split at h <;> (cases h; exact clusterGet_posts ‹_›)

theorem getCTFdClient_posts {env : Env} {w w' : World} {r : Except String Client}
    (h : getCTFdClient env w = (r, w')) : SubPosts [] w w' := by
  unfold getCTFdClient at h
  split at h
  · cases h; exact callError_posts (c := .getNonceAndSession) ‹_› rfl
  · split at h
    cases h
    rename_i ht
    unfold getCTFdAccessToken getConfigMap at ht
    split at ht <;>
      (cases ht
       exact (callError_posts (c := .getNonceAndSession) ‹_› rfl).then_none
         (clusterGet_posts ‹_›))

theorem getCTFdChallenges_posts {env : Env} {w w' : World} {r : Except String (List Int)}
    (h : getCTFdChallenges env w = (r, w')) : SubPosts [] w w' := by
  unfold getCTFdChallenges at h
  split at h
  · cases h; exact getCTFdClient_posts ‹_›
  · split at h <;>
      (cases h
       exact (getCTFdClient_posts ‹_›).then_none
         (callValue_posts (c := .getChallenges) ‹_› rfl))

theorem getUploadedCTFdChallenges_posts {env : Env} {w w' : World}
    {r : Except String GoMap} (h : getUploadedCTFdChallenges env w = (r, w')) :
    SubPosts [] w w' := by
  unfold getUploadedCTFdChallenges getConfigMap at h
  split at h
  · cases h; exact clusterGet_posts ‹_›
  · split at h <;> (cases h; exact clusterGet_posts ‹_›)

theorem getUploadedCTFdChallenge_posts {env : Env} {name : String} {w w' : World}
    {r : String × GoError} (h : getUploadedCTFdChallenge env name w = (r, w')) :
    SubPosts [] w w' := by
  have := getUploadedCTFdChallenge_world env name w
  rw [h] at this
  cases this
  exact SubPosts.record_posts w _ rfl

theorem setUploadedCTFdChallenge_posts {env : Env} {name : String} {id : Int}
    {w w' : World} {r : GoError}
    (h : setUploadedCTFdChallenge env name id w = (r, w')) : SubPosts [] w w' := by
  unfold setUploadedCTFdChallenge at h
  split at h
  · cases h; exact getUploadedCTFdChallenges_posts ‹_›
  · split at h <;>
      (cases h
       exact (getUploadedCTFdChallenges_posts ‹_›).then_none (updateConfigMap_posts ‹_›))

theorem getGithubFileBytes_posts {env : Env} {path : String} {w w' : World}
    {r : Result String} (h : getGithubFileBytes env path w = (r, w')) : SubPosts [] w w' := by
  have hw := getGithubFileBytes_world env path w
  rw [h] at hw
  cases hw
  exact SubPosts.record_posts w _ rfl

theorem fetchFiles_posts {env : Env} {dir : String} (names : List String) {w w' : World}
    {r : Option (List InputFile)} (h : fetchFiles env dir names w = (r, w')) :
    SubPosts [] w w' := by
  induction names generalizing w w' r with
  | nil => unfold fetchFiles at h; cases h; exact SubPosts.refl_posts w
  | cons name rest ih =>
    unfold fetchFiles at h
    split at h
    · exact ih h
    · split at h
      · rename_i hc
        exact (getGithubFileBytes_posts hc).then_none (ih h)
      · rename_i hc
        split at h
        · split at h
          · rename_i hr
            cases h
            exact (getGithubFileBytes_posts hc).then_none (ih hr)
          · rename_i hr
            cases h
            exact (getGithubFileBytes_posts hc).then_none (ih hr)
        · exact (getGithubFileBytes_posts hc).then_none (ih h)
      · rename_i hc
        cases h
        exact getGithubFileBytes_posts hc

theorem uploadCTFdChallengeFile_posts {env : Env} {id : Int} {challenge : ChallengeConfig}
    {w w' : World} {r : Result Int}
    (h : uploadCTFdChallengeFile env id challenge w = (r, w')) : SubPosts [] w w' := by
  unfold uploadCTFdChallengeFile at h
  split at h
  · rename_i hd
    cases h
    exact callValue_posts (c := .githubDirContents _) hd rfl
  · rename_i hd
    have p1 := callValue_posts (c := .githubDirContents _) hd rfl
    split at h
    · rename_i hf
      have p2 := p1.then_none (fetchFiles_posts _ hf)
      split at h
      · split at h
        · rename_i hp
          cases h
          exact p2.then_none (callError_posts (c := .postFiles _ _) hp rfl)
        · rename_i hp
          cases h
          exact p2.then_none (callError_posts (c := .postFiles _ _) hp rfl)
      · cases h; exact p2
    · rename_i hf
      cases h
      exact p1.then_none (fetchFiles_posts _ hf)

theorem deleteAll_posts {k : String → Call} {answer : List Call → String → GoError}
    (ids : List Int) {w w' : World} {r : GoError}
    (h : deleteAll k answer ids w = (r, w')) (hmk : ∀ s, (k s).isSubUpload = false) :
    SubPosts [] w w' := by
  induction ids generalizing w w' r with
  | nil => unfold deleteAll at h; cases h; exact SubPosts.refl_posts w
  | cons id rest ih =>
    unfold deleteAll at h
    split at h
    · rename_i hc
      cases h
      exact callError_posts hc (hmk _)
    · rename_i hc
      exact (callError_posts hc (hmk _)).then_none (ih h)

theorem createChallenge_posts {env : Env} {challenge : ChallengeConfig}
    {params : PostChallengesParams} {w w' : World} {r : Except String Int}
    (h : createChallenge env challenge params w = (r, w')) : SubPosts [] w w' := by
  unfold createChallenge at h
  split at h
  · exact callValue_posts (c := .postKubeCTFChallenge _) h rfl
  · exact callValue_posts (c := .postChallenges _) h rfl

theorem patchChallengeCall_posts {env : Env} {challenge : ChallengeConfig} {sid : String}
    {id : Int} {params : PatchChallengeParams} {w w' : World} {r : Except String Int}
    (h : patchChallengeCall env challenge sid id params w = (r, w')) : SubPosts [] w w' := by
  unfold patchChallengeCall at h
  split at h
  · exact callValue_posts (c := .patchKubeCTFChallenge _ _) h rfl
  · exact callValue_posts (c := .patchChallenge _ _) h rfl

/-- Calls that post flags are kept by the filter of flag and tag uploads. -/
theorem filter_subUpload_flagCalls (id : Int) (flags : List FlagDef) (n : Nat) :
    ((flags.map (flagCall id)).take n).filter Call.isSubUpload =
      (flags.map (flagCall id)).take n := by
  rw [List.filter_eq_self]
  intro c hc
  have hm := List.mem_of_mem_take hc
  rw [List.mem_map] at hm
  obtain ⟨f, _, hf⟩ := hm
  rw [← hf]
  rfl

/-- Calls that post tags are kept by the filter of flag and tag uploads. -/
theorem filter_subUpload_tagCalls (id : Int) (tags : List String) :
    (tags.map (Call.postTags id ·)).filter Call.isSubUpload = tags.map (Call.postTags id ·) := by
  rw [List.filter_eq_self]
  intro c hc
  rw [List.mem_map] at hc
  obtain ⟨f, _, hf⟩ := hc
  rw [← hf]
  rfl

/-- The loop over the flags posts them in order and stops at the first failure. -/
theorem uploadFlags_calls {env : Env} {id : Int} (flags : List FlagDef) {w w' : World}
    {r : GoError} (h : uploadFlags env id flags w = (r, w')) :
    ∃ n, n ≤ flags.length ∧ w'.trace = w.trace ++ (flags.map (flagCall id)).take n ∧
      (r = none → n = flags.length) ∧
      (∀ e, r = some e → ∃ pre flag post, flags = pre ++ flag :: post ∧ n = pre.length + 1 ∧
        env.postFlags (w.trace ++ pre.map (flagCall id)) id flag.Flag "static"
          (if !flag.CaseSensitive then "case_insensitive" else "") = some e) := by
  induction flags generalizing w w' r with
  | nil =>
    unfold uploadFlags at h
    cases h
    exact ⟨0, Nat.le_refl _, by simp, fun _ => rfl, fun e he => by cases he⟩
  | cons flag rest ih =>
    unfold uploadFlags at h
    split at h
    · rename_i e w1 hc
      cases h
      unfold callError at hc
      injection hc with h1 h2
      refine ⟨1, by simp, ?_, (fun x => by cases x), ?_⟩
      · rw [← h2]
        simp [World.record, flagCall]
      · intro e' he'
        injection he' with he'
        subst he'
        exact ⟨[], flag, rest, rfl, rfl, by simpa using h1⟩
    · rename_i w1 hc
      unfold callError at hc
      injection hc with h1 h2
      obtain ⟨n, hn, ht, hnone, hsome⟩ := ih h
      refine ⟨n + 1, by simpa using hn, ?_, ?_, ?_⟩
      · rw [ht, ← h2]
        simp [World.record, flagCall]
      · intro hr
        rw [hnone hr]
        rfl
      · intro e he
        obtain ⟨pre, f, post, hl, hlen, hans⟩ := hsome e he
        refine ⟨flag :: pre, f, post, by rw [hl]; rfl, by rw [hlen]; rfl, ?_⟩
        rw [← h2] at hans
        simpa [World.record, flagCall] using hans

theorem uploadFlags_posts {env : Env} {id : Int} (flags : List FlagDef) {w w' : World}
    {r : GoError} (h : uploadFlags env id flags w = (r, w')) :
    ∃ n, SubPosts ((flags.map (flagCall id)).take n) w w' ∧ (r = none → n = flags.length) := by
  obtain ⟨n, _, ht, hnone, _⟩ := uploadFlags_calls flags h
  exact ⟨n, ⟨_, ht, filter_subUpload_flagCalls id flags n⟩, hnone⟩

/-- The loop over the tags posts every tag that is not empty, in order, whatever the
content service answers. -/
theorem uploadTags_calls (env : Env) (id : Int) (tags : List String) (w : World) :
    uploadTags env id tags w =
      { cluster := w.cluster
        trace := w.trace ++ (tags.filter (· ≠ "")).map (Call.postTags id ·)
        health := w.health } := by
  induction tags generalizing w with
  | nil => simp [uploadTags]
  | cons tag rest ih =>
    unfold uploadTags
    split
    · rename_i ht
      rw [ih]
      simp [ht]
    · rename_i ht
      rw [ih]
      simp [ht, callError, World.record]

theorem uploadTags_posts (env : Env) (id : Int) (challenge : ChallengeConfig) (w : World) :
    SubPosts (tagCalls id challenge) w (uploadTags env id challenge.Challenge.Tags w) := by
  rw [uploadTags_calls]
  exact ⟨_, rfl, filter_subUpload_tagCalls id _⟩

theorem UploadsOf.none_uploaded (challenge : ChallengeConfig) (id : Int) :
    UploadsOf challenge id [] :=
  Or.inl ⟨0, by simp⟩

/-- The flag and tag uploads of the upload path. -/
theorem uploadCTFdChallenge_uploads {env : Env} {challenge : ChallengeConfig}
    {client : Client} {w w' : World} {r : Result Int}
    (h : uploadCTFdChallenge env challenge client w = (r, w')) :
    ∃ id l, SubPosts l w w' ∧ UploadsOf challenge id l ∧
      ∀ i, r = .ok i → i = id ∧ l = flagCalls id challenge ++ tagCalls id challenge := by
  unfold uploadCTFdChallenge at h
  split at h
  · rename_i hm
    cases h
    exact ⟨0, [], getMappingMap_posts hm, UploadsOf.none_uploaded _ _, fun i hi => by cases hi⟩
  · rename_i hm
    have p1 := getMappingMap_posts hm
    split at h
    · rename_i hc
      cases h
      exact ⟨0, [], p1.then_none (createChallenge_posts hc), UploadsOf.none_uploaded _ _,
        fun i hi => by cases hi⟩
    · rename_i uid w2 hc
      have p2 := p1.then_none (createChallenge_posts hc)
      split at h
      pick_goal 3
      · rename_i hf
        cases h
        exact ⟨uid, [], p2.then_none (uploadCTFdChallengeFile_posts hf),
          UploadsOf.none_uploaded _ _, fun i hi => by cases hi⟩
      · rename_i hf
        cases h
        exact ⟨uid, [], p2.then_none (uploadCTFdChallengeFile_posts hf),
          UploadsOf.none_uploaded _ _, fun i hi => by cases hi⟩
      · rename_i hf
        have p3 := p2.then_none (uploadCTFdChallengeFile_posts hf)
        split at h
        · rename_i hg
          cases h
          obtain ⟨n, pn, _⟩ := uploadFlags_posts _ hg
          exact ⟨uid, _, p3.none_then pn, Or.inl ⟨n, rfl⟩, fun i hi => by cases hi⟩
        · rename_i hg
          obtain ⟨n, pn, hn⟩ := uploadFlags_posts _ hg
          have hfull : (challenge.Challenge.Flag.map (flagCall uid)).take
              challenge.Challenge.Flag.length = flagCalls uid challenge := by
            simp [flagCalls]
          rw [hn rfl, hfull] at pn
          have p4 := (p3.none_then pn).trans_posts (uploadTags_posts env uid challenge _)
          split at h
          · rename_i hset
            cases h
            exact ⟨uid, _, p4.then_none (setUploadedCTFdChallenge_posts hset), Or.inr rfl,
              fun i hi => by cases hi⟩
          · rename_i hset
            cases h
            refine ⟨uid, _, p4.then_none (setUploadedCTFdChallenge_posts hset), Or.inr rfl, ?_⟩
            intro i hi
            injection hi with hi
            exact ⟨hi.symm, rfl⟩

/-- The flag and tag uploads of the update path after its patch call. -/
theorem replaceSubResources_uploads {env : Env} {challenge : ChallengeConfig}
    {challengeId uploadedID : Int} {w w' : World} {r : Result Int}
    (h : replaceSubResources env challenge challengeId uploadedID w = (r, w')) :
    ∃ l, SubPosts l w w' ∧ UploadsOf challenge uploadedID l ∧
      ∀ i, r = .ok i →
        i = uploadedID ∧ l = flagCalls uploadedID challenge ++ tagCalls uploadedID challenge := by
  have none_yet : ∀ {v : World} {e : String}, SubPosts [] w v →
      ∃ l, SubPosts l w v ∧ UploadsOf challenge uploadedID l ∧
        ∀ i, (Result.error e : Result Int) = .ok i →
          i = uploadedID ∧
            l = flagCalls uploadedID challenge ++ tagCalls uploadedID challenge :=
    fun p => ⟨[], p, UploadsOf.none_uploaded _ _, fun i hi => by cases hi⟩
  unfold replaceSubResources at h
  split at h
  · rename_i h1; cases h
    exact none_yet (callValue_posts (c := .getChallengeFiles _) h1 rfl)
  · rename_i h1
    have p1 := callValue_posts (c := .getChallengeFiles _) h1 rfl
    split at h
    · rename_i h2; cases h
      exact none_yet (p1.then_none (deleteAll_posts _ h2 (fun _ => rfl)))
    · rename_i h2
      have p2 := p1.then_none (deleteAll_posts _ h2 (fun _ => rfl))
      split at h
      pick_goal 3
      · rename_i h3; cases h
        exact ⟨[], p2.then_none (uploadCTFdChallengeFile_posts h3),
          UploadsOf.none_uploaded _ _, fun i hi => by cases hi⟩
      · rename_i h3; cases h
        exact none_yet (p2.then_none (uploadCTFdChallengeFile_posts h3))
      · rename_i h3
        have p3 := p2.then_none (uploadCTFdChallengeFile_posts h3)
        split at h
        · rename_i h4; cases h
          exact none_yet (p3.then_none (callValue_posts (c := .getChallengeFlags _) h4 rfl))
        · rename_i h4
          have p4 := p3.then_none (callValue_posts (c := .getChallengeFlags _) h4 rfl)
          split at h
          · rename_i h5; cases h
            exact none_yet (p4.then_none (deleteAll_posts _ h5 (fun _ => rfl)))
          · rename_i h5
            have p5 := p4.then_none (deleteAll_posts _ h5 (fun _ => rfl))
            split at h
            · rename_i h6; cases h
              obtain ⟨n, pn, _⟩ := uploadFlags_posts _ h6
              exact ⟨_, p5.none_then pn, Or.inl ⟨n, rfl⟩, fun i hi => by cases hi⟩
            · rename_i h6
              obtain ⟨n, pn, hn⟩ := uploadFlags_posts _ h6
              have hfull : (challenge.Challenge.Flag.map (flagCall uploadedID)).take
                  challenge.Challenge.Flag.length = flagCalls uploadedID challenge := by
                simp [flagCalls]
              rw [hn rfl, hfull] at pn
              have p6 := p5.none_then pn
              split at h
              · rename_i h7; cases h
                exact ⟨_, p6.then_none (callValue_posts (c := .getTags _) h7 rfl),
                  Or.inl ⟨challenge.Challenge.Flag.length, by simp [flagCalls]⟩,
                  fun i hi => by cases hi⟩
              · rename_i h7
                have p7 := p6.then_none (callValue_posts (c := .getTags _) h7 rfl)
                split at h
                · rename_i h8; cases h
                  exact ⟨_, p7.then_none (deleteAll_posts _ h8 (fun _ => rfl)),
                    Or.inl ⟨challenge.Challenge.Flag.length, by simp [flagCalls]⟩,
                    fun i hi => by cases hi⟩
                · rename_i h8
                  have p8 := (p7.then_none (deleteAll_posts _ h8 (fun _ => rfl))).trans_posts
                    (uploadTags_posts env uploadedID challenge _)
                  split at h
                  · rename_i hset
                    cases h
                    exact ⟨_, p8.then_none (setUploadedCTFdChallenge_posts hset), Or.inr rfl,
                      fun i hi => by cases hi⟩
                  · rename_i hset
                    cases h
                    refine ⟨_, p8.then_none (setUploadedCTFdChallenge_posts hset), Or.inr rfl,
                      ?_⟩
                    intro i hi
                    injection hi with hi
                    exact ⟨hi.symm, rfl⟩

/-- The flag and tag uploads of the update path. -/
theorem updateCTFdChallenge_uploads {env : Env} {challenge : ChallengeConfig}
    {client : Client} {w w' : World} {r : Result Int}
    (h : updateCTFdChallenge env challenge client w = (r, w')) :
    ∃ id l, SubPosts l w w' ∧ UploadsOf challenge id l ∧
      ∀ i, r = .ok i → i = id ∧ l = flagCalls id challenge ++ tagCalls id challenge := by
  have none_yet : ∀ {v : World} {e : String}, SubPosts [] w v →
      ∃ id l, SubPosts l w v ∧ UploadsOf challenge id l ∧
        ∀ i, (Result.error e : Result Int) = .ok i →
          i = id ∧ l = flagCalls id challenge ++ tagCalls id challenge :=
    fun p => ⟨0, [], p, UploadsOf.none_uploaded _ _, fun i hi => by cases hi⟩
  have via_upload : ∀ {v : World}, SubPosts [] w v →
      uploadCTFdChallenge env challenge client v = (r, w') →
      ∃ id l, SubPosts l w w' ∧ UploadsOf challenge id l ∧
        ∀ i, r = .ok i → i = id ∧ l = flagCalls id challenge ++ tagCalls id challenge := by
    intro v p hu
    obtain ⟨id, l, pl, hs, hok⟩ := uploadCTFdChallenge_uploads hu
    exact ⟨id, l, p.none_then pl, hs, hok⟩
  unfold updateCTFdChallenge at h
  split at h
  · rename_i h1; cases h
    exact none_yet (getUploadedCTFdChallenge_posts h1)
  · rename_i h1
    have p1 := getUploadedCTFdChallenge_posts h1
    split at h
    · cases h; exact none_yet p1
    · split at h
      · rename_i h2
        exact via_upload (p1.then_none (getCTFdChallenges_posts h2)) h
      · rename_i h2
        have p2 := p1.then_none (getCTFdChallenges_posts h2)
        split at h
        · exact via_upload p2 h
        · split at h
          · exact via_upload p2 h
          · split at h
            · rename_i h3; cases h
              exact none_yet (p2.then_none (getMappingMap_posts h3))
            · rename_i h3
              have p3 := p2.then_none (getMappingMap_posts h3)
              split at h
              · rename_i h4; cases h
                exact none_yet (p3.then_none (patchChallengeCall_posts h4))
              · rename_i uid w4 h4
                have p4 := p3.then_none (patchChallengeCall_posts h4)
                obtain ⟨l, pl, hs, hok⟩ := replaceSubResources_uploads h
                exact ⟨uid, l, p4.none_then pl, hs, hok⟩

/-- The flag and tag uploads of an upsert: for some remote id, the flags of the
challenge in order up to some point, or all its flags and then all its tags that are
not empty; the latter, with the id returned, when the upsert succeeds. -/
theorem updateOrCreateCTFdChallenge_uploads {env : Env} {challenge : ChallengeConfig}
    {w w' : World} {r : Result Int}
    (h : updateOrCreateCTFdChallenge env challenge w = (r, w')) :
    ∃ id l, SubPosts l w w' ∧ UploadsOf challenge id l ∧
      ∀ i, r = .ok i → i = id ∧ l = flagCalls id challenge ++ tagCalls id challenge := by
  unfold updateOrCreateCTFdChallenge at h
  split at h
  · rename_i h1; cases h
    exact ⟨0, [], getCTFdClient_posts h1, UploadsOf.none_uploaded _ _,
      fun i hi => by cases hi⟩
  · rename_i h1
    have p1 := getCTFdClient_posts h1
    split at h
    rename_i h2
    have p2 := p1.then_none (getUploadedCTFdChallenge_posts h2)
    split at h
    · obtain ⟨id, l, pl, hs, hok⟩ := uploadCTFdChallenge_uploads h
      exact ⟨id, l, p2.none_then pl, hs, hok⟩
    · obtain ⟨id, l, pl, hs, hok⟩ := updateCTFdChallenge_uploads h
      exact ⟨id, l, p2.none_then pl, hs, hok⟩

/-- The tag uploads among the flag and tag uploads of a completed upsert. -/
theorem filter_tagUpload_uploads (id : Int) (challenge : ChallengeConfig) :
    (flagCalls id challenge ++ tagCalls id challenge).filter Call.isTagUpload =
      tagCalls id challenge := by
  have h1 : (flagCalls id challenge).filter Call.isTagUpload = [] := by
    rw [List.filter_eq_nil_iff]
    intro c hc
    simp only [flagCalls, List.mem_map] at hc
    obtain ⟨f, _, hf⟩ := hc
    rw [← hf]
    simp [flagCall, Call.isTagUpload]
  have h2 : (tagCalls id challenge).filter Call.isTagUpload = tagCalls id challenge := by
    rw [List.filter_eq_self]
    intro c hc
    simp only [tagCalls, List.mem_map] at hc
    obtain ⟨f, _, hf⟩ := hc
    rw [← hf]
    rfl
  rw [List.filter_append, h1, h2, List.nil_append]

/-- The flag uploads among the flag and tag uploads of an upsert. -/
theorem filter_flagUpload_uploads {challenge : ChallengeConfig} {id : Int} {l : List Call}
    (h : UploadsOf challenge id l) :
    ∃ n, n ≤ challenge.Challenge.Flag.length ∧
      l.filter Call.isFlagUpload = (flagCalls id challenge).take n ∧
      (l = flagCalls id challenge ++ tagCalls id challenge →
        n = challenge.Challenge.Flag.length) := by
  have hflags : ∀ n, ((flagCalls id challenge).take n).filter Call.isFlagUpload =
      (flagCalls id challenge).take n := by
    intro n
    rw [List.filter_eq_self]
    intro c hc
    have hm := List.mem_of_mem_take hc
    simp only [flagCalls, List.mem_map] at hm
    obtain ⟨f, _, hf⟩ := hm
    rw [← hf]
    rfl
  have htags : (tagCalls id challenge).filter Call.isFlagUpload = [] := by
    rw [List.filter_eq_nil_iff]
    intro c hc
    simp only [tagCalls, List.mem_map] at hc
    obtain ⟨f, _, hf⟩ := hc
    rw [← hf]
    simp [Call.isFlagUpload]
  have hlen : (flagCalls id challenge).length = challenge.Challenge.Flag.length := by
    simp [flagCalls]
  rcases h with ⟨n, hn⟩ | hfull
  · refine ⟨min n challenge.Challenge.Flag.length, Nat.min_le_right _ _, ?_, ?_⟩
    · rw [hn, hflags, ← hlen]
      by_cases hle : n ≤ (flagCalls id challenge).length
      · rw [Nat.min_eq_left hle]
      · have hge : (flagCalls id challenge).length ≤ n := Nat.le_of_not_le hle
        rw [Nat.min_eq_right hge, List.take_of_length_le hge, List.take_length]
    · intro hl
      rw [hn] at hl
      have := congrArg List.length hl
      simp only [List.length_take, List.length_append, hlen] at this
      omega
  · refine ⟨challenge.Challenge.Flag.length, Nat.le_refl _, ?_, fun _ => rfl⟩
    have := hflags (flagCalls id challenge).length
    rw [List.take_length] at this
    rw [hfull, List.filter_append, htags, List.append_nil, this, ← hlen, List.take_length]

/-- The filter of a kind of upload sees only the flag and tag uploads. -/
theorem filter_of_subPosts {l : List Call} {w w' : World} (h : SubPosts l w w')
    (k : Call → Bool) (hk : ∀ c, k c = true → c.isSubUpload = true) :
    (callsSince w w').filter k = l.filter k := by
  obtain ⟨added, ha, hf⟩ := h
  rw [callsSince_eq ha, ← hf, List.filter_filter]
  congr 1
  funext c
  cases hc : k c
  · simp
  · simp [hk c hc]

/-- The failure of a flag upload ends the upsert. -/
theorem aborts_of_isFlagUpload (c : Call) (h : c.isFlagUpload = true) : c.aborts = true := by
  cases c <;> first | rfl | (simp [Call.isFlagUpload] at h)

/-- C24: the loop over the flags of a challenge posts one static flag for each
definition, in the order of the definitions, with the content of the definition, until
the first upload that fails, whose error it returns; it posts all of them when it
returns no error.  So the flag uploads of an upsert are, for one remote id, the flags
of the challenge in order up to some point, and all of them when the upsert succeeds.
A flag upload that fails is the last call of the upsert, which then returns an error.
The data qualifier of a flag is "case_insensitive" exactly when the definition is not
case-sensitive, and empty exactly when it is. -/
theorem flags_posted_in_order (env : Env) (challenge : ChallengeConfig) (w : World) :
    (∀ id flags v, ∃ n, n ≤ flags.length ∧
      (uploadFlags env id flags v).2.trace = v.trace ++ (flags.map (flagCall id)).take n ∧
      ((uploadFlags env id flags v).1 = none → n = flags.length) ∧
      (∀ e, (uploadFlags env id flags v).1 = some e →
        ∃ pre flag post, flags = pre ++ flag :: post ∧ n = pre.length + 1 ∧
          env.postFlags (v.trace ++ pre.map (flagCall id)) id flag.Flag "static"
            (if !flag.CaseSensitive then "case_insensitive" else "") = some e)) ∧
    (∃ id n, n ≤ challenge.Challenge.Flag.length ∧
      (callsSince w (updateOrCreateCTFdChallenge env challenge w).2).filter Call.isFlagUpload =
        (challenge.Challenge.Flag.map (flagCall id)).take n ∧
      (∀ i, (updateOrCreateCTFdChallenge env challenge w).1 = .ok i →
        i = id ∧ n = challenge.Challenge.Flag.length)) ∧
    (∀ pre c post,
      (updateOrCreateCTFdChallenge env challenge w).2.trace = w.trace ++ (pre ++ c :: post) →
      c.isFlagUpload = true → c.failsIn env (w.trace ++ pre) = true →
      post = [] ∧ ∃ e, (updateOrCreateCTFdChallenge env challenge w).1 = .error e) ∧
    (∀ id flag, ∃ data, flagCall id flag = .postFlags id flag.Flag "static" data ∧
      (data = "case_insensitive" ↔ flag.CaseSensitive = false) ∧
      (data = "" ↔ flag.CaseSensitive = true)) := by
  have hrun : updateOrCreateCTFdChallenge env challenge w =
      ((updateOrCreateCTFdChallenge env challenge w).1,
        (updateOrCreateCTFdChallenge env challenge w).2) := rfl
  refine ⟨?_, ?_, ?_, ?_⟩
  · intro id flags v
    exact uploadFlags_calls flags
      (show uploadFlags env id flags v =
        ((uploadFlags env id flags v).1, (uploadFlags env id flags v).2) from rfl)
  · obtain ⟨id, l, pl, hs, hok⟩ := updateOrCreateCTFdChallenge_uploads hrun
    obtain ⟨n, hn, hf, hfull⟩ := filter_flagUpload_uploads hs
    refine ⟨id, n, hn, ?_, ?_⟩
    · rw [filter_of_subPosts pl Call.isFlagUpload (fun c hc => by simp [Call.isSubUpload, hc])]
      exact hf
    · intro i hi
      exact ⟨(hok i hi).1, hfull (hok i hi).2⟩
  · intro pre c post ht hc hf
    obtain ⟨added, ha, hq⟩ := updateOrCreateCTFdChallenge_failFast hrun
    rw [ha] at ht
    have hab : c.aborts = true := aborts_of_isFlagUpload c hc
    have := hq pre c post (List.append_cancel_left ht) hab hf
    refine ⟨this.1, ?_⟩
    cases hr : (updateOrCreateCTFdChallenge env challenge w).1 with
    | error e => exact ⟨e, rfl⟩
    | ok v =>
      have h2 := this.2
      rw [hr] at h2
      cases h2
    | panicked =>
      have h2 := this.2
      rw [hr] at h2
      cases h2
  · intro id flag
    refine ⟨_, rfl, ?_, ?_⟩
    · cases flag.CaseSensitive <;> simp
    · cases flag.CaseSensitive <;> simp

set_option maxRecDepth 100000 in
/-- C24 on a content service that refuses every flag: the upsert of `pwn-101` posts
the flag "FLAG-x" with the qualifier "case_insensitive", that call is its last call,
and it returns an error. -/
theorem flags_posted_in_order_witness :
    ([] : List Call) = [] ∧
    ∃ e, (updateOrCreateCTFdChallenge flagsDownEnv pwn101 demoWorld).1 = .error e :=
  (flags_posted_in_order flagsDownEnv pwn101 demoWorld).2.2.1
    [.getNonceAndSession, .clusterGet "ctfd-access-token", .clusterGet "ctfd-challenges",
      .clusterGet "mapping-map",
      .postChallenges (postParamsOf pwn101 ⟨GoMap.empty, GoMap.empty, GoMap.empty⟩),
      .githubDirContents (filesDirPath pwn101),
      .githubFileBytes (filesDirPath pwn101 ++ "/a.txt"),
      .postFiles 7 [⟨"a.txt", "data"⟩]]
    (.postFlags 7 "FLAG-x" "static" "case_insensitive") []
    (by decide) (by decide) (by decide)

/-! ## The upsert when every call but the tag uploads succeeds -/

theorem callValue_not_error {α : Type} {c : Call} {answer : List Call → Except String α}
    {w w' : World} {e : String} (h : callValue c answer w = (.error e, w'))
    (hans : ∃ v, answer w.trace = .ok v) : False := by
  obtain ⟨v, hv⟩ := hans
  simp only [callValue, hv] at h
  cases h

theorem deleteAll_ok {k : String → Call} {answer : List Call → String → GoError}
    (hk : ∀ t s, answer t s = none) (ids : List Int) (w : World) :
    (deleteAll k answer ids w).1 = none := by
  induction ids generalizing w with
  | nil => rfl
  | cons id rest ih =>
    simp only [deleteAll, callError, hk]
    exact ih _

theorem patchChallengeCall_ok {env : Env} (R : Reliable env) (challenge : ChallengeConfig)
    (sid : String) (id : Int) (params : PatchChallengeParams) (w : World) :
    ∃ r, (patchChallengeCall env challenge sid id params w).1 = .ok r := by
  unfold patchChallengeCall
  split
  · obtain ⟨r, h⟩ := R.patchKubeCTFChallenge w.trace sid
      { PatchChallengeParams := params, TemplateName := kubectfSlug challenge.Challenge,
        InstanceType := instanceTypeOf challenge.Challenge }
    exact ⟨r, by simp only [callValue, h]⟩
  · obtain ⟨r, h⟩ := R.patchChallenge w.trace id params
    exact ⟨r, by simp only [callValue, h]⟩

theorem deleteAll_not_error {k : String → Call} {answer : List Call → String → GoError}
    {ids : List Int} {w w' : World} {e : String}
    (h : deleteAll k answer ids w = (some e, w')) (hk : ∀ t s, answer t s = none) : False := by
  have := deleteAll_ok (k := k) hk ids w
  rw [h] at this
  cases this

theorem uploadCTFdChallengeFile_not_error {env : Env} (R : Reliable env) {id : Int}
    {challenge : ChallengeConfig} {w w' : World} {e : String}
    (h : uploadCTFdChallengeFile env id challenge w = (.error e, w')) : False := by
  have := uploadCTFdChallengeFile_ok R id challenge w
  rw [h] at this
  cases this

theorem uploadCTFdChallengeFile_not_panicked {env : Env} (R : Reliable env) {id : Int}
    {challenge : ChallengeConfig} {w w' : World}
    (h : uploadCTFdChallengeFile env id challenge w = (.panicked, w')) : False := by
  have := uploadCTFdChallengeFile_ok R id challenge w
  rw [h] at this
  cases this

theorem uploadFlags_not_error {env : Env} (R : Reliable env) {id : Int}
    {flags : List FlagDef} {w w' : World} {e : String}
    (h : uploadFlags env id flags w = (some e, w')) : False := by
  have := uploadFlags_ok R id flags w
  rw [h] at this
  cases this

theorem setUploadedCTFdChallenge_not_error {env : Env} (R : Reliable env) {slug : String}
    {id : Int} {w w' : World} {c : ConfigMap} {e : String}
    (h : setUploadedCTFdChallenge env slug id w = (some e, w'))
    (hc : w.cluster "ctfd-challenges" = some c) : False := by
  have := setUploadedCTFdChallenge_ok R slug id hc
  rw [h] at this
  cases this

/-- When every call succeeds and the binding record exists, the part of the update path
after the patch succeeds. -/
theorem replaceSubResources_ok {env : Env} (R : Reliable env) (challenge : ChallengeConfig)
    (challengeId uploadedID : Int) {w : World} {b : ConfigMap}
    (hb : w.cluster "ctfd-challenges" = some b) :
    (replaceSubResources env challenge challengeId uploadedID w).1 = .ok uploadedID := by
  unfold replaceSubResources
  split
  · rename_i h; exact (callValue_not_error h (R.getChallengeFiles _ _)).elim
  · rename_i h1
    have p1 := callValue_frame (c := .getChallengeFiles _) h1 rfl
    split
    · rename_i h
      exact (deleteAll_not_error h (fun t s => R.deleteFile t s)).elim
    · rename_i h2
      have p2 := p1.trans_plumb (deleteAll_frame (k := .deleteFile) (fun _ => rfl) _ h2)
      split
      pick_goal 3
      · rename_i h
        exact (uploadCTFdChallengeFile_not_panicked R h).elim
      · rename_i h
        exact (uploadCTFdChallengeFile_not_error R h).elim
      · rename_i h3
        have p3 := p2.trans_plumb (uploadCTFdChallengeFile_frame h3)
        split
        · rename_i h; exact (callValue_not_error h (R.getChallengeFlags _ _)).elim
        · rename_i h4
          have p4 := p3.trans_plumb (callValue_frame (c := .getChallengeFlags _) h4 rfl)
          split
          · rename_i h
            exact (deleteAll_not_error h (fun t s => R.deleteFlag t s)).elim
          · rename_i h5
            have p5 := p4.trans_plumb (deleteAll_frame (k := .deleteFlag) (fun _ => rfl) _ h5)
            split
            · rename_i h
              exact (uploadFlags_not_error R h).elim
            · rename_i h6
              have p6 := p5.trans_plumb (uploadFlags_frame _ h6)
              split
              · rename_i h; exact (callValue_not_error h (R.getTags _ _)).elim
              · rename_i h7
                have p7 := p6.trans_plumb (callValue_frame (c := .getTags _) h7 rfl)
                split
                · rename_i h
                  exact (deleteAll_not_error h (fun t s => R.deleteTag t s)).elim
                · rename_i h8
                  have p8 := (p7.trans_plumb
                    (deleteAll_frame (k := .deleteTag) (fun _ => rfl) _ h8)).trans_plumb
                    (uploadTags_frame (e := env) (i := uploadedID) challenge.Challenge.Tags _)
                  split
                  · rename_i h
                    exact (setUploadedCTFdChallenge_not_error R h
                      (by rw [p8.1.1]; exact hb)).elim
                  · rfl

/-- When every call succeeds, the records exist and the bound id is a number, the
update path succeeds. -/
theorem updateCTFdChallenge_ok {env : Env} (R : Reliable env) (challenge : ChallengeConfig)
    (client : Client) {w : World} {a bc : ConfigMap} {m : MappingMap} {s : String} {b : Int}
    (hm : w.cluster "mapping-map" = some a) (hd : decodeMappingMap env a.Data = .ok m)
    (hb : w.cluster "ctfd-challenges" = some bc)
    (hbnd : challengeBinding w challenge.Challenge.Slug = some s) (h1 : s ≠ "") (h0 : s ≠ "0")
    (ha : atoi s = .ok b) :
    ∃ id, (updateCTFdChallenge env challenge client w).1 = .ok id := by
  have hu1 := getUploadedCTFdChallenge_bound env _ w (R.clusterGet _ _) hbnd h1 h0
  unfold updateCTFdChallenge
  split
  · rename_i h2; rw [h2] at hu1; cases hu1
  · rename_i sid w1 h2
    rw [h2] at hu1
    cases hu1
    have p1 := getUploadedCTFdChallenge_frame h2
    rw [ha]
    simp only []
    have via_upload : ∀ v : World, Plumb w v →
        ∃ id, (uploadCTFdChallenge env challenge client v).1 = .ok id := fun v p =>
      uploadCTFdChallenge_ok R challenge client (by rw [p.1.1]; exact hm) hd
        (by rw [p.1.1]; exact hb)
    split
    · rename_i h3
      exact via_upload _ (p1.trans_plumb (getCTFdChallenges_frame h3))
    · rename_i h3
      have p2 := p1.trans_plumb (getCTFdChallenges_frame h3)
      split
      · exact via_upload _ p2
      · split
        · exact via_upload _ p2
        · split
          · rename_i h4
            have := getMappingMap_ok R (w := _) (by rw [p2.1.1]; exact hm) hd
            rw [h4] at this; cases this
          · rename_i h4
            have p3 := p2.trans_plumb (getMappingMap_frame h4)
            split
            · rename_i cmm w3 _ _ _ h5
              obtain ⟨r, hr⟩ := patchChallengeCall_ok R challenge s b
                (patchParamsOf challenge cmm) w3
              rw [h5] at hr; cases hr
            · rename_i uid w4 h5
              have p4 := (patchChallengeCall_frame h5).1
              exact ⟨uid, replaceSubResources_ok R challenge b uid
                (by rw [p4.1, p3.1.1]; exact hb)⟩

/-- When every call succeeds, the records exist and the binding, if any, is the
sentinel or a number, the upsert succeeds. -/
theorem updateOrCreateCTFdChallenge_ok {env : Env} (R : Reliable env)
    (challenge : ChallengeConfig) {w : World} {a bc : ConfigMap} {m : MappingMap}
    (hm : w.cluster "mapping-map" = some a) (hd : decodeMappingMap env a.Data = .ok m)
    (hb : w.cluster "ctfd-challenges" = some bc)
    (hbind : ∀ s, challengeBinding w challenge.Challenge.Slug = some s →
      s = "" ∨ s = "0" ∨ ∃ b, atoi s = .ok b) :
    ∃ id, (updateOrCreateCTFdChallenge env challenge w).1 = .ok id := by
  obtain ⟨client, hcl⟩ := getCTFdClient_of_session (R.getNonceAndSession w.trace)
  have unbound : (challengeBinding w challenge.Challenge.Slug = none ∨
      challengeBinding w challenge.Challenge.Slug = some "" ∨
      challengeBinding w challenge.Challenge.Slug = some "0") →
      ∃ id, (updateOrCreateCTFdChallenge env challenge w).1 = .ok id := by
    intro hu
    cases hr : updateOrCreateCTFdChallenge env challenge w with
    | mk r w' =>
      rcases updateOrCreateCTFdChallenge_unbound hu hr with ⟨e, w1, he⟩ | ⟨c, w2, p, hup⟩
      · rw [hcl] at he; cases he
      · obtain ⟨id, hid⟩ := uploadCTFdChallenge_ok R challenge c (w := w2)
          (by rw [p.1.1]; exact hm) hd (by rw [p.1.1]; exact hb)
        rw [hup] at hid
        exact ⟨id, hid⟩
  cases hbw : challengeBinding w challenge.Challenge.Slug with
  | none => exact unbound (Or.inl hbw)
  | some s =>
    by_cases h1 : s = ""
    · subst h1; exact unbound (Or.inr (Or.inl hbw))
    · by_cases h0 : s = "0"
      · subst h0; exact unbound (Or.inr (Or.inr hbw))
      · rcases hbind s hbw with h | h | ⟨b, hab⟩
        · exact absurd h h1
        · exact absurd h h0
        · have hu1 := getUploadedCTFdChallenge_bound env challenge.Challenge.Slug
            ((w.record .getNonceAndSession).record (.clusterGet "ctfd-access-token"))
            (R.clusterGet _ _) hbw h1 h0
          have hu : getUploadedCTFdChallenge env challenge.Challenge.Slug
              ((w.record .getNonceAndSession).record (.clusterGet "ctfd-access-token")) =
              ((s, none), (getUploadedCTFdChallenge env challenge.Challenge.Slug
                ((w.record .getNonceAndSession).record
                  (.clusterGet "ctfd-access-token"))).2) := Prod.ext hu1 rfl
          have p := getUploadedCTFdChallenge_frame hu
          simp only [updateOrCreateCTFdChallenge, hcl]
          rw [hu]
          simp only []
          rw [if_neg (by simp [h1, h0])]
          exact updateCTFdChallenge_ok R challenge client
            (by rw [p.1.1]; exact hm) hd (by rw [p.1.1]; exact hb)
            (by simp only [challengeBinding, storedValue, p.1.1]
                simpa only [challengeBinding, storedValue] using hbw) h1 h0 hab

/-- A successful run of the part of the update path after the patch binds the slug to
the id it returns. -/
theorem replaceSubResources_binds {env : Env} {challenge : ChallengeConfig}
    {challengeId uploadedID id : Int} {w w' : World}
    (h : replaceSubResources env challenge challengeId uploadedID w = (.ok id, w')) :
    challengeBinding w' challenge.Challenge.Slug = some (itoa id) := by
  unfold replaceSubResources at h
  repeat' (split at h <;> try cases h)
  rename_i hset
  rw [setUploadedCTFdChallenge_ok_inv hset, if_pos rfl]

/-- A successful run of the update path binds the slug to the id it returns. -/
theorem updateCTFdChallenge_binds {env : Env} {challenge : ChallengeConfig}
    {client : Client} {id : Int} {w w' : World}
    (h : updateCTFdChallenge env challenge client w = (.ok id, w')) :
    challengeBinding w' challenge.Challenge.Slug = some (itoa id) := by
  have via_upload : ∀ v : World, uploadCTFdChallenge env challenge client v = (.ok id, w') →
      challengeBinding w' challenge.Challenge.Slug = some (itoa id) := by
    intro v hu
    rw [(uploadCTFdChallenge_ok_inv hu).1, if_pos rfl]
  unfold updateCTFdChallenge at h
  split at h
  · cases h
  · split at h
    · cases h
    · split at h
      · exact via_upload _ h
      · split at h
        · exact via_upload _ h
        · split at h
          · exact via_upload _ h
          · split at h
            · cases h
            · split at h
              · cases h
              · exact replaceSubResources_binds h

/-- A successful upsert binds the slug to the id it returns. -/
theorem updateOrCreateCTFdChallenge_binds_slug {env : Env} {challenge : ChallengeConfig}
    {id : Int} {w w' : World}
    (h : updateOrCreateCTFdChallenge env challenge w = (.ok id, w')) :
    challengeBinding w' challenge.Challenge.Slug = some (itoa id) := by
  unfold updateOrCreateCTFdChallenge at h
  split at h
  · cases h
  · split at h
    split at h
    · rw [(uploadCTFdChallenge_ok_inv h).1, if_pos rfl]
    · exact updateCTFdChallenge_binds h

/-- The file loop never consults the answers of the tag uploads. -/
theorem fetchFiles_withTagUploads (env : Env) (f : List Call → Int → String → GoError)
    (dir : String) (names : List String) (w : World) :
    fetchFiles (env.withTagUploads f) dir names w = fetchFiles env dir names w := by
  induction names generalizing w with
  | nil => rfl
  | cons name rest ih => simp only [fetchFiles, ih]; rfl

/-- The file step never consults the answers of the tag uploads. -/
theorem uploadCTFdChallengeFile_withTagUploads (env : Env)
    (f : List Call → Int → String → GoError) (id : Int) (challenge : ChallengeConfig)
    (w : World) :
    uploadCTFdChallengeFile (env.withTagUploads f) id challenge w =
      uploadCTFdChallengeFile env id challenge w := by
  simp only [uploadCTFdChallengeFile, fetchFiles_withTagUploads]; rfl

/-- The flag loop never consults the answers of the tag uploads. -/
theorem uploadFlags_withTagUploads (env : Env) (f : List Call → Int → String → GoError)
    (id : Int) (flags : List FlagDef) (w : World) :
    uploadFlags (env.withTagUploads f) id flags w = uploadFlags env id flags w := by
  induction flags generalizing w with
  | nil => rfl
  | cons flag rest ih => simp only [uploadFlags, ih]; rfl

/-- The tag loop reaches the same world whatever the tag uploads answer. -/
theorem uploadTags_withTagUploads (env : Env) (f : List Call → Int → String → GoError)
    (id : Int) (tags : List String) (w : World) :
    uploadTags (env.withTagUploads f) id tags w = uploadTags env id tags w := by
  rw [uploadTags_calls, uploadTags_calls]

/-- The upload path runs the same whatever the tag uploads answer. -/
theorem uploadCTFdChallenge_withTagUploads (env : Env)
    (f : List Call → Int → String → GoError) (challenge : ChallengeConfig) (client : Client)
    (w : World) :
    uploadCTFdChallenge (env.withTagUploads f) challenge client w =
      uploadCTFdChallenge env challenge client w := by
  simp only [uploadCTFdChallenge, uploadCTFdChallengeFile_withTagUploads,
    uploadFlags_withTagUploads, uploadTags_withTagUploads]
  rfl

/-- The part of the update path after the patch runs the same whatever the tag uploads
answer. -/
theorem replaceSubResources_withTagUploads (env : Env)
    (f : List Call → Int → String → GoError) (challenge : ChallengeConfig)
    (challengeId uploadedID : Int) (w : World) :
    replaceSubResources (env.withTagUploads f) challenge challengeId uploadedID w =
      replaceSubResources env challenge challengeId uploadedID w := by
  simp only [replaceSubResources, uploadCTFdChallengeFile_withTagUploads,
    uploadFlags_withTagUploads, uploadTags_withTagUploads]
  rfl

/-- The update path runs the same whatever the tag uploads answer. -/
theorem updateCTFdChallenge_withTagUploads (env : Env)
    (f : List Call → Int → String → GoError) (challenge : ChallengeConfig) (client : Client)
    (w : World) :
    updateCTFdChallenge (env.withTagUploads f) challenge client w =
      updateCTFdChallenge env challenge client w := by
  simp only [updateCTFdChallenge, uploadCTFdChallenge_withTagUploads,
    replaceSubResources_withTagUploads]
  rfl

/-- The upsert runs the same whatever the tag uploads answer. -/
theorem updateOrCreateCTFdChallenge_withTagUploads (env : Env)
    (f : List Call → Int → String → GoError) (challenge : ChallengeConfig) (w : World) :
    updateOrCreateCTFdChallenge (env.withTagUploads f) challenge w =
      updateOrCreateCTFdChallenge env challenge w := by
  simp only [updateOrCreateCTFdChallenge, uploadCTFdChallenge_withTagUploads,
    updateCTFdChallenge_withTagUploads]
  rfl

set_option maxRecDepth 100000 in
/-- C23, as stated, fails: every call answers, and yet the upsert does not succeed.
With the slug bound to the text "abc" the binding does not parse as a number and the
upsert returns that error, making no remote write.  With a mapping map that does not
decode the upsert returns an error before it creates anything.  With a sub-directory
listed in the files directory the fetch of that entry answers without a file content,
and the upsert panics after the create call: no flag, no tag is uploaded and the slug
is not bound. -/
theorem upsert_fails_though_every_call_answers :
    Reliable demoEnv ∧
    challengeBinding (boundChallengeWorld "pwn-101" "abc") "pwn-101" = some "abc" ∧
    (updateOrCreateCTFdChallenge demoEnv pwn101 (boundChallengeWorld "pwn-101" "abc")).1 =
      .error "strconv.Atoi: parsing \"abc\": invalid syntax" ∧
    (updateOrCreateCTFdChallenge demoEnv pwn101
      (boundChallengeWorld "pwn-101" "abc")).2.trace.countP Call.isEntityCall = 0 ∧
    decodeMappingMap demoEnv (some (GoMap.ofList [("categories", "not json")])) =
      .error "invalid character" ∧
    (updateOrCreateCTFdChallenge demoEnv pwn101 garbledMapWorld).1 =
      .error "error getting mapping map" ∧
    (updateOrCreateCTFdChallenge demoEnv pwn101 garbledMapWorld).2.trace.countP
      Call.isEntityCall = 0 ∧
    (∀ t path, subdirEnv.githubDirContents t path = .ok ["src"]) ∧
    (∀ t path, subdirEnv.githubFileBytes t path = .ok none) ∧
    (updateOrCreateCTFdChallenge subdirEnv pwn101 demoWorld).1 = .panicked ∧
    (updateOrCreateCTFdChallenge subdirEnv pwn101 demoWorld).2.trace =
      [.getNonceAndSession, .clusterGet "ctfd-access-token", .clusterGet "ctfd-challenges",
        .clusterGet "mapping-map",
        .postChallenges (postParamsOf pwn101 ⟨GoMap.empty, GoMap.empty, GoMap.empty⟩),
        .githubDirContents (filesDirPath pwn101),
        .githubFileBytes (filesDirPath pwn101 ++ "/src")] ∧
    challengeBinding (updateOrCreateCTFdChallenge subdirEnv pwn101 demoWorld).2 "pwn-101" =
      none := by
  refine ⟨demoEnv_reliable, by decide, by decide, by decide, by decide, by decide, by decide,
    fun _ _ => rfl, fun _ _ => rfl, by decide, by decide, by decide⟩

/-- C23, amended: tag upload is tolerant.  Let every call other than a tag upload
succeed (the collaborators with the tag uploads made to succeed are reliable: every call
answers with a value, and every entry of the files directory whose bytes are fetched is
a file, whose content is returned), let the config maps of the mapping map and of the
bindings exist and the mapping map decode, and let the binding of the slug, if any, be
the empty string, the sentinel "0" or a decimal number.  Then the upsert succeeds with
an id, the slug is bound to that id afterwards, the tag uploads made during the upsert
are exactly one per non-empty tag, in order, none for an empty tag, and the whole run is
the same whatever the tag uploads answer. -/
theorem tag_upload_is_tolerant (env : Env) (challenge : ChallengeConfig) (w : World)
    (mc bc : ConfigMap) (m : MappingMap)
    (R : ReliableApartFromTags env)
    (hM : w.cluster "mapping-map" = some mc) (hD : decodeMappingMap env mc.Data = .ok m)
    (hB : w.cluster "ctfd-challenges" = some bc)
    (hbind : ∀ s, challengeBinding w challenge.Challenge.Slug = some s →
      s = "" ∨ s = "0" ∨ ∃ b, atoi s = .ok b) :
    ∃ id,
      (updateOrCreateCTFdChallenge env challenge w).1 = .ok id ∧
      challengeBinding (updateOrCreateCTFdChallenge env challenge w).2
        challenge.Challenge.Slug = some (itoa id) ∧
      (callsSince w (updateOrCreateCTFdChallenge env challenge w).2).filter Call.isTagUpload =
        (challenge.Challenge.Tags.filter (· ≠ "")).map (.postTags id ·) ∧
      ∀ answers, updateOrCreateCTFdChallenge (env.withTagUploads answers) challenge w =
        updateOrCreateCTFdChallenge env challenge w := by
  have same := updateOrCreateCTFdChallenge_withTagUploads env
  obtain ⟨id, hid⟩ := updateOrCreateCTFdChallenge_ok R challenge hM hD hB hbind
  rw [same] at hid
  have hrun : updateOrCreateCTFdChallenge env challenge w =
      (.ok id, (updateOrCreateCTFdChallenge env challenge w).2) := Prod.ext hid rfl
  obtain ⟨uid, l, hposts, _, hl⟩ := updateOrCreateCTFdChallenge_uploads hrun
  obtain ⟨rfl, rfl⟩ := hl id rfl
  refine ⟨id, hid, updateOrCreateCTFdChallenge_binds_slug hrun, ?_,
    fun answers => same answers challenge w⟩
  rw [filter_of_subPosts hposts Call.isTagUpload (fun c hc => by simp [Call.isSubUpload, hc]),
    filter_tagUpload_uploads]
  rfl

set_option maxRecDepth 100000 in
/-- C23, amended, on a content service that refuses every tag upload: the upsert of `pwn-101`,
whose tags are "t1" and the empty tag, succeeds, binds the slug, and has attempted the
one upload of "t1". -/
theorem tag_upload_is_tolerant_witness :
    tagsDownEnv.postTags [] 7 "t1" = some "500 internal server error" ∧
    ∃ id,
      (updateOrCreateCTFdChallenge tagsDownEnv pwn101 demoWorld).1 = .ok id ∧
      challengeBinding (updateOrCreateCTFdChallenge tagsDownEnv pwn101 demoWorld).2
        pwn101.Challenge.Slug = some (itoa id) ∧
      (callsSince demoWorld
        (updateOrCreateCTFdChallenge tagsDownEnv pwn101 demoWorld).2).filter Call.isTagUpload =
        (pwn101.Challenge.Tags.filter (· ≠ "")).map (.postTags id ·) ∧
      ∀ answers, updateOrCreateCTFdChallenge (tagsDownEnv.withTagUploads answers) pwn101
        demoWorld = updateOrCreateCTFdChallenge tagsDownEnv pwn101 demoWorld :=
  ⟨rfl, tag_upload_is_tolerant tagsDownEnv pwn101 demoWorld
    ⟨"mapping-map", GoMap.empty, none⟩ ⟨"ctfd-challenges", GoMap.empty, none⟩
    ⟨GoMap.empty, GoMap.empty, GoMap.empty⟩
    (by constructor <;> intros <;> first | rfl | exact ⟨_, rfl⟩)
    (by decide) (by decide) (by decide)
    (fun s h => Option.noConfusion
      ((show challengeBinding demoWorld pwn101.Challenge.Slug = none by decide).symm.trans h))⟩


/-- The create step answers before anything else of the upload is done: when the mapping
map is read and a later step fails, the upload returns that error and has changed no
config map. -/
theorem uploadCTFdChallenge_partly_failed {env : Env} {challenge : ChallengeConfig}
    (client : Client) {w w1 w2 : World} {m : MappingMap} {id : Int}
    (hmap : getMappingMap env w = (.ok m, w1))
    (hcreate : createChallenge env challenge (postParamsOf challenge m) w1 = (.ok id, w2))
    (hlater : (∃ e, (uploadCTFdChallengeFile env id challenge w2).1 = .error e) ∨
      ((∃ i, (uploadCTFdChallengeFile env id challenge w2).1 = .ok i) ∧
        ∃ e, (uploadFlags env id challenge.Challenge.Flag
          (uploadCTFdChallengeFile env id challenge w2).2).1 = some e)) :
    (∃ e, (uploadCTFdChallenge env challenge client w).1 = .error e) ∧
      (uploadCTFdChallenge env challenge client w).2.cluster = w.cluster := by
  have p1 := getMappingMap_frame hmap
  have p2 := (createChallenge_frame hcreate).1
  simp only [uploadCTFdChallenge, hmap, hcreate]
  cases hf : uploadCTFdChallengeFile env id challenge w2 with
  | mk rf w3 =>
    have p3 := uploadCTFdChallengeFile_frame hf
    rw [hf] at hlater
    cases rf with
    | error e => exact ⟨⟨e, rfl⟩, by simp only []; rw [p3.1.1, p2.1, p1.1.1]⟩
    | ok i =>
      simp only []
      rcases hlater with ⟨e, he⟩ | ⟨_, e, he⟩
      · cases he
      · cases hg : uploadFlags env id challenge.Challenge.Flag w3 with
        | mk rg w4 =>
          have p4 := uploadFlags_frame _ hg
          rw [hg] at he
          simp only [] at he
          subst he
          exact ⟨⟨e, rfl⟩, by simp only []; rw [p4.1.1, p3.1.1, p2.1, p1.1.1]⟩
    | panicked =>
      rcases hlater with ⟨e, he⟩ | ⟨⟨i, hi⟩, _⟩
      · cases he
      · cases hi

set_option maxRecDepth 100000 in
/-- C29, as stated, fails for a slug that is bound when the upload runs. The slug
`pwn-101` is bound to the remote id 7; the listing times out, so the update path falls
back to the upload; the create call succeeds with the id 8 and the flag upload is
refused, so the upsert returns an error and the slug stays bound to 7. The next upsert
of the slug finds challenge 7 in the listing and patches it: it issues no create
call. -/
theorem bound_slug_is_patched_after_failed_create :
    (updateOrCreateCTFdChallenge recoveringEnv pwn101 (boundChallengeWorld "pwn-101" "7")).1 =
      .error "500 internal server error" ∧
    afterFailedCreate.trace =
      [.getNonceAndSession, .clusterGet "ctfd-access-token", .clusterGet "ctfd-challenges",
        .clusterGet "ctfd-challenges", .getNonceAndSession, .clusterGet "ctfd-access-token",
        .getChallenges, .clusterGet "mapping-map",
        .postChallenges (postParamsOf pwn101 ⟨GoMap.empty, GoMap.empty, GoMap.empty⟩),
        .githubDirContents (filesDirPath pwn101),
        .githubFileBytes (filesDirPath pwn101 ++ "/a.txt"),
        .postFiles 8 [⟨"a.txt", "data"⟩],
        .postFlags 8 "FLAG-x" "static" "case_insensitive"] ∧
    recoveringEnv.postChallenges afterFailedCreate.trace
      (postParamsOf pwn101 ⟨GoMap.empty, GoMap.empty, GoMap.empty⟩) = .ok 8 ∧
    challengeBinding afterFailedCreate "pwn-101" = some "7" ∧
    (updateOrCreateCTFdChallenge recoveringEnv pwn101 afterFailedCreate).1 = .ok 7 ∧
    (callsSince afterFailedCreate
      (updateOrCreateCTFdChallenge recoveringEnv pwn101 afterFailedCreate).2).countP
        Call.isCreate = 0 ∧
    .patchChallenge 7 (patchParamsOf pwn101 ⟨GoMap.empty, GoMap.empty, GoMap.empty⟩) ∈
      callsSince afterFailedCreate
        (updateOrCreateCTFdChallenge recoveringEnv pwn101 afterFailedCreate).2 := by
  refine ⟨by decide, by decide, by decide, by decide, by decide, by decide, by decide⟩

/-- A mapping map that was read is the decoded payload of the config map `mapping-map`. -/
theorem getMappingMap_ok_inv {env : Env} {w w' : World} {m : MappingMap}
    (h : getMappingMap env w = (.ok m, w')) :
    ∃ mc, w.cluster "mapping-map" = some mc ∧ decodeMappingMap env mc.Data = .ok m := by
  unfold getMappingMap at h
  split at h
  · cases h
  · rename_i hc
    obtain ⟨c0, h0, rfl⟩ := clusterGet_ok_inv hc
    exact ⟨c0, h0, congrArg Prod.fst h⟩

/-- C29, amended. In a run of `uploadCTFdChallenge` in which the mapping map is read, the
create call succeeds and a later step fails (the file step returns an error, or it
returns the id and a flag upload is refused), the upload returns an error, the create call is the one remote write it has made, and no config map
is changed: every slug has the binding it had before. A slug that had no binding before
(none, the empty string or the sentinel "0") therefore has none afterwards, and the next
upsert of that slug from that cluster state, when its session opens and the mapping map
can be read, makes exactly one create call again. -/
theorem partly_failed_create_keeps_bindings (env : Env) (challenge : ChallengeConfig)
    (client : Client) (w w1 w2 : World) (m : MappingMap) (id : Int)
    (hmap : getMappingMap env w = (.ok m, w1))
    (hcreate : createChallenge env challenge (postParamsOf challenge m) w1 = (.ok id, w2))
    (hlater : (∃ e, (uploadCTFdChallengeFile env id challenge w2).1 = .error e) ∨
      ((∃ i, (uploadCTFdChallengeFile env id challenge w2).1 = .ok i) ∧
        ∃ e, (uploadFlags env id challenge.Challenge.Flag
          (uploadCTFdChallengeFile env id challenge w2).2).1 = some e)) :
    (∃ e, (uploadCTFdChallenge env challenge client w).1 = .error e) ∧
    OneCall Call.isCreate w (uploadCTFdChallenge env challenge client w).2 ∧
    (uploadCTFdChallenge env challenge client w).2.cluster = w.cluster ∧
    (∀ slug, challengeBinding (uploadCTFdChallenge env challenge client w).2 slug =
      challengeBinding w slug) ∧
    ((challengeBinding w challenge.Challenge.Slug = none ∨
        challengeBinding w challenge.Challenge.Slug = some "" ∨
        challengeBinding w challenge.Challenge.Slug = some "0") →
      ∀ v : World, v.cluster = (uploadCTFdChallenge env challenge client w).2.cluster →
        env.getNonceAndSession v.trace = none →
        (∀ t, env.clusterGetError t "mapping-map" = none) →
        OneCall Call.isCreate v (updateOrCreateCTFdChallenge env challenge v).2 ∧
        (callsSince v (updateOrCreateCTFdChallenge env challenge v).2).countP
          Call.isCreate = 1) := by
  obtain ⟨herr, hcl⟩ := uploadCTFdChallenge_partly_failed client hmap hcreate hlater
  have hone : OneCall Call.isCreate w (uploadCTFdChallenge env challenge client w).2 :=
    uploadCTFdChallenge_one_of_mapping (m := m) (by rw [hmap])
      (show uploadCTFdChallenge env challenge client w =
        ((uploadCTFdChallenge env challenge client w).1,
          (uploadCTFdChallenge env challenge client w).2) from rfl)
  refine ⟨herr, hone, hcl, fun slug => by simp only [challengeBinding, storedValue, hcl], ?_⟩
  intro hb v hv hs hg
  obtain ⟨mc, hmc, hd⟩ := getMappingMap_ok_inv hmap
  have hbv : challengeBinding v challenge.Challenge.Slug = none ∨
      challengeBinding v challenge.Challenge.Slug = some "" ∨
      challengeBinding v challenge.Challenge.Slug = some "0" := by
    simpa only [challengeBinding, storedValue, hv, hcl] using hb
  have hrun : updateOrCreateCTFdChallenge env challenge v =
      ((updateOrCreateCTFdChallenge env challenge v).1,
        (updateOrCreateCTFdChallenge env challenge v).2) := rfl
  have one : OneCall Call.isCreate v (updateOrCreateCTFdChallenge env challenge v).2 := by
    rcases updateOrCreateCTFdChallenge_unbound hbv hrun with ⟨e, x, he⟩ | ⟨c, x, p, hup⟩
    · obtain ⟨c, hc⟩ := getCTFdClient_of_session hs
      rw [hc] at he; cases he
    · have hm2 := getMappingMap_of_readable env x (hg x.trace)
        (by rw [p.1.1, hv, hcl]; exact hmc) hd
      exact p.2.then_one (uploadCTFdChallenge_one_of_mapping (m := m) (by rw [hm2]) hup)
  exact ⟨one, one.countP_eq_one Call.isCreate
    (by intro c hc; cases c <;> simp_all [Call.isCreate, Call.isEntityCall])
    (fun _ hc => hc)⟩

set_option maxRecDepth 100000 in
/-- C29, amended, on a content service that refuses every flag: the upload of the unbound
slug `pwn-101` creates challenge 7, fails at the flag, returns an error and leaves the
slug unbound; the next upsert makes one create call again. -/
theorem partly_failed_create_keeps_bindings_witness :
    (uploadCTFdChallenge flagsDownEnv pwn101 ⟨"secret"⟩ demoWorld).1 =
      .error "500 internal server error" ∧
    challengeBinding (uploadCTFdChallenge flagsDownEnv pwn101 ⟨"secret"⟩ demoWorld).2
      "pwn-101" = none ∧
    (callsSince (uploadCTFdChallenge flagsDownEnv pwn101 ⟨"secret"⟩ demoWorld).2
      (updateOrCreateCTFdChallenge flagsDownEnv pwn101
        (uploadCTFdChallenge flagsDownEnv pwn101 ⟨"secret"⟩ demoWorld).2).2).countP
      Call.isCreate = 1 :=
  ⟨by decide, by decide,
    ((partly_failed_create_keeps_bindings flagsDownEnv pwn101 ⟨"secret"⟩ demoWorld
      (demoWorld.record (.clusterGet "mapping-map"))
      ((demoWorld.record (.clusterGet "mapping-map")).record
        (.postChallenges (postParamsOf pwn101 ⟨GoMap.empty, GoMap.empty, GoMap.empty⟩)))
      ⟨GoMap.empty, GoMap.empty, GoMap.empty⟩ 7
      (getMappingMap_of_readable flagsDownEnv demoWorld rfl
        (show demoWorld.cluster "mapping-map" = some ⟨"mapping-map", GoMap.empty, none⟩
          by decide) (by decide))
      rfl (Or.inr ⟨⟨7, by decide⟩, "500 internal server error", by decide⟩)).2.2.2.2
      (Or.inl (by decide))
      (uploadCTFdChallenge flagsDownEnv pwn101 ⟨"secret"⟩ demoWorld).2 rfl rfl
      (fun _ => rfl)).2⟩

end CtfdManager
